import Mathlib

/-!
# CrossPoint reader: page cache codec, position remapping, input handling and rendering

A shallow embedding of the parts of the firmware that the specification makes
claims about, followed by the theorems that settle those claims.

Conventions of the embedding:

* a byte is a `Fin 256`; a `std::string` is a list of bytes;
* unsigned fixed-width fields are kept in `Fin (2 ^ w)`, signed ones as an `Int`
  together with its range;
* arithmetic on C++ `int` / `int64_t` is done on `Int`; a signed result that
  leaves the range of its type is undefined behaviour in C++ and is reported
  as `none`;
* the target (ESP32) is little-endian, so `writePod` emits the least
  significant byte first.
-/

namespace CrossPoint

/-! ## Machine integers -/

/-- A signed value of width `w` bits: `some z` when `z` is representable, `none`
when computing it would overflow (undefined behaviour for signed types). -/
def checkedSigned (w : Nat) (z : Int) : Option Int :=
  if -(2 : Int) ^ (w - 1) ≤ z ∧ z < (2 : Int) ^ (w - 1) then some z else none

/-- Result of an `int` operation (32 bits on the target). -/
def int32 (z : Int) : Option Int := checkedSigned 32 z

/-- Result of an `int64_t` operation. -/
def int64 (z : Int) : Option Int := checkedSigned 64 z

/-- The conversion `static_cast<int>(v)` of a 64-bit value: reduction modulo
`2 ^ 32` into the signed range (never undefined). -/
def castToInt (z : Int) : Int := (z + 2 ^ 31) % 2 ^ 32 - 2 ^ 31

/-! ## PositionRemapper (`EpubReaderActivity.cpp`, lines 26-46) -/

/-- The function `mapPageBySectionPortion(savedPage, savedPageCount, targetPageCount)`.
The two counts are `uint16_t` and are promoted to `int` in every expression;
`numerator` is an `int64_t`; division is the truncating C++ division. -/
def mapPageBySectionPortion (savedPage : Int) (savedPageCount targetPageCount : Nat) :
    Option Int :=
  if targetPageCount = 0 ∨ targetPageCount = 1 ∨ savedPageCount ≤ 1 then
    some 0
  else do
    let clampedSavedPage ←
      if savedPage < 0 then some 0
      else if savedPage ≥ (savedPageCount : Int) then int32 ((savedPageCount : Int) - 1)
      else some savedPage
    let targetMinusOne ← int32 ((targetPageCount : Int) - 1)
    let numerator ← int64 (clampedSavedPage * targetMinusOne)
    let savedMinusOne ← int32 ((savedPageCount : Int) - 1)
    let half ← int32 (Int.tdiv savedMinusOne 2)
    let sum ← int64 (numerator + half)
    let quotient ← if savedMinusOne = 0 then none else int64 (Int.tdiv sum savedMinusOne)
    let mappedPage := castToInt quotient
    if mappedPage < 0 then some 0
    else if mappedPage ≥ (targetPageCount : Int) then int32 ((targetPageCount : Int) - 1)
    else some mappedPage

/-- Clamp `z` into `[lo, hi]`. -/
def clampInt (z lo hi : Int) : Int :=
  if z < lo then lo else if hi < z then hi else z

/-- The exact-integer reference of the remapping rule, following the wording of the
specification: `0` if `T ≤ 1` or `S ≤ 1`, otherwise the clamped round-half-up scaling
computed with floor division on unbounded integers. -/
def mapPositionRef (savedPage : Int) (S T : Nat) : Int :=
  if T ≤ 1 ∨ S ≤ 1 then 0
  else
    let p := clampInt savedPage 0 ((S : Int) - 1)
    clampInt (Int.fdiv (p * ((T : Int) - 1) + Int.fdiv ((S : Int) - 1) 2) ((S : Int) - 1))
      0 ((T : Int) - 1)

/-! ## Bytes and object representations (`Serialization.h`) -/

/-- One byte of a file or stream. -/
abbrev Byte := Fin 256

/-- The type `uint16_t`. -/
abbrev U16 := Fin 65536

/-- The type `uint32_t`. -/
abbrev U32 := Fin 4294967296

/-- The type `int16_t`. -/
abbrev I16 := { z : Int // -32768 ≤ z ∧ z < 32768 }

/-- Reduction of a natural number to a byte. -/
def Byte.ofNat (n : Nat) : Byte := ⟨n % 256, Nat.mod_lt n (by decide)⟩

/-- Conversion to `uint16_t` (reduction modulo `2 ^ 16`). -/
def U16.ofNat (n : Nat) : U16 := ⟨n % 65536, Nat.mod_lt n (by decide)⟩

/-- Conversion to `uint32_t` (reduction modulo `2 ^ 32`). -/
def U32.ofNat (n : Nat) : U32 := ⟨n % 4294967296, Nat.mod_lt n (by decide)⟩

/-- The `int16_t` with the given 16-bit pattern (two's complement). -/
def I16.ofNat (n : Nat) : I16 :=
  if h : n % 65536 < 32768 then ⟨((n % 65536 : Nat) : Int), by omega⟩
  else ⟨((n % 65536 : Nat) : Int) - 65536, by omega⟩

/-- The 16-bit pattern of an `int16_t` (two's complement). -/
def I16.toNat (z : I16) : Nat := (z.val % 65536).toNat

/-- The `n` low-order bytes of `v`, least significant first. -/
def toBytesLE : Nat → Nat → List Byte
  | 0, _ => []
  | n + 1, v => Byte.ofNat v :: toBytesLE n (v / 256)

/-- The number whose little-endian bytes are given. -/
def ofBytesLE : List Byte → Nat
  | [] => 0
  | b :: bs => b.val + 256 * ofBytesLE bs

/-- A trivially copyable type as `writePod` and `readPod` use it: `sizeof(T)` and the
object representation in both directions. -/
class Pod (α : Type) where
  /-- The value of `sizeof(T)`. -/
  size : Nat
  /-- The object representation of a value. -/
  toBytes : α → List Byte
  /-- The value with the given object representation. -/
  ofBytes : List Byte → α

instance : Pod Byte where
  size := 1
  toBytes v := toBytesLE 1 v.val
  ofBytes bs := Byte.ofNat (ofBytesLE bs)

instance : Pod U16 where
  size := 2
  toBytes v := toBytesLE 2 v.val
  ofBytes bs := U16.ofNat (ofBytesLE bs)

instance : Pod U32 where
  size := 4
  toBytes v := toBytesLE 4 v.val
  ofBytes bs := U32.ofNat (ofBytesLE bs)

instance : Pod I16 where
  size := 2
  toBytes v := toBytesLE 2 v.toNat
  ofBytes bs := I16.ofNat (ofBytesLE bs)

/-- The two directions of an object representation agree. -/
class LawfulPod (α : Type) [Pod α] : Prop where
  /-- A representation has `sizeof(T)` bytes. -/
  length_toBytes : ∀ v : α, (Pod.toBytes v).length = Pod.size α
  /-- Reading back a representation gives the value. -/
  ofBytes_toBytes : ∀ v : α, Pod.ofBytes (Pod.toBytes v) = v

/-- Memory of an object after a read delivered the bytes `got` into it: they replace its
leading bytes, the following bytes keep what they held. -/
def overwrite (old got : List Byte) : List Byte := got ++ old.drop got.length

/-- The call `s.resize(n)` on a `std::string`: truncate, or pad with zero bytes. -/
def resize (s : List Byte) (n : Nat) : List Byte := (s ++ List.replicate n (0 : Byte)).take n

/-- The constant `MAX_SERIALIZED_STRING_LENGTH` (256 KiB). -/
def MAX_SERIALIZED_STRING_LENGTH : Nat := 256 * 1024

/-- The loop `for (auto& x : xs) step(src, x)`: every element is updated in place, in
order, threading the state of the source. -/
def forEachRef {α σ : Type} (step : σ → α → α × σ) : List α → σ → List α × σ
  | [], s => ([], s)
  | x :: xs, s =>
    let r := step s x
    let rs := forEachRef step xs r.2
    (r.1 :: rs.1, rs.2)

/-! ### Writing

`writePod` and `writeString` are modelled by the bytes they append, which are the same
for an `FsFile` and for a `std::ostream`; write errors of the device are not modelled. -/

namespace serialization

/-- The call `writePod(out, value)`: the `sizeof(T)` bytes of the object. -/
def writePod {α : Type} [Pod α] (value : α) : List Byte := Pod.toBytes value

/-- The call `writeString(out, s)`: `len = s.size()` converted to `uint32_t`, written as a
pod, then `len` bytes of the string. -/
def writeString (s : List Byte) : List Byte :=
  let len : U32 := U32.ofNat s.length
  writePod len ++ s.take len.val

end serialization

/-! ### Reading from an `FsFile` -/

/-- An `FsFile` open for reading: the bytes from the current position to the end of the
file. Device errors are not modelled. -/
structure FsFile where
  /-- The bytes not yet read. -/
  data : List Byte
deriving DecidableEq

/-- The call `file.read(buf, n)`: delivers the next `n` bytes, fewer at the end of the
file; the number of bytes delivered is the returned count. -/
def FsFile.read (file : FsFile) (n : Nat) : List Byte × FsFile :=
  (file.data.take n, { data := file.data.drop n })

/-- The call `file.available()`: the number of bytes left, as an `int`. -/
def FsFile.available (file : FsFile) : Int := ((min file.data.length 2147483647 : Nat) : Int)

/-- The call `readPod(file, value)` for an object that held `old`: the result of
`file.read` is not inspected, so after a short read the bytes not delivered keep their
previous content. -/
def FsFile.readPod {α : Type} [Pod α] (file : FsFile) (old : α) : α × FsFile :=
  let r := file.read (Pod.size α)
  (Pod.ofBytes (overwrite (Pod.toBytes old) r.1), r.2)

/-- The call `readString(file, s)` (`Serialization.h`, lines 73-100). -/
def FsFile.readString (file : FsFile) (s : List Byte) : List Byte × FsFile :=
  let r := file.read 4
  let len : U32 := Pod.ofBytes (overwrite (Pod.toBytes (0 : U32)) r.1)
  if r.1.length ≠ 4 then ([], r.2)
  else if len.val > MAX_SERIALIZED_STRING_LENGTH then ([], r.2)
  else
    let available := r.2.available
    if available < 0 ∨ len.val > available.toNat then ([], r.2)
    else
      let s := resize s len.val
      if len.val = 0 then (s, r.2)
      else
        let r2 := r.2.read len.val
        if r2.1.length ≠ len.val then ([], r2.2) else (overwrite s r2.1, r2.2)

/-! ### Reading from a `std::istream` -/

/-- A `std::istream`: the characters not yet extracted and whether the stream is in a
failed state (`!is`). In this code the end-of-file bit is only ever set together with the
fail bit, so one flag also decides `good()`. -/
structure IStream where
  /-- The characters not yet extracted. -/
  data : List Byte
  /-- Whether `failbit` is set. -/
  failed : Bool
deriving DecidableEq

/-- The call `is.read(buf, n)`: nothing is extracted from a stream that is not good;
otherwise `n` characters are extracted, or all that are left, in which case the stream
fails. The characters delivered are the first component. -/
def IStream.read (is : IStream) (n : Nat) : List Byte × IStream :=
  if is.failed then ([], is)
  else if n ≤ is.data.length then (is.data.take n, { data := is.data.drop n, failed := false })
  else (is.data, { data := [], failed := true })

/-- The call `is.setstate(std::ios::failbit)`. -/
def IStream.setFail (is : IStream) : IStream := { is with failed := true }

/-- The call `readPod(is, value)` for an object that held `old`. -/
def IStream.readPod {α : Type} [Pod α] (is : IStream) (old : α) : α × IStream :=
  let r := is.read (Pod.size α)
  (Pod.ofBytes (overwrite (Pod.toBytes old) r.1), r.2)

/-- The call `readString(is, s)` (`Serialization.h`, lines 45-71); a failed allocation in
`s.resize` is not modelled. -/
def IStream.readString (is : IStream) (s : List Byte) : List Byte × IStream :=
  let r := is.read 4
  let len : U32 := Pod.ofBytes (overwrite (Pod.toBytes (0 : U32)) r.1)
  if r.2.failed then ([], r.2)
  else if len.val > MAX_SERIALIZED_STRING_LENGTH then ([], r.2.setFail)
  else
    let s := resize s len.val
    if len.val = 0 then (s, r.2)
    else
      let r2 := r.2.read len.val
      if r2.2.failed then ([], r2.2) else (overwrite s r2.1, r2.2)

/-! ## TextBlock (`TextBlock.h`, `TextBlock.cpp`) -/

/-- Modelled from the spec: the header `EpdFontFamily.h` with `EpdFontFamily::Style` is
not among the sources. The wire format gives every word one style byte, so the type is
taken to be an enumeration over `uint8_t`, kept as its byte. -/
abbrev EpdFontFamily.Style := Byte

/-- Modelled from the spec: the numeric value of `EpdFontFamily::REGULAR` is not among
the sources; it is taken to be the zero a `resize` fills in. -/
def EpdFontFamily.REGULAR : EpdFontFamily.Style := 0

/-- Modelled from the spec: the numeric value of `EpdFontFamily::BOLD` is not among the
sources. -/
def EpdFontFamily.BOLD : EpdFontFamily.Style := 1

/-- The enumeration `TextBlock::Style : uint8_t`, kept as its byte since `readPod` can
store any byte in it. -/
abbrev TextBlock.Style := Byte

/-- The enumerator `JUSTIFIED`. -/
def TextBlock.JUSTIFIED : TextBlock.Style := 0

/-- The enumerator `LEFT_ALIGN`. -/
def TextBlock.LEFT_ALIGN : TextBlock.Style := 1

/-- The enumerator `CENTER_ALIGN`. -/
def TextBlock.CENTER_ALIGN : TextBlock.Style := 2

/-- The enumerator `RIGHT_ALIGN`. -/
def TextBlock.RIGHT_ALIGN : TextBlock.Style := 3

/-- The data members of `TextBlock`. -/
structure TextBlock where
  /-- The words of the line. -/
  words : List (List Byte)
  /-- The horizontal offset of every word. -/
  wordXpos : List U16
  /-- The style of every word. -/
  wordStyles : List EpdFontFamily.Style
  /-- The alignment of the block. -/
  style : TextBlock.Style
deriving DecidableEq

/-- What the locals `wc` and `style` of `TextBlock::deserialize`, declared without an
initialiser, hold before they are read into. -/
structure TextBlock.Uninit where
  /-- Initial content of `wc`. -/
  wc : U16
  /-- Initial content of `style`. -/
  style : TextBlock.Style

/-- The function `TextBlock::serialize(FsFile&)`: the returned flag and the bytes written
to the file. -/
def TextBlock.serialize (tb : TextBlock) : Bool × List Byte :=
  if tb.words.length ≠ tb.wordXpos.length ∨ tb.words.length ≠ tb.wordStyles.length then
    (false, [])
  else
    (true,
      serialization.writePod (U16.ofNat tb.words.length)
        ++ (tb.words.map serialization.writeString).flatten
        ++ (tb.wordXpos.map serialization.writePod).flatten
        ++ (tb.wordStyles.map serialization.writePod).flatten
        ++ serialization.writePod tb.style)

/-- The function `TextBlock::deserialize(FsFile&)`: the block, or `none` for `nullptr`,
and the file after the call. -/
def TextBlock.deserialize (u : TextBlock.Uninit) (file : FsFile) : Option TextBlock × FsFile :=
  let rwc := file.readPod u.wc
  if rwc.1.val > 10000 then (none, rwc.2)
  else
    let rwords := forEachRef FsFile.readString (List.replicate rwc.1.val []) rwc.2
    let rxpos := forEachRef FsFile.readPod (List.replicate rwc.1.val (0 : U16)) rwords.2
    let rstyles :=
      forEachRef FsFile.readPod (List.replicate rwc.1.val (0 : EpdFontFamily.Style)) rxpos.2
    let rstyle := rstyles.2.readPod u.style
    (some { words := rwords.1, wordXpos := rxpos.1, wordStyles := rstyles.1, style := rstyle.1 },
      rstyle.2)

/-- Modelled from the spec: `Page.cpp` calls an overload `TextBlock::serialize(std::ostream&)`
that is not among the sources. It is taken to be the `FsFile` overload of `TextBlock.cpp`
statement by statement, with `writePod` and `writeString` resolved to their stream
overloads, which write the same bytes. -/
def TextBlock.serializeStream (tb : TextBlock) : Bool × List Byte :=
  if tb.words.length ≠ tb.wordXpos.length ∨ tb.words.length ≠ tb.wordStyles.length then
    (false, [])
  else
    (true,
      serialization.writePod (U16.ofNat tb.words.length)
        ++ (tb.words.map serialization.writeString).flatten
        ++ (tb.wordXpos.map serialization.writePod).flatten
        ++ (tb.wordStyles.map serialization.writePod).flatten
        ++ serialization.writePod tb.style)

/-- Modelled from the spec: `Page.cpp` calls an overload
`TextBlock::deserialize(std::istream&)` that is not among the sources. It is taken to be
the `FsFile` overload of `TextBlock.cpp` statement by statement, with `readPod` and
`readString` resolved to their stream overloads of `Serialization.h`. -/
def TextBlock.deserializeStream (u : TextBlock.Uninit) (is : IStream) :
    Option TextBlock × IStream :=
  let rwc := is.readPod u.wc
  if rwc.1.val > 10000 then (none, rwc.2)
  else
    let rwords := forEachRef IStream.readString (List.replicate rwc.1.val []) rwc.2
    let rxpos := forEachRef IStream.readPod (List.replicate rwc.1.val (0 : U16)) rwords.2
    let rstyles :=
      forEachRef IStream.readPod (List.replicate rwc.1.val (0 : EpdFontFamily.Style)) rxpos.2
    let rstyle := rstyles.2.readPod u.style
    (some { words := rwords.1, wordXpos := rxpos.1, wordStyles := rstyles.1, style := rstyle.1 },
      rstyle.2)

/-! ## Page (`Page.cpp`) -/

/-- The constant `PAGE_FILE_VERSION`. -/
def PAGE_FILE_VERSION : Byte := 3

/-- The data members of `PageLine`: the shared pointer to the block (`none` when null)
and the position. -/
structure PageLine where
  /-- The text block the line points to. -/
  block : Option TextBlock
  /-- Horizontal position. -/
  xPos : I16
  /-- Vertical position. -/
  yPos : I16
deriving DecidableEq

/-- The data members of `Page`. -/
structure Page where
  /-- The elements of the page, in order. -/
  elements : List PageLine
deriving DecidableEq

/-- Initial contents of the uninitialised locals met while one element is decoded: `tag`
in the loop body of `Page::deserialize`, `xPos` and `yPos` in `PageLine::deserialize`, and
those of `TextBlock::deserialize`. -/
structure PageLine.Uninit where
  /-- Initial content of `tag`. -/
  tag : Byte
  /-- Initial content of `xPos`. -/
  xPos : I16
  /-- Initial content of `yPos`. -/
  yPos : I16
  /-- Initial contents inside `TextBlock::deserialize`. -/
  block : TextBlock.Uninit

/-- Initial contents of the uninitialised locals of `Page::deserialize`; the locals of the
loop body are given per iteration. -/
structure Page.Uninit where
  /-- Initial content of `version`. -/
  version : Byte
  /-- Initial content of `count`. -/
  count : U32
  /-- Initial contents for the iteration with the given index. -/
  element : Nat → PageLine.Uninit

/-- The function `PageLine::serialize(std::ostream&)`: the bytes written; `none` when
`block` is null, where `block->serialize` is undefined. The flag returned by the block is
dropped. -/
def PageLine.serialize (line : PageLine) : Option (List Byte) :=
  match line.block with
  | none => none
  | some block =>
    some (serialization.writePod line.xPos ++ serialization.writePod line.yPos
      ++ block.serializeStream.2)

/-- The function `PageLine::deserialize(std::istream&)`. It always returns a line. -/
def PageLine.deserialize (u : PageLine.Uninit) (is : IStream) : PageLine × IStream :=
  let rx := is.readPod u.xPos
  let ry := rx.2.readPod u.yPos
  let rtb := TextBlock.deserializeStream u.block ry.2
  ({ block := rtb.1, xPos := rx.1, yPos := ry.1 }, rtb.2)

/-- The loop of `Page::serialize` over the elements; `TAG_PageLine` is declared in
`Page.h`, which is not among the sources, and is a parameter. -/
def Page.serializeElements (TAG_PageLine : Byte) : List PageLine → Option (List Byte)
  | [] => some []
  | el :: els =>
    match el.serialize, Page.serializeElements TAG_PageLine els with
    | some bytes, some more => some (serialization.writePod TAG_PageLine ++ bytes ++ more)
    | _, _ => none

/-- The function `Page::serialize(std::ostream&)`: the bytes written. -/
def Page.serialize (TAG_PageLine : Byte) (page : Page) : Option (List Byte) :=
  match Page.serializeElements TAG_PageLine page.elements with
  | none => none
  | some body =>
    some (serialization.writePod PAGE_FILE_VERSION
      ++ serialization.writePod (U32.ofNat page.elements.length) ++ body)

/-- The loop `for (uint32_t i = 0; i < count; i++)` of `Page::deserialize`, entered with
`remaining = count - i` iterations to go and the elements pushed so far. -/
def Page.deserializeElements (TAG_PageLine : Byte) (u : Nat → PageLine.Uninit) :
    Nat → Nat → List PageLine → IStream → Option (List PageLine) × IStream
  | 0, _, elements, is => (some elements, is)
  | remaining + 1, i, elements, is =>
    let rtag := is.readPod (u i).tag
    if rtag.1 = TAG_PageLine then
      let rpl := PageLine.deserialize (u i) rtag.2
      Page.deserializeElements TAG_PageLine u remaining (i + 1) (elements ++ [rpl.1]) rpl.2
    else (none, rtag.2)

/-- The function `Page::deserialize(std::istream&)`: the page, or `none` for `nullptr`,
and the stream after the call. -/
def Page.deserialize (TAG_PageLine : Byte) (u : Page.Uninit) (is : IStream) :
    Option Page × IStream :=
  let rversion := is.readPod u.version
  if rversion.1 ≠ PAGE_FILE_VERSION then (none, rversion.2)
  else
    let rcount := rversion.2.readPod u.count
    let r := Page.deserializeElements TAG_PageLine u.element rcount.1.val 0 [] rcount.2
    (r.1.map (fun elements => { elements := elements }), r.2)

/-! ## Limits and layout as the specification states them -/

/-- The limits under which the codec promises a round trip: the three sequences have equal
length, there are at most 10,000 words, and no word is longer than 262,144 bytes. -/
def TextBlock.WithinLimits (tb : TextBlock) : Prop :=
  tb.words.length = tb.wordXpos.length ∧ tb.words.length = tb.wordStyles.length ∧
    tb.words.length ≤ 10000 ∧ ∀ w ∈ tb.words, w.length ≤ 262144

instance (tb : TextBlock) : Decidable tb.WithinLimits := by
  unfold TextBlock.WithinLimits
  infer_instance

/-- A line element that has a text block, which is within the limits. -/
def PageLine.WithinLimits (line : PageLine) : Prop :=
  match line.block with
  | none => False
  | some tb => tb.WithinLimits

instance (line : PageLine) : Decidable line.WithinLimits := by
  unfold PageLine.WithinLimits
  cases line.block <;> infer_instance

/-- A line element that has a text block whose three sequences have equal length and whose
words are shorter than `2 ^ 32` bytes (as every string of the 32-bit target is). -/
def PageLine.Consistent (line : PageLine) : Prop :=
  match line.block with
  | none => False
  | some tb =>
    tb.words.length = tb.wordXpos.length ∧ tb.words.length = tb.wordStyles.length ∧
      ∀ w ∈ tb.words, w.length < 4294967296

instance (line : PageLine) : Decidable line.Consistent := by
  unfold PageLine.Consistent
  cases line.block <;> infer_instance

/-- The wire layout of one text block in the words of the specification: a 2-byte word
count, each word as a 4-byte length followed by its bytes, then the 2-byte offsets, the
style bytes and one alignment byte. -/
def textBlockLayout (tb : TextBlock) : List Byte :=
  toBytesLE 2 tb.words.length
    ++ (tb.words.map (fun w => toBytesLE 4 w.length ++ w)).flatten
    ++ (tb.wordXpos.map (fun x => toBytesLE 2 x.val)).flatten
    ++ tb.wordStyles
    ++ [tb.style]

/-- The wire layout of one element in the words of the specification: a 1-byte tag,
2-byte signed x, 2-byte signed y, then the text block. -/
def pageLineLayout (tag : Byte) (line : PageLine) : List Byte :=
  match line.block with
  | none => []
  | some tb => [tag] ++ toBytesLE 2 line.xPos.toNat ++ toBytesLE 2 line.yPos.toNat
      ++ textBlockLayout tb

/-- The wire layout of a page record in the words of the specification: one version byte
equal to 3, a 4-byte element count, then the elements. -/
def pageLayout (tag : Byte) (page : Page) : List Byte :=
  [3] ++ toBytesLE 4 page.elements.length ++ (page.elements.map (pageLineLayout tag)).flatten

/-- The length the specification gives for one line: `8 + 3 * n` plus, for every word,
4 and its length. -/
def pageLineEncodedLength (line : PageLine) : Nat :=
  match line.block with
  | none => 0
  | some tb => 8 + 3 * tb.words.length + (tb.words.map (fun w => 4 + w.length)).sum

/-- The length the specification gives for a page record. -/
def pageEncodedLength (page : Page) : Nat :=
  5 + (page.elements.map pageLineEncodedLength).sum

/-! ## Sample data -/

/-- The block of the specification's round-trip example: words `Hello` and `world`,
offsets 0 and 40, styles regular and bold, justified. -/
def helloWorld : TextBlock :=
  { words := [[72, 101, 108, 108, 111], [119, 111, 114, 108, 100]]
    wordXpos := [0, 40]
    wordStyles := [EpdFontFamily.REGULAR, EpdFontFamily.BOLD]
    style := TextBlock.JUSTIFIED }

/-- Some initial contents for the locals of `TextBlock::deserialize`. -/
def sampleBlockUninit : TextBlock.Uninit := { wc := 43981, style := 205 }

/-- Some initial contents for the locals met while decoding an element. -/
def sampleLineUninit : PageLine.Uninit :=
  { tag := 1, xPos := ⟨-1, by decide⟩, yPos := ⟨77, by decide⟩, block := sampleBlockUninit }

/-- Some initial contents for the locals of `Page::deserialize`. -/
def samplePageUninit : Page.Uninit :=
  { version := 3, count := 2, element := fun _ => sampleLineUninit }

/-- A line that holds the example block. -/
def sampleLine : PageLine :=
  { block := some helloWorld, xPos := ⟨-5, by decide⟩, yPos := ⟨300, by decide⟩ }

/-- The bytes `Page::serialize` writes for `sampleLine`, tag included, when the tag is 1. -/
def sampleLineBytes : List Byte :=
  [1, 251, 255, 44, 1, 2, 0, 5, 0, 0, 0, 72, 101, 108, 108, 111, 5, 0, 0, 0, 119, 111, 114,
    108, 100, 0, 0, 40, 0, 0, 1, 0]

/-- A page of two lines. -/
def samplePage : Page :=
  { elements :=
      [sampleLine,
       { block := some { words := [[]], wordXpos := [65535], wordStyles := [3], style := 2 },
         xPos := ⟨0, by decide⟩, yPos := ⟨-32768, by decide⟩ }] }

/-! ## Short reads -/

/-- The stream has failed, or what is left of it is a proper initial part of the bytes
`expected` that a decoder is still to read. -/
def IStream.Short (is : IStream) (expected : List Byte) : Prop :=
  is.failed = false → is.data <+: expected ∧ is.data.length < expected.length

/-- A line with a block whose word and offset sequences have different lengths. -/
def mismatchedLine : PageLine :=
  { block := some { words := [[97]], wordXpos := [], wordStyles := [], style := 0 },
    xPos := ⟨7, by decide⟩, yPos := ⟨9, by decide⟩ }

/-- The record of the page that holds `sampleLine` alone (tag 1), without its last byte,
the alignment byte of the block. -/
def truncatedRecord : List Byte :=
  [3, 1, 0, 0, 0, 1, 251, 255, 44, 1, 2, 0, 5, 0, 0, 0, 72, 101, 108, 108, 111, 5, 0, 0, 0, 119,
    111, 114, 108, 100, 0, 0, 40, 0, 0, 1]

/-! ## LongPressHandler (`LongPressHandler.h`) -/

/-- The data members of `LongPressHandler`. -/
structure LongPressHandler where
  /-- Member `armed`. -/
  armed : Bool
  /-- Member `waitForNewCycle`. -/
  waitForNewCycle : Bool
  /-- Member `seenPress`. -/
  seenPress : Bool
  /-- Member `rearmAfterRender`. -/
  rearmAfterRender : Bool
deriving DecidableEq

namespace LongPressHandler

/-- The constructor `LongPressHandler()`. -/
def init : LongPressHandler :=
  { armed := true, waitForNewCycle := false, seenPress := false, rearmAfterRender := false }

/-- The method `reset(startArmed)`. -/
def reset (_h : LongPressHandler) (startArmed : Bool) : LongPressHandler :=
  { armed := startArmed, waitForNewCycle := false, seenPress := false,
    rearmAfterRender := false }

/-- The method `observePressRelease(anyWasPressed, anyWasReleased)`. -/
def observePressRelease (h : LongPressHandler) (_anyWasPressed anyWasReleased : Bool) :
    LongPressHandler :=
  if !h.waitForNewCycle then h
  else if anyWasReleased then
    { h with waitForNewCycle := false, seenPress := false, armed := true }
  else h

/-- The method `onRenderComplete()`. -/
def onRenderComplete (h : LongPressHandler) : LongPressHandler :=
  if h.rearmAfterRender then { h with rearmAfterRender := false, armed := true } else h

/-- The struct `PollResult`. -/
structure PollResult where
  /-- Field `mediumPrev`. -/
  mediumPrev : Bool := false
  /-- Field `mediumNext`. -/
  mediumNext : Bool := false
  /-- Field `longPress`. -/
  longPress : Bool := false
deriving DecidableEq

/-- The statements that every firing branch of `poll` shares: disarm, then either schedule
the re-arm after the next render or wait for a new press cycle. -/
def disarm (h : LongPressHandler) (repeatEnabled : Bool) : LongPressHandler :=
  if repeatEnabled then { h with armed := false, rearmAfterRender := true }
  else { h with armed := false, waitForNewCycle := true }

/-- The method `poll(prevPressed, nextPressed, heldMs, mediumMs, longMs, repeatEnabled)`:
the result and the handler afterwards. The times are `unsigned long` and only compared. -/
def poll (h : LongPressHandler) (prevPressed nextPressed : Bool) (heldMs mediumMs longMs : Nat)
    (repeatEnabled : Bool) : PollResult × LongPressHandler :=
  if h.waitForNewCycle then ({}, h)
  else if !h.armed then ({}, h)
  else if prevPressed && decide (heldMs ≥ mediumMs) then
    ({ mediumPrev := true }, h.disarm repeatEnabled)
  else if nextPressed && decide (heldMs ≥ mediumMs) then
    ({ mediumNext := true }, h.disarm repeatEnabled)
  else if (prevPressed || nextPressed) && decide (heldMs ≥ longMs) then
    ({ longPress := true }, h.disarm repeatEnabled)
  else ({}, h)

/-- The method `suppressRelease(heldMs, mediumMs, prevReleased, nextReleased)`. -/
def suppressRelease (_h : LongPressHandler) (heldMs mediumMs : Nat)
    (prevReleased nextReleased : Bool) : Bool :=
  (prevReleased || nextReleased) && decide (heldMs ≥ mediumMs)

/-- A call of one of the methods that change the handler. -/
inductive Call where
  /-- A call of `observePressRelease`. -/
  | observePressRelease (anyWasPressed anyWasReleased : Bool)
  /-- A call of `onRenderComplete`. -/
  | onRenderComplete
  /-- A call of `poll`. -/
  | poll (prevPressed nextPressed : Bool) (heldMs mediumMs longMs : Nat) (repeatEnabled : Bool)
deriving DecidableEq

/-- The handler after a sequence of calls, and the results of the polls among them, in
order. -/
def run (h : LongPressHandler) : List Call → List PollResult × LongPressHandler
  | [] => ([], h)
  | Call.observePressRelease p r :: cs => run (h.observePressRelease p r) cs
  | Call.onRenderComplete :: cs => run h.onRenderComplete cs
  | Call.poll p n held medium long rep :: cs =>
    let r := h.poll p n held medium long rep
    let rs := run r.2 cs
    (r.1 :: rs.1, rs.2)

/-- Whether a poll result carries an event. -/
def PollResult.fired (r : PollResult) : Bool := r.mediumPrev || r.mediumNext || r.longPress

/-- A call made while "next" alone is held past the medium threshold in one-shot mode and
no release edge is seen: a poll with these inputs, a completed render, or an observation
without a release. -/
def Call.HoldsNextOneShot : Call → Prop
  | Call.observePressRelease _ r => r = false
  | Call.onRenderComplete => True
  | Call.poll p n held medium _ rep => p = false ∧ n = true ∧ medium ≤ held ∧ rep = false

instance (c : Call) : Decidable c.HoldsNextOneShot := by
  cases c <;> unfold Call.HoldsNextOneShot <;> infer_instance

/-- A call that is not a poll. -/
def Call.NotPoll : Call → Prop
  | Call.poll _ _ _ _ _ _ => False
  | _ => True

instance (c : Call) : Decidable c.NotPoll := by
  cases c <;> unfold Call.NotPoll <;> infer_instance

/-- A call that is not `onRenderComplete`. -/
def Call.NotRender : Call → Prop
  | Call.onRenderComplete => False
  | _ => True

instance (c : Call) : Decidable c.NotRender := by
  cases c <;> unfold Call.NotRender <;> infer_instance

/-- A call that, if it is a poll, has `repeatEnabled` set. -/
def Call.RepeatMode : Call → Prop
  | Call.poll _ _ _ _ _ rep => rep = true
  | _ => True

instance (c : Call) : Decidable c.RepeatMode := by
  cases c <;> unfold Call.RepeatMode <;> infer_instance

/-- The number of completed renders among the calls. -/
def renders (cs : List Call) : Nat := cs.countP (fun c => decide (c = Call.onRenderComplete))

end LongPressHandler

/-! ## EpubReaderActivity (`EpubReaderActivity.cpp`)

The collaborators (storage, layout engine, display) are not modelled: what they return
in one activation of `renderScreen` is given by a `RenderEnv`, and what the activity does
to them is recorded as a list of `ReaderEvent`s. -/

/-- The constant `legacyProgressSize`. -/
def legacyProgressSize : Nat := 4

/-- The constant `progressSizeWithSectionPageCount`. -/
def progressSizeWithSectionPageCount : Nat := 6

/-- The constant `maxSectionBuildRetries`. -/
def maxSectionBuildRetries : Nat := 2

/-- The constant `UINT16_MAX`. -/
def UINT16_MAX : Int := 65535

/-- The conversion of an `int` to `size_t` (32 bits on the target), as in the comparison
of `bytesRead` with a `size_t` constant. -/
def toSizeT (z : Int) : Nat := (z % 4294967296).toNat

/-- The conversion of an `int` to `uint8_t`. -/
def Byte.ofInt (z : Int) : Byte := ⟨(z % 256).toNat, by omega⟩

/-- What the reader asks of its `Epub`. -/
structure Epub where
  /-- The value of `getSpineItemsCount()`. -/
  spineItemsCount : Int
  /-- The value of `getSpineIndexForTextReference()`. -/
  spineIndexForTextReference : Int
deriving DecidableEq

/-- The public data members of `Section` (`Section.h`). -/
structure Section where
  /-- Member `pageCount`. -/
  pageCount : U16 := 0
  /-- Member `currentPage`. -/
  currentPage : Int := 0
deriving DecidableEq

/-- The data members of `EpubReaderActivity` that `onEnter` and `renderScreen` use. The
header among the sources predates the progress-restore and retry members; they are taken
with the types their uses show (`progressRestoreSectionPageCount` is passed as a
`uint16_t`, the retry counter is an unsigned counter compared with a `uint8_t`). -/
structure EpubReaderActivity where
  /-- Member `epub` (`none` when null). -/
  epub : Option Epub
  /-- Member `section` (`none` when null). -/
  sectionPtr : Option Section
  /-- Member `currentSpineIndex`. -/
  currentSpineIndex : Int
  /-- Member `nextPageNumber`. -/
  nextPageNumber : Int
  /-- Member `pagesUntilFullRefresh`. -/
  pagesUntilFullRefresh : Int
  /-- Member `updateRequired`. -/
  updateRequired : Bool
  /-- Member `sectionBuildRetryCount`. -/
  sectionBuildRetryCount : Nat
  /-- Member `hasPendingProgressRestore`. -/
  hasPendingProgressRestore : Bool
  /-- Member `hasProgressRestoreSectionPageCount`. -/
  hasProgressRestoreSectionPageCount : Bool
  /-- Member `progressRestoreSpineIndex`. -/
  progressRestoreSpineIndex : Int
  /-- Member `progressRestoreSectionPageCount`. -/
  progressRestoreSectionPageCount : U16
deriving DecidableEq

/-- What is on the display after a `displayBuffer` call of `renderScreen`. -/
inductive Shown where
  /-- The text "End of book". -/
  | endOfBook
  /-- The box "Indexing...". -/
  | indexing
  /-- The text "Failed to index section" with the retry hint. -/
  | failedToIndex
  /-- The text "Empty chapter". -/
  | emptyChapter
  /-- The text "Out of bounds". -/
  | outOfBounds
  /-- A page of the book. -/
  | page
deriving DecidableEq

/-- What `renderScreen` does to its collaborators. -/
inductive ReaderEvent where
  /-- Something was put on the display. -/
  | display (what : Shown)
  /-- The call `section->loadSectionFile(...)` and whether it succeeded. -/
  | loadSectionFile (ok : Bool)
  /-- The call `section->createSectionFile(...)` and whether it succeeded. -/
  | createSectionFile (ok : Bool)
  /-- The call `vTaskDelay` before a retry. -/
  | delay
  /-- The call `section->loadPageFromSectionFile()` and whether it gave a page. -/
  | loadPage (ok : Bool)
  /-- The call `section->clearCache()`. -/
  | clearCache
  /-- The bytes written to `progress.bin`. -/
  | writeProgress (bytes : List Byte)
deriving DecidableEq

/-- What the collaborators answer during one activation of `renderScreen`. -/
structure RenderEnv where
  /-- Whether `loadSectionFile` succeeds, and the page count it then leaves in the section. -/
  loadSectionFile : Option U16
  /-- Whether `createSectionFile` succeeds, and the page count it then leaves. -/
  createSectionFile : Option U16
  /-- Whether `loadPageFromSectionFile` returns a page. -/
  loadPageFromSectionFile : Bool
  /-- Whether `openFileForWrite` of `progress.bin` succeeds. -/
  openFileForWrite : Bool
  /-- The value of `SETTINGS.getRefreshFrequency()`. -/
  refreshFrequency : Int
deriving DecidableEq

/-- Outcome of a call that may run into undefined behaviour or, in the model, out of
fuel. -/
inductive RunResult (α : Type) where
  /-- The call returned. -/
  | returned (value : α)
  /-- The call ran into undefined behaviour. -/
  | undefined
  /-- The call had not returned when the fuel ran out. -/
  | unfinished
deriving DecidableEq

/-- What `openFileForRead` and `f.read(data, sizeof(data))` give `onEnter`. -/
structure ProgressFileRead where
  /-- The value returned by `f.read`. -/
  bytesRead : Int
  /-- The array `data` after the call. -/
  data : List Byte
deriving DecidableEq

/-- A read of up to six bytes from a healthy file with the given content into the array
`data`, which held `old`. -/
def readProgressFile (content old : List Byte) : ProgressFileRead :=
  let r := FsFile.read { data := content } progressSizeWithSectionPageCount
  { bytesRead := (r.1.length : Int), data := overwrite old r.1 }

namespace EpubReaderActivity

/-- The bytes `data[0..5]` that `renderScreen` computes for `progress.bin` (lines 426-432):
`x & 0xFF` and `(x >> 8) & 0xFF` of the three values, each stored in a `uint8_t`. -/
def progressBytes (currentSpineIndex currentPage : Int) (pageCount : U16) : List Byte :=
  [Byte.ofInt (currentSpineIndex % 256), Byte.ofInt ((currentSpineIndex / 256) % 256),
    Byte.ofInt (currentPage % 256), Byte.ofInt ((currentPage / 256) % 256),
    Byte.ofInt ((pageCount.val : Int) % 256), Byte.ofInt (((pageCount.val : Int) / 256) % 256)]

/-- The part of `onEnter` that reads `progress.bin` (lines 69-90); `none` when the file
could not be opened. -/
def loadProgress (a : EpubReaderActivity) (file : Option ProgressFileRead) :
    EpubReaderActivity :=
  match file with
  | none => a
  | some r =>
    if toSizeT r.bytesRead ≥ legacyProgressSize then
      let spine : Int := ((r.data.getD 0 0).val : Int) + ((r.data.getD 1 0).val : Int) * 256
      let page : Int := ((r.data.getD 2 0).val : Int) + ((r.data.getD 3 0).val : Int) * 256
      let hasCount : Bool := decide (toSizeT r.bytesRead ≥ progressSizeWithSectionPageCount)
      { a with
        currentSpineIndex := spine
        nextPageNumber := page
        progressRestoreSpineIndex := spine
        hasPendingProgressRestore := true
        hasProgressRestoreSectionPageCount := hasCount
        progressRestoreSectionPageCount :=
          if hasCount then U16.ofNat ((r.data.getD 4 0).val + (r.data.getD 5 0).val * 256)
          else 0 }
    else a

/-- The method `onEnter()`. The display orientation, the mutex, the application state and
the creation of the display task are not modelled. -/
def onEnter (a : EpubReaderActivity) (file : Option ProgressFileRead) : EpubReaderActivity :=
  match a.epub with
  | none => a
  | some epub =>
    let a := a.loadProgress file
    let a :=
      if a.currentSpineIndex = 0 then
        if epub.spineIndexForTextReference ≠ 0 then
          { a with currentSpineIndex := epub.spineIndexForTextReference }
        else a
      else a
    { a with updateRequired := true }

/-- The page `renderScreen` makes current in a section it has just loaded or built
(lines 368-388); `none` when the remapping is undefined. -/
def chooseCurrentPage (a : EpubReaderActivity) (sectionReindexed : Bool) (pageCount : U16) :
    Option Int :=
  if a.nextPageNumber = UINT16_MAX then some ((pageCount.val : Int) - 1)
  else
    let mapped : Option Int :=
      if sectionReindexed && a.hasPendingProgressRestore
          && a.hasProgressRestoreSectionPageCount
          && decide (a.progressRestoreSpineIndex = a.currentSpineIndex) then
        mapPageBySectionPortion a.nextPageNumber a.progressRestoreSectionPageCount.val
          pageCount.val
      else some a.nextPageNumber
    mapped.map (fun targetPage =>
      if pageCount.val = 0 then 0
      else if targetPage < 0 then 0
      else if targetPage ≥ (pageCount.val : Int) then (pageCount.val : Int) - 1
      else targetPage)

/-- The end of the block `if (!section)` (lines 368-390) once the section file is there. -/
def finishSection (a : EpubReaderActivity) (sectionReindexed : Bool) (pageCount : U16)
    (events : List ReaderEvent) : Option (EpubReaderActivity × List ReaderEvent × Bool) :=
  match a.chooseCurrentPage sectionReindexed pageCount with
  | none => none
  | some page =>
    some ({ a with
      sectionPtr := some { pageCount := pageCount, currentPage := page }
      hasPendingProgressRestore := false
      hasProgressRestoreSectionPageCount := false }, events, false)

/-- The block `if (!section) { ... }` of `renderScreen` (lines 303-391). The flag tells
whether `renderScreen` returned from inside the block. -/
def ensureSection (env : RenderEnv) (a : EpubReaderActivity) :
    Option (EpubReaderActivity × List ReaderEvent × Bool) :=
  match a.sectionPtr with
  | some _ => some (a, [], false)
  | none =>
    match env.loadSectionFile with
    | some pageCount =>
      finishSection { a with sectionBuildRetryCount := 0 } false pageCount
        [ReaderEvent.loadSectionFile true]
    | none =>
      let a := { a with pagesUntilFullRefresh := 0 }
      match env.createSectionFile with
      | some pageCount =>
        finishSection { a with sectionBuildRetryCount := 0 } true pageCount
          [ReaderEvent.loadSectionFile false, ReaderEvent.display Shown.indexing,
            ReaderEvent.createSectionFile true]
      | none =>
        if a.sectionBuildRetryCount < maxSectionBuildRetries then
          some ({ a with
              sectionPtr := none
              sectionBuildRetryCount := a.sectionBuildRetryCount + 1
              updateRequired := true },
            [ReaderEvent.loadSectionFile false, ReaderEvent.display Shown.indexing,
              ReaderEvent.createSectionFile false, ReaderEvent.delay], true)
        else
          some ({ a with sectionPtr := none, sectionBuildRetryCount := 0 },
            [ReaderEvent.loadSectionFile false, ReaderEvent.display Shown.indexing,
              ReaderEvent.createSectionFile false, ReaderEvent.display Shown.failedToIndex],
            true)

/-- The function `displayWithRefreshCadence` applied to `pagesUntilFullRefresh`. -/
def displayWithRefreshCadence (env : RenderEnv) (a : EpubReaderActivity) : EpubReaderActivity :=
  if a.pagesUntilFullRefresh ≤ 1 then { a with pagesUntilFullRefresh := env.refreshFrequency }
  else { a with pagesUntilFullRefresh := a.pagesUntilFullRefresh - 1 }

/-- The two bounds checks on `currentSpineIndex` at the start of `renderScreen`
(lines 275-282). -/
def clampSpineIndex (epub : Epub) (a : EpubReaderActivity) : EpubReaderActivity :=
  let a := if a.currentSpineIndex < 0 then { a with currentSpineIndex := 0 } else a
  if a.currentSpineIndex > epub.spineItemsCount then
    { a with currentSpineIndex := epub.spineItemsCount }
  else a

/-- The rest of `renderScreen` once the section `sec` is there (lines 393-436), after the
events so far. The flag tells whether it ends in the tail call `return renderScreen()`. -/
def renderSection (env : RenderEnv) (a : EpubReaderActivity) (events : List ReaderEvent)
    (sec : Section) : EpubReaderActivity × List ReaderEvent × Bool :=
  if sec.pageCount.val = 0 then
    (a, events ++ [ReaderEvent.display Shown.emptyChapter], false)
  else if sec.currentPage < 0 ∨ sec.currentPage ≥ (sec.pageCount.val : Int) then
    (a, events ++ [ReaderEvent.display Shown.outOfBounds], false)
  else if !env.loadPageFromSectionFile then
    ({ a with sectionPtr := none },
      events ++ [ReaderEvent.loadPage false, ReaderEvent.clearCache], true)
  else
    let a := displayWithRefreshCadence env a
    let events := events ++ [ReaderEvent.loadPage true, ReaderEvent.display Shown.page]
    if env.openFileForWrite then
      (a, events ++ [ReaderEvent.writeProgress
        (progressBytes a.currentSpineIndex sec.currentPage sec.pageCount)], false)
    else (a, events, false)

/-- One activation of `renderScreen()`: the activity afterwards, what was done, and
whether the activation ends in the tail call `return renderScreen()`. `none` stands for
undefined behaviour. -/
def renderScreenBody (env : RenderEnv) (a : EpubReaderActivity) :
    Option (EpubReaderActivity × List ReaderEvent × Bool) :=
  match a.epub with
  | none => some (a, [], false)
  | some epub =>
    let a := clampSpineIndex epub a
    if a.currentSpineIndex = epub.spineItemsCount then
      some (a, [ReaderEvent.display Shown.endOfBook], false)
    else
      match ensureSection env a with
      | none => none
      | some (a, events, true) => some (a, events, false)
      | some (a, events, false) =>
        match a.sectionPtr with
        | none => none
        | some sec => some (renderSection env a events sec)

/-- The method `renderScreen()`: activations follow one another through the tail call,
the activation at depth `d` being answered by `envs d`, for at most `fuel` activations. -/
def renderScreen (envs : Nat → RenderEnv) :
    Nat → Nat → EpubReaderActivity → RunResult (EpubReaderActivity × List ReaderEvent)
  | 0, _, _ => RunResult.unfinished
  | fuel + 1, depth, a =>
    match a.renderScreenBody (envs depth) with
    | none => RunResult.undefined
    | some (a', events, false) => RunResult.returned (a', events)
    | some (a', events, true) =>
      match renderScreen envs fuel (depth + 1) a' with
      | RunResult.returned (a'', more) => RunResult.returned (a'', events ++ more)
      | RunResult.undefined => RunResult.undefined
      | RunResult.unfinished => RunResult.unfinished

end EpubReaderActivity

/-- Collaborators with which neither the cached section loads nor a build succeeds. -/
def failingEnv : RenderEnv :=
  { loadSectionFile := none, createSectionFile := none, loadPageFromSectionFile := false,
    openFileForWrite := false, refreshFrequency := 15 }

/-- Collaborators with which the cached section of 10 pages loads and everything works. -/
def workingEnv : RenderEnv :=
  { loadSectionFile := some 10, createSectionFile := some 10, loadPageFromSectionFile := true,
    openFileForWrite := true, refreshFrequency := 15 }

/-- An activity on a book of 12 spine items, before anything was loaded. -/
def sampleActivity : EpubReaderActivity :=
  { epub := some { spineItemsCount := 12, spineIndexForTextReference := 2 }
    sectionPtr := none
    currentSpineIndex := 3
    nextPageNumber := 5
    pagesUntilFullRefresh := 0
    updateRequired := false
    sectionBuildRetryCount := 0
    hasPendingProgressRestore := false
    hasProgressRestoreSectionPageCount := false
    progressRestoreSpineIndex := 0
    progressRestoreSectionPageCount := 0 }

/-! ## Further predicates and sample data -/

/-- The handler is either armed with nothing pending, or disarmed with exactly one way back:
waiting for a new press cycle, or waiting for the next completed render. -/
def LongPressHandler.Settled (h : LongPressHandler) : Prop :=
  (h.armed = true ∧ h.waitForNewCycle = false ∧ h.rearmAfterRender = false) ∨
  (h.armed = false ∧ h.waitForNewCycle = true ∧ h.rearmAfterRender = false) ∨
  (h.armed = false ∧ h.waitForNewCycle = false ∧ h.rearmAfterRender = true)

instance (h : LongPressHandler) : Decidable h.Settled := by
  unfold LongPressHandler.Settled; infer_instance

/-- The record of a page with one text line at (7, 9), tag 1, whose block declares
10,001 words (`11 27` in hexadecimal, least significant byte first). -/
def oversizedCountRecord : List Byte := [3, 1, 0, 0, 0, 1, 7, 0, 9, 0, 17, 39]

/-- Collaborators with which no page can be read from the section file: the first
activation of `renderScreen` finds a cached section of 10 pages; every later one finds the
cache cleared and builds the section of 10 pages anew. -/
def pageFailingEnvs (depth : Nat) : RenderEnv :=
  { loadSectionFile := if depth = 0 then some 10 else none, createSectionFile := some 10,
    loadPageFromSectionFile := false, openFileForWrite := true, refreshFrequency := 15 }

/-! ## Division and remainder on `int` -/

/-- The quotient `a / b` of two `int`s: truncation toward zero; `none` (undefined
behaviour) when the divisor is 0 or the quotient is not representable. -/
def intDiv (a b : Int) : Option Int :=
  if b = 0 then none else int32 (Int.tdiv a b)

/-- The remainder `a % b` of two `int`s, with the sign of the dividend; `none` (undefined
behaviour) when the divisor is 0 or the quotient `a / b` is not representable. -/
def intRem (a b : Int) : Option Int :=
  if b = 0 then none else (int32 (Int.tdiv a b)).map (fun _ => Int.tmod a b)

/-! ## ListNavigation (`ListNavigation.h`) -/

namespace ListNavigation

/-- The function `nextPage(current, pageSize, total)`:
`((current / pageSize + 1) * pageSize) % total`. -/
def nextPage (current pageSize total : Int) : Option Int :=
  (intDiv current pageSize).bind fun q =>
  (int32 (q + 1)).bind fun q1 =>
  (int32 (q1 * pageSize)).bind fun start =>
  intRem start total

/-- The function `prevPage(current, pageSize, total)`:
`((current / pageSize - 1) * pageSize + total) % total`. -/
def prevPage (current pageSize total : Int) : Option Int :=
  (intDiv current pageSize).bind fun q =>
  (int32 (q - 1)).bind fun q1 =>
  (int32 (q1 * pageSize)).bind fun start =>
  (int32 (start + total)).bind fun shifted =>
  intRem shifted total

end ListNavigation

/-! ## MyLibraryActivity (`MyLibraryActivity.cpp`): navigation in `loop` -/

/-- The data members of `MyLibraryActivity` that the navigation in `loop` uses. -/
structure MyLibraryActivity where
  /-- Member `selectorIndex`. -/
  selectorIndex : Int
  /-- Member `updateRequired`. -/
  updateRequired : Bool
  /-- Member `longPressHandler`. -/
  longPressHandler : LongPressHandler
deriving DecidableEq

/-- What the buttons and the settings give one call of `loop`. -/
structure LibraryInput where
  /-- Up or Left is held (`prevPressed`). -/
  prevPressed : Bool
  /-- Down or Right is held (`nextPressed`). -/
  nextPressed : Bool
  /-- One of the four buttons went down (`anyWasPressed`). -/
  anyWasPressed : Bool
  /-- One of the four buttons went up (`anyWasReleased`). -/
  anyWasReleased : Bool
  /-- Up went up (`upReleased`, which is `prevReleased`). -/
  upReleased : Bool
  /-- Down went up (`downReleased`, which is `nextReleased`). -/
  downReleased : Bool
  /-- The value of `mappedInput.getHeldTime()`. -/
  heldTime : Nat
  /-- The value of `SETTINGS.getMediumPressMs()`. -/
  mediumPressMs : Nat
  /-- The value of `SETTINGS.getLongPressMs()`. -/
  longPressMs : Nat
  /-- The value of `SETTINGS.longPressRepeat`. -/
  longPressRepeat : Bool
deriving DecidableEq

namespace MyLibraryActivity

/-- The expression `((selectorIndex / pageItems - 1) * pageItems + itemCount) % itemCount`
of lines 303 and 412. -/
def skipBack (selectorIndex pageItems itemCount : Int) : Option Int :=
  (intDiv selectorIndex pageItems).bind fun q =>
  (int32 (q - 1)).bind fun q1 =>
  (int32 (q1 * pageItems)).bind fun start =>
  (int32 (start + itemCount)).bind fun shifted =>
  intRem shifted itemCount

/-- The expression `((selectorIndex / pageItems + 1) * pageItems) % itemCount` of lines 308
and 419. -/
def skipForward (selectorIndex pageItems itemCount : Int) : Option Int :=
  (intDiv selectorIndex pageItems).bind fun q =>
  (int32 (q + 1)).bind fun q1 =>
  (int32 (q1 * pageItems)).bind fun start =>
  intRem start itemCount

/-- The statements of `loop` from `longPressHandler.observePressRelease` to the two
branches on the poll result (lines 298-311), for the values `itemCount` and `pageItems`
taken at the start of `loop`. The flag tells whether `loop` returned there; `none` stands
for undefined behaviour. -/
def holdSkip (a : MyLibraryActivity) (itemCount pageItems : Int) (i : LibraryInput) :
    Option (MyLibraryActivity × Bool) :=
  let h := a.longPressHandler.observePressRelease i.anyWasPressed i.anyWasReleased
  let r := h.poll i.prevPressed i.nextPressed i.heldTime i.mediumPressMs i.longPressMs
    i.longPressRepeat
  if r.1.mediumPrev then
    (skipBack a.selectorIndex pageItems itemCount).map fun index =>
      ({ selectorIndex := index, updateRequired := true, longPressHandler := r.2 }, true)
  else if r.1.mediumNext then
    (skipForward a.selectorIndex pageItems itemCount).map fun index =>
      ({ selectorIndex := index, updateRequired := true, longPressHandler := r.2 }, true)
  else some ({ a with longPressHandler := r.2 }, false)

/-- The release-driven navigation at the end of `loop` (lines 406-424); `skipPage` is
`getHeldTime() > getMediumPressMs()`. `none` stands for undefined behaviour. -/
def releaseNavigation (a : MyLibraryActivity) (itemCount pageItems : Int) (i : LibraryInput) :
    Option MyLibraryActivity :=
  let skipPage : Bool := decide (i.heldTime > i.mediumPressMs)
  if i.upReleased && decide (itemCount > 0) then
    let index :=
      if skipPage then skipBack a.selectorIndex pageItems itemCount
      else (int32 (a.selectorIndex + itemCount)).bind fun s =>
        (int32 (s - 1)).bind fun s1 => intRem s1 itemCount
    index.map fun index => { a with selectorIndex := index, updateRequired := true }
  else if i.downReleased && decide (itemCount > 0) then
    let index :=
      if skipPage then skipForward a.selectorIndex pageItems itemCount
      else (int32 (a.selectorIndex + 1)).bind fun s => intRem s itemCount
    index.map fun index => { a with selectorIndex := index, updateRequired := true }
  else some a

end MyLibraryActivity

/-- The library screen on an empty list, nothing selected yet, the handler as
constructed. -/
def emptyLibrary : MyLibraryActivity :=
  { selectorIndex := 0, updateRequired := false, longPressHandler := LongPressHandler.init }

/-- Down held for 900 ms with a medium-press threshold of 700 ms. -/
def holdingDown : LibraryInput :=
  { prevPressed := false, nextPressed := true, anyWasPressed := false, anyWasReleased := false,
    upReleased := false, downReleased := false, heldTime := 900, mediumPressMs := 700,
    longPressMs := 1500, longPressRepeat := false }

/-! ## DisplayTaskHelpers (`DisplayTaskHelpers.h`) -/

/-- What the display task does in one iteration of `displayLoop`, in order. -/
inductive DisplayEvent where
  /-- The assignment `updateRequired = false`. -/
  | clearFlag
  /-- The call `xSemaphoreTake(mutex, portMAX_DELAY)`. -/
  | takeMutex
  /-- The call `render()`. -/
  | render
  /-- The call `xSemaphoreGive(mutex)`. -/
  | giveMutex
  /-- The call `postRender()`. -/
  | postRender
  /-- The call `vTaskDelay(10 / portTICK_PERIOD_MS)`. -/
  | delay
deriving DecidableEq

/-- What the callbacks of `displayLoop` act on: the flag `updateRequired`, which the loop
holds by reference, and the rest of the activity. -/
structure DisplayWorld (σ : Type) where
  /-- The flag `updateRequired`. -/
  updateRequired : Bool
  /-- The rest of the state the callbacks capture. -/
  state : σ

namespace DisplayTaskHelpers

/-- One iteration of `while (true)` in `displayLoop(updateRequired, mutex, render)`
(lines 15-25): the world afterwards and what was done. -/
def displayLoopBody {σ : Type} (render : DisplayWorld σ → DisplayWorld σ)
    (w : DisplayWorld σ) : DisplayWorld σ × List DisplayEvent :=
  if w.updateRequired then
    (render { w with updateRequired := false },
      [DisplayEvent.clearFlag, DisplayEvent.takeMutex, DisplayEvent.render,
        DisplayEvent.giveMutex, DisplayEvent.delay])
  else (w, [DisplayEvent.delay])

/-- One iteration of `while (true)` in
`displayLoop(updateRequired, mutex, render, postRender)` (lines 29-41). -/
def displayLoopBodyPost {σ : Type} (render postRender : DisplayWorld σ → DisplayWorld σ)
    (w : DisplayWorld σ) : DisplayWorld σ × List DisplayEvent :=
  if w.updateRequired then
    (postRender (render { w with updateRequired := false }),
      [DisplayEvent.clearFlag, DisplayEvent.takeMutex, DisplayEvent.render,
        DisplayEvent.giveMutex, DisplayEvent.postRender, DisplayEvent.delay])
  else (w, [DisplayEvent.delay])

/-- One iteration of `while (true)` in
`displayLoop(updateRequired, mutex, render, postRender, canRender)` (lines 47-59); the
guard is evaluated only when the flag is set. -/
def displayLoopBodyGuarded {σ : Type} (render postRender : DisplayWorld σ → DisplayWorld σ)
    (canRender : DisplayWorld σ → Bool) (w : DisplayWorld σ) :
    DisplayWorld σ × List DisplayEvent :=
  if w.updateRequired && canRender w then
    (postRender (render { w with updateRequired := false }),
      [DisplayEvent.clearFlag, DisplayEvent.takeMutex, DisplayEvent.render,
        DisplayEvent.giveMutex, DisplayEvent.postRender, DisplayEvent.delay])
  else (w, [DisplayEvent.delay])

/-- Whether, in a sequence of events of the display task that starts with the mutex held
by it or not, the mutex is taken only when free and given only when held, every `render`
happens while it is held and every post-render hook while it is not. -/
def wellLocked : Bool → List DisplayEvent → Bool
  | _, [] => true
  | held, DisplayEvent.takeMutex :: es => !held && wellLocked true es
  | held, DisplayEvent.giveMutex :: es => held && wellLocked false es
  | held, DisplayEvent.render :: es => held && wellLocked held es
  | held, DisplayEvent.postRender :: es => !held && wellLocked held es
  | held, DisplayEvent.clearFlag :: es => wellLocked held es
  | held, DisplayEvent.delay :: es => wellLocked held es

end DisplayTaskHelpers

/-- A render procedure that counts its calls and asks for one more render after the
first. -/
def countingRender (w : DisplayWorld Nat) : DisplayWorld Nat :=
  { updateRequired := decide (w.state = 0), state := w.state + 1 }

/-- A post-render hook that adds 100 to the counter. -/
def countingHook (w : DisplayWorld Nat) : DisplayWorld Nat :=
  { w with state := w.state + 100 }

/-! ## Processing profiles (`EpubProcessingProfile.h`) and the section build -/

/-- The struct `EpubProcessingProfile`, with its default member initialisers; the two
sizes are `size_t`. -/
structure EpubProcessingProfile where
  /-- Member `sectionStreamBufferSize`. -/
  sectionStreamBufferSize : Nat := 4096
  /-- Member `htmlParseChunkSize`. -/
  htmlParseChunkSize : Nat := 4096
  /-- Member `pageProcessLogInterval`. -/
  pageProcessLogInterval : U16 := 25
  /-- Member `cacheLineMetrics`. -/
  cacheLineMetrics : Bool := true
deriving DecidableEq

namespace EpubProcessingProfile

/-- The constant `DEFAULT_CHUNK_SIZE`. -/
def DEFAULT_CHUNK_SIZE : Nat := 1024

/-- The function `optimized()`. -/
def optimized : EpubProcessingProfile := {}

/-- The function `baseline()`. -/
def baseline : EpubProcessingProfile :=
  { sectionStreamBufferSize := 1024, htmlParseChunkSize := 1024, pageProcessLogInterval := 1,
    cacheLineMetrics := false }

/-- The method `sectionChunkSizeOrDefault()`. -/
def sectionChunkSizeOrDefault (p : EpubProcessingProfile) : Nat :=
  if p.sectionStreamBufferSize > 0 then p.sectionStreamBufferSize else DEFAULT_CHUNK_SIZE

/-- The method `parseChunkSizeOrDefault()`. -/
def parseChunkSizeOrDefault (p : EpubProcessingProfile) : Nat :=
  if p.htmlParseChunkSize > 0 then p.htmlParseChunkSize else DEFAULT_CHUNK_SIZE

end EpubProcessingProfile

/-- Modelled from the spec: reading content through a buffer of `size` bytes ("buffer/chunk
sizes for reading chapter content"): the chunks delivered one after the other until the
content is used up, at most `fuel` of them. -/
def readChunksAux (size : Nat) : Nat → List Byte → List (List Byte)
  | 0, _ => []
  | fuel + 1, content =>
    if content = [] then [] else content.take size :: readChunksAux size fuel (content.drop size)

/-- Modelled from the spec: the chunks in which content is read through a buffer of `size`
bytes. -/
def readChunks (size : Nat) (content : List Byte) : List (List Byte) :=
  readChunksAux size content.length content

/-- Modelled from the spec: a cache of derived metrics ("a flag to cache derived line
metrics"): a measurement is looked up among the ones already made and computed only when
it is not found. -/
def cachedMetric {κ : Type} [DecidableEq κ] (measure : κ → Nat) (cache : List (κ × Nat))
    (key : κ) : Nat :=
  match cache.lookup key with
  | some m => m
  | none => measure key

/-- Modelled from the spec: the cache after the measurements of `keys` were made through
it, in order. -/
def fillMetricCache {κ : Type} [DecidableEq κ] (measure : κ → Nat) :
    List (κ × Nat) → List κ → List (κ × Nat)
  | cache, [] => cache
  | cache, key :: keys =>
    fillMetricCache measure ((key, cachedMetric measure cache key) :: cache) keys

/-- Modelled from the spec: what a build of a section leaves: the pages written to the
cache, in order, and the page count recorded (`Section::pageCount`, a `uint16_t`). -/
structure SectionBuild where
  /-- The pages written through the page codec. -/
  pages : List Page
  /-- The page count recorded. -/
  pageCount : U16
deriving DecidableEq

/-- Modelled from the spec: `Section::createSectionFile`, whose body is not among the
sources. The chapter is read through a buffer of `sectionChunkSizeOrDefault()` bytes and
handed on in pieces of `parseChunkSizeOrDefault()` bytes to the layout engine, an external
collaborator that turns chapter content and layout parameters into pages and measures
lines through the metric it is given; with `cacheLineMetrics` the metric goes through a
cache that holds the measurements made so far (`measured`). Every page is written as it is
produced and counted. -/
def Section.createSectionFile {ρ κ : Type} [DecidableEq κ]
    (layout : ρ → (κ → Nat) → List Byte → List Page) (measure : κ → Nat) (measured : List κ)
    (params : ρ) (chapter : List Byte) (profile : EpubProcessingProfile) : SectionBuild :=
  let streamed := (readChunks profile.sectionChunkSizeOrDefault chapter).flatten
  let parsed := (readChunks profile.parseChunkSizeOrDefault streamed).flatten
  let metric : κ → Nat :=
    if profile.cacheLineMetrics then cachedMetric measure (fillMetricCache measure [] measured)
    else measure
  let pages := layout params metric parsed
  { pages := pages, pageCount := U16.ofNat pages.length }

/-! ## EpubReaderActivity::loop (`EpubReaderActivity.cpp`, lines 130-267)

What `loop` does to the state it shares with the display task, and whether it holds
`renderingMutex` while doing it, is recorded as a list of `LoopEvent`s. -/

/-- The struct `PageTurnInputState` as `readPageTurnInputState` fills it
(`ReaderActivityHelpers.h`). -/
structure PageTurnInputState where
  /-- Field `prevReleased`. -/
  prevReleased : Bool
  /-- Field `nextReleased`. -/
  nextReleased : Bool
  /-- Field `prevPressed`. -/
  prevPressed : Bool
  /-- Field `nextPressed`. -/
  nextPressed : Bool
  /-- Field `anyWasPressed`. -/
  anyWasPressed : Bool
  /-- Field `anyWasReleased`. -/
  anyWasReleased : Bool
deriving DecidableEq

/-- What the chapter-selection screen does with the callbacks it was constructed with
during one call of its `loop` (`EpubReaderChapterSelectionActivity.cpp`, lines 109 and
176-181). -/
inductive SubActivityCall where
  /-- No callback is called. -/
  | nothing
  /-- The call `onGoBack()`. -/
  | onGoBack
  /-- The call `onSelectSpineIndex(newSpineIndex)`. -/
  | onSelectSpineIndex (newSpineIndex : Int)
  /-- The call `onSyncPosition(newSpineIndex, newPage)`. -/
  | onSyncPosition (newSpineIndex newPage : Int)
deriving DecidableEq

/-- What the buttons, the settings and the sub-activity give one call of `loop`. -/
structure LoopInput where
  /-- The value of `wasReleased(Button::Confirm)`. -/
  confirmReleased : Bool
  /-- The value of `isPressed(Button::Back)`. -/
  backPressed : Bool
  /-- The value of `wasReleased(Button::Back)`. -/
  backReleased : Bool
  /-- The value of `getHeldTime()`. -/
  heldTime : Nat
  /-- The value of `SETTINGS.getMediumPressMs()`. -/
  mediumPressMs : Nat
  /-- The value of `SETTINGS.getLongPressMs()`. -/
  longPressMs : Nat
  /-- The value of `SETTINGS.longPressChapterSkip`. -/
  longPressChapterSkip : Bool
  /-- The value of `SETTINGS.longPressRepeat`. -/
  longPressRepeat : Bool
  /-- The result of `readPageTurnInputState`. -/
  pageTurn : PageTurnInputState
  /-- What the sub-activity does in its `loop`, when there is one. -/
  subActivity : SubActivityCall
deriving DecidableEq

/-- What `loop` does, as far as the display task is concerned. -/
inductive LoopEvent where
  /-- The call `xSemaphoreTake(renderingMutex, portMAX_DELAY)`. -/
  | takeMutex
  /-- The call `xSemaphoreGive(renderingMutex)`. -/
  | giveMutex
  /-- An assignment to `currentSpineIndex`. -/
  | setCurrentSpineIndex
  /-- An assignment to `nextPageNumber`. -/
  | setNextPageNumber
  /-- A change of `section->currentPage`. -/
  | setCurrentPage
  /-- The call `section.reset()`. -/
  | resetSection
  /-- The call `exitActivity()`. -/
  | exitActivity
  /-- The call `enterNewActivity(...)`. -/
  | enterNewActivity
  /-- The call `onGoHome()`. -/
  | onGoHome
  /-- The call `onGoBack()`. -/
  | onGoBack
deriving DecidableEq

/-- The reader while `loop` runs: the activity, its `longPressHandler` and whether
`subActivity` is set. -/
structure ReaderLoop where
  /-- The members of the activity. -/
  activity : EpubReaderActivity
  /-- Member `longPressHandler`. -/
  longPressHandler : LongPressHandler
  /-- Whether `subActivity` is non-null. -/
  subActivity : Bool
deriving DecidableEq

namespace EpubReaderActivity

/-- The callback `[this](const int newSpineIndex) { ... }` given to the chapter-selection
screen (lines 150-158). -/
def onSelectSpineIndex (st : ReaderLoop) (newSpineIndex : Int) : ReaderLoop × List LoopEvent :=
  let r : EpubReaderActivity × List LoopEvent :=
    if st.activity.currentSpineIndex ≠ newSpineIndex then
      ({ st.activity with
          currentSpineIndex := newSpineIndex, nextPageNumber := 0, sectionPtr := none },
        [LoopEvent.setCurrentSpineIndex, LoopEvent.setNextPageNumber, LoopEvent.resetSection])
    else (st.activity, [])
  ({ st with activity := { r.1 with updateRequired := true }, subActivity := false },
    r.2 ++ [LoopEvent.exitActivity])

/-- The callback `[this](const int newSpineIndex, const int newPage) { ... }` given to the
chapter-selection screen (lines 159-168). -/
def onSyncPosition (st : ReaderLoop) (newSpineIndex newPage : Int) :
    ReaderLoop × List LoopEvent :=
  let pageDiffers : Bool :=
    match st.activity.sectionPtr with
    | some sec => decide (sec.currentPage ≠ newPage)
    | none => false
  let r : EpubReaderActivity × List LoopEvent :=
    if st.activity.currentSpineIndex ≠ newSpineIndex ∨ pageDiffers = true then
      ({ st.activity with
          currentSpineIndex := newSpineIndex, nextPageNumber := newPage, sectionPtr := none },
        [LoopEvent.setCurrentSpineIndex, LoopEvent.setNextPageNumber, LoopEvent.resetSection])
    else (st.activity, [])
  ({ st with activity := { r.1 with updateRequired := true }, subActivity := false },
    r.2 ++ [LoopEvent.exitActivity])

/-- The call `subActivity->loop()` (line 133), as far as it reaches the reader: through
the callbacks of lines 146-168. -/
def subActivityLoop (st : ReaderLoop) : SubActivityCall → ReaderLoop × List LoopEvent
  | SubActivityCall.nothing => (st, [])
  | SubActivityCall.onGoBack =>
    ({ st with activity := { st.activity with updateRequired := true }, subActivity := false },
      [LoopEvent.exitActivity])
  | SubActivityCall.onSelectSpineIndex newSpineIndex => onSelectSpineIndex st newSpineIndex
  | SubActivityCall.onSyncPosition newSpineIndex newPage =>
    onSyncPosition st newSpineIndex newPage

/-- The end of `loop` (lines 215-266), reached with a page-turn button released and no
medium-press event: the activity afterwards and what was done; `none` stands for undefined
behaviour (a null `epub`). -/
def turnPage (a : EpubReaderActivity) (h : LongPressHandler) (i : LoopInput) :
    Option (EpubReaderActivity × List LoopEvent) :=
  let atEnd : Option Bool :=
    if a.currentSpineIndex > 0 then
      a.epub.map fun epub => decide (a.currentSpineIndex ≥ epub.spineItemsCount)
    else some false
  match atEnd, a.epub with
  | none, _ => none
  | some true, none => none
  | some true, some epub =>
    some ({ a with
        currentSpineIndex := epub.spineItemsCount - 1, nextPageNumber := UINT16_MAX,
        updateRequired := true },
      [LoopEvent.setCurrentSpineIndex, LoopEvent.setNextPageNumber])
  | some false, _ =>
    if h.suppressRelease i.heldTime i.mediumPressMs i.pageTurn.prevReleased
        i.pageTurn.nextReleased then
      some (a, [])
    else
      match a.sectionPtr with
      | none => some ({ a with updateRequired := true }, [])
      | some sec =>
        if i.pageTurn.prevReleased then
          if sec.currentPage > 0 then
            some ({ a with
                sectionPtr := some { sec with currentPage := sec.currentPage - 1 },
                updateRequired := true },
              [LoopEvent.setCurrentPage])
          else
            some ({ a with
                nextPageNumber := UINT16_MAX, currentSpineIndex := a.currentSpineIndex - 1,
                sectionPtr := none, updateRequired := true },
              [LoopEvent.takeMutex, LoopEvent.setNextPageNumber, LoopEvent.setCurrentSpineIndex,
                LoopEvent.resetSection, LoopEvent.giveMutex])
        else
          if sec.currentPage < (sec.pageCount.val : Int) - 1 then
            some ({ a with
                sectionPtr := some { sec with currentPage := sec.currentPage + 1 },
                updateRequired := true },
              [LoopEvent.setCurrentPage])
          else
            some ({ a with
                nextPageNumber := 0, currentSpineIndex := a.currentSpineIndex + 1,
                sectionPtr := none, updateRequired := true },
              [LoopEvent.takeMutex, LoopEvent.setNextPageNumber, LoopEvent.setCurrentSpineIndex,
                LoopEvent.resetSection, LoopEvent.giveMutex])

/-- The medium-press chapter skip of `loop` (lines 190-213), done when
`SETTINGS.longPressChapterSkip` is set: the reader afterwards, what was done, and whether
`loop` returned there. -/
def chapterSkip (st : ReaderLoop) (i : LoopInput) : ReaderLoop × List LoopEvent × Bool :=
  let h := st.longPressHandler.observePressRelease i.pageTurn.anyWasPressed
    i.pageTurn.anyWasReleased
  let r := h.poll i.pageTurn.prevPressed i.pageTurn.nextPressed i.heldTime i.mediumPressMs
    i.longPressMs i.longPressRepeat
  if r.1.mediumPrev then
    ({ st with
        longPressHandler := r.2
        activity := { st.activity with
          nextPageNumber := 0, currentSpineIndex := st.activity.currentSpineIndex - 1,
          sectionPtr := none, updateRequired := true } },
      [LoopEvent.takeMutex, LoopEvent.setNextPageNumber, LoopEvent.setCurrentSpineIndex,
        LoopEvent.resetSection, LoopEvent.giveMutex], true)
  else if r.1.mediumNext then
    ({ st with
        longPressHandler := r.2
        activity := { st.activity with
          nextPageNumber := 0, currentSpineIndex := st.activity.currentSpineIndex + 1,
          sectionPtr := none, updateRequired := true } },
      [LoopEvent.takeMutex, LoopEvent.setNextPageNumber, LoopEvent.setCurrentSpineIndex,
        LoopEvent.resetSection, LoopEvent.giveMutex], true)
  else ({ st with longPressHandler := r.2 }, [], false)

/-- The method `loop()`: the reader afterwards and what was done, in order; `none` stands
for undefined behaviour. Arithmetic on `currentSpineIndex` and `currentPage` is exact, and
the constructor arguments of the chapter-selection screen, which only read the activity,
are left out. -/
def loop (st : ReaderLoop) (i : LoopInput) : Option (ReaderLoop × List LoopEvent) :=
  if st.subActivity then some (subActivityLoop st i.subActivity)
  else
    let entered : ReaderLoop × List LoopEvent :=
      if i.confirmReleased then
        ({ st with subActivity := true },
          [LoopEvent.takeMutex, LoopEvent.exitActivity, LoopEvent.enterNewActivity,
            LoopEvent.giveMutex])
      else (st, [])
    if i.backPressed && decide (i.heldTime ≥ i.longPressMs) then
      some (entered.1, entered.2 ++ [LoopEvent.onGoHome])
    else if i.backReleased && decide (i.heldTime < i.longPressMs) then
      some (entered.1, entered.2 ++ [LoopEvent.onGoBack])
    else
      let skipped : ReaderLoop × List LoopEvent × Bool :=
        if i.longPressChapterSkip then chapterSkip entered.1 i else (entered.1, [], false)
      if skipped.2.2 then some (skipped.1, entered.2 ++ skipped.2.1)
      else if !i.pageTurn.prevReleased && !i.pageTurn.nextReleased then
        some (skipped.1, entered.2)
      else
        (turnPage skipped.1.activity skipped.1.longPressHandler i).map fun r =>
          ({ skipped.1 with activity := r.1 }, entered.2 ++ r.2)

end EpubReaderActivity

/-- Whether an event changes `currentSpineIndex`, `nextPageNumber` or
`section->currentPage`, or discards the section. -/
def LoopEvent.isMutation : LoopEvent → Bool
  | LoopEvent.setCurrentSpineIndex => true
  | LoopEvent.setNextPageNumber => true
  | LoopEvent.setCurrentPage => true
  | LoopEvent.resetSection => true
  | _ => false

/-- Whether every mutation among the events is made while `renderingMutex` is held, given
whether it is held at the start. -/
def mutationsLocked : Bool → List LoopEvent → Bool
  | _, [] => true
  | _, LoopEvent.takeMutex :: es => mutationsLocked true es
  | _, LoopEvent.giveMutex :: es => mutationsLocked false es
  | held, e :: es => (!e.isMutation || held) && mutationsLocked held es

/-- The reader on page 4 of a section of 10 pages, no sub-activity. -/
def readingLoop : ReaderLoop :=
  { activity := { sampleActivity with sectionPtr := some { pageCount := 10, currentPage := 4 } }
    longPressHandler := LongPressHandler.init
    subActivity := false }

/-- No button is touched. -/
def idleInput : LoopInput :=
  { confirmReleased := false, backPressed := false, backReleased := false, heldTime := 0,
    mediumPressMs := 700, longPressMs := 1500, longPressChapterSkip := true,
    longPressRepeat := false,
    pageTurn :=
      { prevReleased := false, nextReleased := false, prevPressed := false,
        nextPressed := false, anyWasPressed := false, anyWasReleased := false },
    subActivity := SubActivityCall.nothing }

/-- The page-forward button is released after a short press of 120 ms. -/
def nextReleasedInput : LoopInput :=
  { idleInput with
    heldTime := 120
    pageTurn :=
      { prevReleased := false, nextReleased := true, prevPressed := false,
        nextPressed := false, anyWasPressed := false, anyWasReleased := true } }

/-- Whether every `section.reset()` among the events is made while `renderingMutex` is
held, given whether it is held at the start. -/
def resetsLocked : Bool → List LoopEvent → Bool
  | _, [] => true
  | _, LoopEvent.takeMutex :: es => resetsLocked true es
  | _, LoopEvent.giveMutex :: es => resetsLocked false es
  | held, LoopEvent.resetSection :: es => held && resetsLocked held es
  | held, _ :: es => resetsLocked held es

/-- Collaborators with which the first activation of `renderScreen` finds a cached section
of 10 pages but cannot read a page from it, and every later one finds the cache cleared
and fails to build the section. -/
def cacheThenFailureEnvs (depth : Nat) : RenderEnv :=
  if depth = 0 then
    { loadSectionFile := some 10, createSectionFile := none, loadPageFromSectionFile := false,
      openFileForWrite := true, refreshFrequency := 15 }
  else failingEnv

/-! # Theorems -/

example : mapPageBySectionPortion 5 10 10 = some 5 := by decide
example : mapPageBySectionPortion 9 10 5 = some 4 := by decide
example : mapPageBySectionPortion 0 1 7 = some 0 := by decide
example : mapPositionRef 9 10 5 = 4 := by decide

/-! ## Facts about the remapping -/

theorem checkedSigned_of_mem (w : Nat) (z : Int)
    (h : -(2 : Int) ^ (w - 1) ≤ z ∧ z < (2 : Int) ^ (w - 1)) : checkedSigned w z = some z := by
  unfold checkedSigned
  rw [if_pos h]

theorem int32_of_mem (z : Int) (h1 : -2147483648 ≤ z) (h2 : z < 2147483648) :
    int32 z = some z := by
  unfold int32
  apply checkedSigned_of_mem
  norm_num
  exact ⟨h1, h2⟩

theorem int64_of_mem (z : Int) (h1 : -9223372036854775808 ≤ z)
    (h2 : z < 9223372036854775808) : int64 z = some z := by
  unfold int64
  apply checkedSigned_of_mem
  norm_num
  exact ⟨h1, h2⟩

theorem castToInt_of_mem (z : Int) (h1 : -2147483648 ≤ z) (h2 : z < 2147483648) :
    castToInt z = z := by
  unfold castToInt
  omega

/-- The scaled quotient lies in `[0, t]` when `0 ≤ c ≤ s` and `0 < s`. -/
theorem scaled_quotient_bounds (c s t : Int) (hs : 0 < s) (ht : 0 ≤ t) (hc0 : 0 ≤ c)
    (hc : c ≤ s) : 0 ≤ (c * t + s / 2) / s ∧ (c * t + s / 2) / s ≤ t := by
  have hhalf0 : 0 ≤ s / 2 := by omega
  have hhalf : s / 2 < s := by omega
  have hct : 0 ≤ c * t := mul_nonneg hc0 ht
  have hle : c * t ≤ s * t := mul_le_mul_of_nonneg_right hc ht
  constructor
  · exact Int.ediv_nonneg (by omega) (le_of_lt hs)
  · have : (c * t + s / 2) / s < t + 1 := by
      rw [Int.ediv_lt_iff_lt_mul hs]
      have : (t + 1) * s = s * t + s := by ring
      omega
    omega

/-- Value of the machine computation once the early return is excluded: no checked
operation overflows and the result is the scaled quotient of the clamped page. -/
theorem mapPage_of_large (p : Int) (S T : Nat) (hp1 : -2147483648 ≤ p) (hp2 : p < 2147483648)
    (hS : S ≤ 65535) (hT : T ≤ 65535) (hS2 : 2 ≤ S) (hT2 : 2 ≤ T) :
    mapPageBySectionPortion p S T =
      some ((clampInt p 0 ((S : Int) - 1) * ((T : Int) - 1) + ((S : Int) - 1) / 2)
        / ((S : Int) - 1)) := by
  have hguard : ¬ (T = 0 ∨ T = 1 ∨ S ≤ 1) := by omega
  obtain ⟨c, hcdef⟩ : ∃ c, c = clampInt p 0 ((S : Int) - 1) := ⟨_, rfl⟩
  have hc0 : 0 ≤ c := by
    rw [hcdef]; unfold clampInt; split_ifs <;> omega
  have hc1 : c ≤ (S : Int) - 1 := by
    rw [hcdef]; unfold clampInt; split_ifs <;> omega
  have hs : (0 : Int) < (S : Int) - 1 := by omega
  have ht : (0 : Int) ≤ (T : Int) - 1 := by omega
  have hq := scaled_quotient_bounds c ((S : Int) - 1) ((T : Int) - 1) hs ht hc0 hc1
  have hnum0 : 0 ≤ c * ((T : Int) - 1) := mul_nonneg hc0 ht
  have hnum1 : c * ((T : Int) - 1) ≤ 65534 * 65534 :=
    mul_le_mul (by omega) (by omega) ht (by norm_num)
  have hhalf : Int.tdiv ((S : Int) - 1) 2 = ((S : Int) - 1) / 2 :=
    Int.tdiv_eq_ediv (le_of_lt hs) (by norm_num)
  have hsum0 : 0 ≤ c * ((T : Int) - 1) + ((S : Int) - 1) / 2 := by omega
  have hquot : Int.tdiv (c * ((T : Int) - 1) + ((S : Int) - 1) / 2) ((S : Int) - 1)
      = (c * ((T : Int) - 1) + ((S : Int) - 1) / 2) / ((S : Int) - 1) :=
    Int.tdiv_eq_ediv hsum0 (le_of_lt hs)
  have key : ∀ y : Int, y = c →
      (do
        let targetMinusOne ← int32 ((T : Int) - 1)
        let numerator ← int64 (y * targetMinusOne)
        let savedMinusOne ← int32 ((S : Int) - 1)
        let half ← int32 (Int.tdiv savedMinusOne 2)
        let sum ← int64 (numerator + half)
        let quotient ← if savedMinusOne = 0 then none else int64 (Int.tdiv sum savedMinusOne)
        let mappedPage := castToInt quotient
        if mappedPage < 0 then some 0
        else if mappedPage ≥ (T : Int) then int32 ((T : Int) - 1)
        else some mappedPage) =
      some ((c * ((T : Int) - 1) + ((S : Int) - 1) / 2) / ((S : Int) - 1)) := by
    intro y hy
    subst hy
    rw [int32_of_mem ((T : Int) - 1) (by omega) (by omega)]
    simp only [Option.bind_eq_bind, Option.some_bind]
    rw [int64_of_mem _ (by omega) (by omega)]
    simp only [Option.some_bind]
    rw [int32_of_mem ((S : Int) - 1) (by omega) (by omega)]
    simp only [Option.some_bind]
    rw [hhalf, int32_of_mem _ (by omega) (by omega)]
    simp only [Option.some_bind]
    rw [int64_of_mem _ (by omega) (by omega)]
    simp only [Option.some_bind]
    rw [if_neg (by omega), hquot, int64_of_mem _ (by omega) (by omega)]
    simp only [Option.some_bind]
    rw [castToInt_of_mem _ (by omega) (by omega), if_neg (by omega), if_neg (by omega)]
  unfold mapPageBySectionPortion
  rw [if_neg hguard, ← hcdef]
  by_cases h1 : p < 0
  · have hc : (0 : Int) = c := by rw [hcdef]; unfold clampInt; rw [if_pos h1]
    simp only [if_pos h1]
    exact key 0 hc
  · by_cases h2 : p ≥ (S : Int)
    · have hc : (S : Int) - 1 = c := by
        rw [hcdef]; unfold clampInt; rw [if_neg h1, if_pos (by omega)]
      simp only [if_neg h1, if_pos h2]
      have k := key _ hc
      rw [int32_of_mem ((S : Int) - 1) (by omega) (by omega)] at k ⊢
      exact k
    · have hc : p = c := by
        rw [hcdef]; unfold clampInt; rw [if_neg h1, if_neg (by omega)]
      simp only [if_neg h1, if_neg h2]
      exact key p hc

/-- The reference on the non-degenerate branch is the same scaled quotient. -/
theorem mapPositionRef_of_large (p : Int) (S T : Nat) (hS2 : 2 ≤ S) (hT2 : 2 ≤ T) :
    mapPositionRef p S T =
      (clampInt p 0 ((S : Int) - 1) * ((T : Int) - 1) + ((S : Int) - 1) / 2)
        / ((S : Int) - 1) := by
  have hguard : ¬ (T ≤ 1 ∨ S ≤ 1) := by omega
  have hs : (0 : Int) < (S : Int) - 1 := by omega
  have ht : (0 : Int) ≤ (T : Int) - 1 := by omega
  have hc0 : 0 ≤ clampInt p 0 ((S : Int) - 1) := by
    unfold clampInt; split_ifs <;> omega
  have hc1 : clampInt p 0 ((S : Int) - 1) ≤ (S : Int) - 1 := by
    unfold clampInt; split_ifs <;> omega
  have hq := scaled_quotient_bounds _ ((S : Int) - 1) ((T : Int) - 1) hs ht hc0 hc1
  unfold mapPositionRef
  rw [if_neg hguard]
  simp only
  rw [Int.fdiv_eq_ediv _ (by norm_num : (0 : Int) ≤ 2), Int.fdiv_eq_ediv _ (le_of_lt hs)]
  generalize (clampInt p 0 ((S : Int) - 1) * ((T : Int) - 1) + ((S : Int) - 1) / 2)
    / ((S : Int) - 1) = q at hq ⊢
  unfold clampInt
  rw [if_neg (by omega), if_neg (by omega)]

/-- C1: for every 32-bit `savedPage` and all 16-bit page counts, the machine-integer
computation of `mapPageBySectionPortion` overflows nowhere (it yields `some`) and its
value is the exact-integer reference: `0` when `T ≤ 1` or `S ≤ 1`, otherwise the clamped
round-half-up quotient of the clamped saved page. -/
theorem C1_mapPage_eq_reference (savedPage : Int) (S T : Nat)
    (hp1 : -2147483648 ≤ savedPage) (hp2 : savedPage < 2147483648)
    (hS : S ≤ 65535) (hT : T ≤ 65535) :
    mapPageBySectionPortion savedPage S T = some (mapPositionRef savedPage S T) := by
  by_cases hsmall : T ≤ 1 ∨ S ≤ 1
  · have hguard : T = 0 ∨ T = 1 ∨ S ≤ 1 := by omega
    unfold mapPageBySectionPortion mapPositionRef
    rw [if_pos hguard, if_pos hsmall]
  · rw [mapPage_of_large savedPage S T hp1 hp2 hS hT (by omega) (by omega),
      mapPositionRef_of_large savedPage S T (by omega) (by omega)]

theorem C1_mapPage_eq_reference_witness :
    (-2147483648 : Int) ≤ 2147483647 ∧ (2147483647 : Int) < 2147483648 ∧
      (65535 : Nat) ≤ 65535 ∧ (40000 : Nat) ≤ 65535 ∧
      mapPageBySectionPortion 2147483647 65535 40000
        = some (mapPositionRef 2147483647 65535 40000) :=
  ⟨by decide, by decide, by decide, by decide,
    C1_mapPage_eq_reference 2147483647 65535 40000 (by decide) (by decide) (by decide)
      (by decide)⟩

/-- C2: for every `savedPage`, every `savedPageCount` and every `targetPageCount ≥ 1`,
`mapPageBySectionPortion` returns a page index in `[0, targetPageCount - 1]`. -/
theorem C2_mapPage_in_range (savedPage : Int) (S T : Nat)
    (hp1 : -2147483648 ≤ savedPage) (hp2 : savedPage < 2147483648)
    (hS : S ≤ 65535) (hT : T ≤ 65535) (hT1 : 1 ≤ T) :
    ∃ r : Int, mapPageBySectionPortion savedPage S T = some r ∧ 0 ≤ r ∧ r ≤ (T : Int) - 1 := by
  by_cases hsmall : T ≤ 1 ∨ S ≤ 1
  · have hguard : T = 0 ∨ T = 1 ∨ S ≤ 1 := by omega
    refine ⟨0, ?_, le_refl _, by omega⟩
    unfold mapPageBySectionPortion
    rw [if_pos hguard]
  · have hs : (0 : Int) < (S : Int) - 1 := by omega
    have ht : (0 : Int) ≤ (T : Int) - 1 := by omega
    have hc0 : 0 ≤ clampInt savedPage 0 ((S : Int) - 1) := by
      unfold clampInt; split_ifs <;> omega
    have hc1 : clampInt savedPage 0 ((S : Int) - 1) ≤ (S : Int) - 1 := by
      unfold clampInt; split_ifs <;> omega
    have hq := scaled_quotient_bounds _ ((S : Int) - 1) ((T : Int) - 1) hs ht hc0 hc1
    exact ⟨_, mapPage_of_large savedPage S T hp1 hp2 hS hT (by omega) (by omega), hq.1, hq.2⟩

theorem C2_mapPage_in_range_witness :
    (-2147483648 : Int) ≤ -7 ∧ (-7 : Int) < 2147483648 ∧ (3 : Nat) ≤ 65535 ∧
      (65535 : Nat) ≤ 65535 ∧ (1 : Nat) ≤ 65535 ∧
      ∃ r : Int, mapPageBySectionPortion (-7) 3 65535 = some r ∧ 0 ≤ r ∧
        r ≤ ((65535 : Nat) : Int) - 1 :=
  ⟨by decide, by decide, by decide, by decide, by decide,
    C2_mapPage_in_range (-7) 3 65535 (by decide) (by decide) (by decide) (by decide)
      (by decide)⟩

/-- C3: identity when the page count is unchanged: for every `N ≥ 1` and every `p` with
`0 ≤ p < N`, `mapPageBySectionPortion(p, N, N) = p`. -/
theorem C3_mapPage_identity (p : Int) (N : Nat) (hN1 : 1 ≤ N) (hN : N ≤ 65535)
    (hp0 : 0 ≤ p) (hpN : p < (N : Int)) :
    mapPageBySectionPortion p N N = some p := by
  by_cases hsmall : N ≤ 1
  · have hguard : N = 0 ∨ N = 1 ∨ N ≤ 1 := by omega
    have hp : p = 0 := by omega
    unfold mapPageBySectionPortion
    rw [if_pos hguard, hp]
  · rw [mapPage_of_large p N N (by omega) (by omega) hN hN (by omega) (by omega)]
    have hc : clampInt p 0 ((N : Int) - 1) = p := by
      unfold clampInt; rw [if_neg (by omega), if_neg (by omega)]
    have hs : (0 : Int) < (N : Int) - 1 := by omega
    rw [hc]
    congr 1
    have h := Int.add_mul_ediv_right (((N : Int) - 1) / 2) p (ne_of_gt hs)
    have h0 : ((N : Int) - 1) / 2 / ((N : Int) - 1) = 0 :=
      Int.ediv_eq_zero_of_lt (by omega) (by omega)
    rw [add_comm, h, h0, zero_add]

theorem C3_mapPage_identity_witness :
    (1 : Nat) ≤ 10 ∧ (10 : Nat) ≤ 65535 ∧ (0 : Int) ≤ 5 ∧ (5 : Int) < ((10 : Nat) : Int) ∧
      mapPageBySectionPortion 5 10 10 = some 5 :=
  ⟨by decide, by decide, by decide, by decide,
    C3_mapPage_identity 5 10 (by decide) (by decide) (by decide) (by decide)⟩

/-- C4: the last page maps to the last page: for every `S ≥ 2` and every `T ≥ 1`,
`mapPageBySectionPortion(S - 1, S, T) = T - 1`. -/
theorem C4_mapPage_last_to_last (S T : Nat) (hS2 : 2 ≤ S) (hT1 : 1 ≤ T)
    (hS : S ≤ 65535) (hT : T ≤ 65535) :
    mapPageBySectionPortion ((S : Int) - 1) S T = some ((T : Int) - 1) := by
  by_cases hsmall : T ≤ 1
  · have hguard : T = 0 ∨ T = 1 ∨ S ≤ 1 := by omega
    have hT' : (T : Int) - 1 = 0 := by omega
    unfold mapPageBySectionPortion
    rw [if_pos hguard, hT']
  · rw [mapPage_of_large ((S : Int) - 1) S T (by omega) (by omega) hS hT hS2 (by omega)]
    have hc : clampInt ((S : Int) - 1) 0 ((S : Int) - 1) = (S : Int) - 1 := by
      unfold clampInt; rw [if_neg (by omega), if_neg (by omega)]
    have hs : (0 : Int) < (S : Int) - 1 := by omega
    rw [hc]
    congr 1
    have h := Int.add_mul_ediv_right (((S : Int) - 1) / 2) ((T : Int) - 1) (ne_of_gt hs)
    have h0 : ((S : Int) - 1) / 2 / ((S : Int) - 1) = 0 :=
      Int.ediv_eq_zero_of_lt (by omega) (by omega)
    rw [mul_comm, add_comm, h, h0, zero_add]

theorem C4_mapPage_last_to_last_witness :
    (2 : Nat) ≤ 10 ∧ (1 : Nat) ≤ 5 ∧ (10 : Nat) ≤ 65535 ∧ (5 : Nat) ≤ 65535 ∧
      mapPageBySectionPortion (((10 : Nat) : Int) - 1) 10 5 = some (((5 : Nat) : Int) - 1) :=
  ⟨by decide, by decide, by decide, by decide,
    C4_mapPage_last_to_last 10 5 (by decide) (by decide) (by decide) (by decide)⟩

/-! ## Facts about object representations -/

theorem length_toBytesLE (n v : Nat) : (toBytesLE n v).length = n := by
  induction n generalizing v with
  | zero => rfl
  | succ k ih => simp [toBytesLE, ih]

theorem ofBytesLE_toBytesLE (n v : Nat) : ofBytesLE (toBytesLE n v) = v % 256 ^ n := by
  induction n generalizing v with
  | zero => simp [toBytesLE, ofBytesLE, Nat.mod_one]
  | succ k ih =>
    simp only [toBytesLE, ofBytesLE, ih, Byte.ofNat]
    rw [pow_succ, mul_comm (256 ^ k) 256, Nat.mod_mul]

instance : LawfulPod Byte where
  length_toBytes v := length_toBytesLE 1 v.val
  ofBytes_toBytes v := by
    apply Fin.ext
    show ofBytesLE (toBytesLE 1 v.val) % 256 = v.val
    rw [ofBytesLE_toBytesLE]
    have := v.isLt
    omega

instance : LawfulPod U16 where
  length_toBytes v := length_toBytesLE 2 v.val
  ofBytes_toBytes v := by
    apply Fin.ext
    show ofBytesLE (toBytesLE 2 v.val) % 65536 = v.val
    rw [ofBytesLE_toBytesLE]
    have := v.isLt
    omega

instance : LawfulPod U32 where
  length_toBytes v := length_toBytesLE 4 v.val
  ofBytes_toBytes v := by
    apply Fin.ext
    show ofBytesLE (toBytesLE 4 v.val) % 4294967296 = v.val
    rw [ofBytesLE_toBytesLE]
    have := v.isLt
    omega

instance : LawfulPod I16 where
  length_toBytes v := length_toBytesLE 2 v.toNat
  ofBytes_toBytes v := by
    obtain ⟨z, hz1, hz2⟩ := v
    show I16.ofNat (ofBytesLE (toBytesLE 2 (I16.toNat ⟨z, hz1, hz2⟩))) = ⟨z, hz1, hz2⟩
    rw [ofBytesLE_toBytesLE]
    have hpow : (256 : Nat) ^ 2 = 65536 := by norm_num
    obtain ⟨m, hm⟩ : ∃ m : Nat, m = I16.toNat ⟨z, hz1, hz2⟩ := ⟨_, rfl⟩
    have hmz : (m : Int) = z % 65536 := by
      rw [hm]
      unfold I16.toNat
      simp only
      omega
    rw [hpow, ← hm]
    unfold I16.ofNat
    apply Subtype.ext
    split_ifs with h <;> simp only <;> omega

theorem overwrite_of_length_le (old got : List Byte) (h : old.length ≤ got.length) :
    overwrite old got = got := by
  unfold overwrite
  rw [List.drop_of_length_le h, List.append_nil]

theorem length_resize (s : List Byte) (n : Nat) : (resize s n).length = n := by
  unfold resize
  simp

/-- Reading a pod back from a file that starts with its representation. -/
theorem fsFile_readPod_writePod {α : Type} [Pod α] [LawfulPod α] (v old : α)
    (rest : List Byte) :
    FsFile.readPod { data := serialization.writePod v ++ rest } old = (v, { data := rest }) := by
  have hlen : (Pod.toBytes v).length = Pod.size α := LawfulPod.length_toBytes v
  have hold : (Pod.toBytes old).length = Pod.size α := LawfulPod.length_toBytes old
  unfold FsFile.readPod FsFile.read serialization.writePod
  simp only
  rw [← hlen, List.take_left, List.drop_left,
    overwrite_of_length_le _ _ (by rw [hold, hlen]), LawfulPod.ofBytes_toBytes]

/-- Reading a pod back from a good stream that starts with its representation. -/
theorem iStream_readPod_writePod {α : Type} [Pod α] [LawfulPod α] (v old : α)
    (rest : List Byte) :
    IStream.readPod { data := serialization.writePod v ++ rest, failed := false } old
      = (v, { data := rest, failed := false }) := by
  have hlen : (Pod.toBytes v).length = Pod.size α := LawfulPod.length_toBytes v
  have hold : (Pod.toBytes old).length = Pod.size α := LawfulPod.length_toBytes old
  unfold IStream.readPod IStream.read serialization.writePod
  simp only [Bool.false_eq_true, if_false]
  rw [if_pos (by rw [List.length_append]; omega)]
  simp only
  rw [← hlen, List.take_left, List.drop_left,
    overwrite_of_length_le _ _ (by rw [hold, hlen]), LawfulPod.ofBytes_toBytes]

theorem u32_val_ofNat (n : Nat) (h : n < 4294967296) : (U32.ofNat n).val = n := by
  show n % 4294967296 = n
  omega

theorem u16_val_ofNat (n : Nat) (h : n < 65536) : (U16.ofNat n).val = n := by
  show n % 65536 = n
  omega

/-- The bytes of a string that fits a 32-bit length: the length, then the characters. -/
theorem writeString_eq (s : List Byte) (h : s.length < 4294967296) :
    serialization.writeString s
      = Pod.toBytes (U32.ofNat s.length) ++ s := by
  unfold serialization.writeString serialization.writePod
  simp only
  rw [u32_val_ofNat _ h, List.take_length]

theorem length_writeString (s : List Byte) (h : s.length < 4294967296) :
    (serialization.writeString s).length = 4 + s.length := by
  rw [writeString_eq s h, List.length_append]
  have : (Pod.toBytes (U32.ofNat s.length)).length = 4 := LawfulPod.length_toBytes _
  omega

/-- Reading a string back from a file that starts with its encoding. -/
theorem fsFile_readString_writeString (s old rest : List Byte)
    (h : s.length ≤ MAX_SERIALIZED_STRING_LENGTH) :
    FsFile.readString { data := serialization.writeString s ++ rest } old
      = (s, { data := rest }) := by
  have hmax : MAX_SERIALIZED_STRING_LENGTH = 262144 := rfl
  have h32 : s.length < 4294967296 := by omega
  have hlen : (Pod.toBytes (U32.ofNat s.length)).length = 4 := LawfulPod.length_toBytes _
  have hr : FsFile.read { data := serialization.writeString s ++ rest } 4
      = (Pod.toBytes (U32.ofNat s.length), { data := s ++ rest }) := by
    unfold FsFile.read
    simp only
    rw [writeString_eq s h32, List.append_assoc, ← hlen, List.take_left, List.drop_left]
  have hzero : (Pod.toBytes (0 : U32)).length = 4 := LawfulPod.length_toBytes _
  have hr2 : FsFile.read { data := s ++ rest } s.length = (s, { data := rest }) := by
    unfold FsFile.read
    simp only
    rw [List.take_left, List.drop_left]
  unfold FsFile.readString
  simp only [hr]
  rw [overwrite_of_length_le _ _ (by omega), LawfulPod.ofBytes_toBytes, u32_val_ofNat _ h32,
    if_neg (by omega), if_neg (by omega)]
  have havail : ¬ (FsFile.available { data := s ++ rest } < 0 ∨
      s.length > (FsFile.available { data := s ++ rest }).toNat) := by
    unfold FsFile.available
    simp only [List.length_append]
    omega
  rw [if_neg havail]
  by_cases hz : s.length = 0
  · rw [if_pos hz]
    have hs : s = [] := List.eq_nil_of_length_eq_zero hz
    subst hs
    simp [resize]
  · rw [if_neg hz, hr2]
    simp only
    rw [if_neg (by omega), overwrite_of_length_le _ _ (by rw [length_resize])]

/-- Reading a string back from a good stream that starts with its encoding. -/
theorem iStream_readString_writeString (s old rest : List Byte)
    (h : s.length ≤ MAX_SERIALIZED_STRING_LENGTH) :
    IStream.readString { data := serialization.writeString s ++ rest, failed := false } old
      = (s, { data := rest, failed := false }) := by
  have hmax : MAX_SERIALIZED_STRING_LENGTH = 262144 := rfl
  have h32 : s.length < 4294967296 := by omega
  have hlen : (Pod.toBytes (U32.ofNat s.length)).length = 4 := LawfulPod.length_toBytes _
  have hr : IStream.read { data := serialization.writeString s ++ rest, failed := false } 4
      = (Pod.toBytes (U32.ofNat s.length), { data := s ++ rest, failed := false }) := by
    unfold IStream.read
    simp only [Bool.false_eq_true, if_false]
    rw [if_pos (by rw [List.length_append, length_writeString s h32]; omega)]
    rw [writeString_eq s h32, List.append_assoc, ← hlen, List.take_left, List.drop_left]
  have hzero : (Pod.toBytes (0 : U32)).length = 4 := LawfulPod.length_toBytes _
  have hr2 : IStream.read { data := s ++ rest, failed := false } s.length
      = (s, { data := rest, failed := false }) := by
    unfold IStream.read
    simp only [Bool.false_eq_true, if_false]
    rw [if_pos (by rw [List.length_append]; omega), List.take_left, List.drop_left]
  unfold IStream.readString
  simp only [hr, Bool.false_eq_true, if_false]
  rw [overwrite_of_length_le _ _ (by omega), LawfulPod.ofBytes_toBytes, u32_val_ofNat _ h32,
    if_neg (by omega)]
  by_cases hz : s.length = 0
  · rw [if_pos hz]
    have hs : s = [] := List.eq_nil_of_length_eq_zero hz
    subst hs
    simp [resize]
  · rw [if_neg hz, hr2]
    simp only [Bool.false_eq_true, if_false]
    rw [overwrite_of_length_le _ _ (by rw [length_resize])]

/-- A loop of reads gives back the values whose encodings the source starts with, when
every single read does. The source with given remaining bytes is `mk bytes`. -/
theorem forEachRef_encoded {α σ : Type} (step : σ → α → α × σ) (mk : List Byte → σ)
    (enc : α → List Byte) (ok : α → Prop)
    (hstep : ∀ (x old : α) (rest : List Byte), ok x → step (mk (enc x ++ rest)) old = (x, mk rest))
    (xs olds : List α) (rest : List Byte) (hlen : olds.length = xs.length)
    (hok : ∀ x ∈ xs, ok x) :
    forEachRef step olds (mk ((xs.map enc).flatten ++ rest)) = (xs, mk rest) := by
  induction xs generalizing olds with
  | nil =>
    have : olds = [] := List.eq_nil_of_length_eq_zero hlen
    subst this
    simp [forEachRef]
  | cons x xs ih =>
    cases olds with
    | nil => simp at hlen
    | cons o os =>
      have hx : ok x := hok x (List.mem_cons_self _ _)
      have hxs : ∀ y ∈ xs, ok y := fun y hy => hok y (List.mem_cons_of_mem _ hy)
      have hl : os.length = xs.length := by simpa using hlen
      simp only [forEachRef, List.map_cons, List.flatten_cons, List.append_assoc]
      rw [hstep x o _ hx]
      simp only
      rw [ih os hl hxs]

/-! ## TextBlock codec -/

/-- The bytes of a block whose three sequences have equal length. -/
theorem textBlock_serialize_of_consistent (tb : TextBlock)
    (hx : tb.words.length = tb.wordXpos.length) (hs : tb.words.length = tb.wordStyles.length) :
    tb.serialize = (true,
      serialization.writePod (U16.ofNat tb.words.length)
        ++ (tb.words.map serialization.writeString).flatten
        ++ (tb.wordXpos.map serialization.writePod).flatten
        ++ (tb.wordStyles.map serialization.writePod).flatten
        ++ serialization.writePod tb.style) := by
  unfold TextBlock.serialize
  rw [if_neg (by omega)]

theorem textBlock_serializeStream_eq (tb : TextBlock) : tb.serializeStream = tb.serialize := rfl

/-- Decoding from a file that starts with the encoding of a block within the limits. -/
theorem textBlock_deserialize_serialize (tb : TextBlock) (u : TextBlock.Uninit)
    (rest : List Byte)
    (hx : tb.words.length = tb.wordXpos.length) (hs : tb.words.length = tb.wordStyles.length)
    (hn : tb.words.length ≤ 10000)
    (hw : ∀ w ∈ tb.words, w.length ≤ MAX_SERIALIZED_STRING_LENGTH) :
    TextBlock.deserialize u { data := tb.serialize.2 ++ rest } = (some tb, { data := rest }) := by
  obtain ⟨words, wordXpos, wordStyles, style⟩ := tb
  simp only at hx hs hn hw
  rw [textBlock_serialize_of_consistent _ hx hs]
  simp only [List.append_assoc]
  unfold TextBlock.deserialize
  simp only [fsFile_readPod_writePod]
  rw [u16_val_ofNat _ (by omega), if_neg (by omega)]
  rw [forEachRef_encoded FsFile.readString (fun d => { data := d }) serialization.writeString
    (fun w => w.length ≤ MAX_SERIALIZED_STRING_LENGTH)
    (fun x old r hxo => fsFile_readString_writeString x old r hxo) words _ _ (by simp) hw]
  simp only
  rw [forEachRef_encoded FsFile.readPod (fun d => { data := d }) serialization.writePod
    (fun _ => True) (fun x old r _ => fsFile_readPod_writePod x old r) wordXpos _ _
    (by simp [hx]) (fun _ _ => trivial)]
  simp only
  rw [forEachRef_encoded FsFile.readPod (fun d => { data := d }) serialization.writePod
    (fun _ => True) (fun x old r _ => fsFile_readPod_writePod x old r) wordStyles _ _
    (by simp [hs]) (fun _ _ => trivial)]
  simp only
  have hfin := fsFile_readPod_writePod style u.style rest
  rw [hfin]

/-- Decoding from a good stream that starts with the encoding of a block within the
limits. -/
theorem textBlock_deserializeStream_serializeStream (tb : TextBlock) (u : TextBlock.Uninit)
    (rest : List Byte)
    (hx : tb.words.length = tb.wordXpos.length) (hs : tb.words.length = tb.wordStyles.length)
    (hn : tb.words.length ≤ 10000)
    (hw : ∀ w ∈ tb.words, w.length ≤ MAX_SERIALIZED_STRING_LENGTH) :
    TextBlock.deserializeStream u { data := tb.serializeStream.2 ++ rest, failed := false }
      = (some tb, { data := rest, failed := false }) := by
  obtain ⟨words, wordXpos, wordStyles, style⟩ := tb
  simp only at hx hs hn hw
  rw [textBlock_serializeStream_eq, textBlock_serialize_of_consistent _ hx hs]
  simp only [List.append_assoc]
  unfold TextBlock.deserializeStream
  simp only [iStream_readPod_writePod]
  rw [u16_val_ofNat _ (by omega), if_neg (by omega)]
  rw [forEachRef_encoded IStream.readString (fun d => { data := d, failed := false })
    serialization.writeString (fun w => w.length ≤ MAX_SERIALIZED_STRING_LENGTH)
    (fun x old r hxo => iStream_readString_writeString x old r hxo) words _ _ (by simp) hw]
  simp only
  rw [forEachRef_encoded IStream.readPod (fun d => { data := d, failed := false })
    serialization.writePod (fun _ => True)
    (fun x old r _ => iStream_readPod_writePod x old r) wordXpos _ _
    (by simp [hx]) (fun _ _ => trivial)]
  simp only
  rw [forEachRef_encoded IStream.readPod (fun d => { data := d, failed := false })
    serialization.writePod (fun _ => True)
    (fun x old r _ => iStream_readPod_writePod x old r) wordStyles _ _
    (by simp [hs]) (fun _ _ => trivial)]
  simp only
  have hfin := iStream_readPod_writePod style u.style rest
  rw [hfin]

/-- C5: a `TextBlock` whose three sequences have equal length, with at most 10,000
words, each at most 262,144 bytes long, is serialized successfully
(`TextBlock::serialize` returns `true`), and `TextBlock::deserialize` applied to the
bytes written (whatever follows them in the file, and whatever its uninitialised locals
held) returns a block with identical words, offsets, styles and alignment and stops right
after the record. -/
theorem C5_textBlock_roundtrip (tb : TextBlock) (u : TextBlock.Uninit) (rest : List Byte)
    (hx : tb.words.length = tb.wordXpos.length) (hs : tb.words.length = tb.wordStyles.length)
    (hn : tb.words.length ≤ 10000) (hw : ∀ w ∈ tb.words, w.length ≤ 262144) :
    tb.serialize.1 = true ∧
      TextBlock.deserialize u { data := tb.serialize.2 ++ rest } = (some tb, { data := rest }) := by
  constructor
  · rw [textBlock_serialize_of_consistent tb hx hs]
  · exact textBlock_deserialize_serialize tb u rest hx hs hn hw

theorem C5_textBlock_roundtrip_witness :
    helloWorld.serialize.1 = true ∧
      TextBlock.deserialize sampleBlockUninit { data := helloWorld.serialize.2 ++ [] }
        = (some helloWorld, { data := [] }) :=
  C5_textBlock_roundtrip helloWorld sampleBlockUninit [] (by decide) (by decide) (by decide)
    (by decide)

/-! ## Page codec -/

/-- A line within the limits is written in full and read back from a good stream. -/
theorem pageLine_deserialize_serialize (line : PageLine) (h : line.WithinLimits) :
    ∃ bytes, line.serialize = some bytes ∧
      ∀ (u : PageLine.Uninit) (rest : List Byte),
        PageLine.deserialize u { data := bytes ++ rest, failed := false }
          = (line, { data := rest, failed := false }) := by
  obtain ⟨block, x, y⟩ := line
  cases block with
  | none => exact absurd h (by simp [PageLine.WithinLimits])
  | some tb =>
    have h' : tb.WithinLimits := h
    obtain ⟨hx, hs, hn, hw⟩ := h'
    refine ⟨_, rfl, ?_⟩
    intro u rest
    unfold PageLine.deserialize
    simp only [List.append_assoc, iStream_readPod_writePod]
    rw [textBlock_deserializeStream_serializeStream tb u.block rest hx hs hn hw]

/-- The element loop of the decoder consumes the encoding of lines within the limits and
appends exactly these lines, whatever number of iterations remains afterwards. -/
theorem page_deserializeElements_serializeElements (tag : Byte) (u : Nat → PageLine.Uninit)
    (lines : List PageLine) (h : ∀ l ∈ lines, l.WithinLimits) :
    ∃ body, Page.serializeElements tag lines = some body ∧
      ∀ (extra i : Nat) (acc : List PageLine) (tail : List Byte),
        Page.deserializeElements tag u (lines.length + extra) i acc
            { data := body ++ tail, failed := false }
          = Page.deserializeElements tag u extra (i + lines.length) (acc ++ lines)
              { data := tail, failed := false } := by
  induction lines with
  | nil =>
    refine ⟨[], rfl, ?_⟩
    intro extra i acc tail
    simp
  | cons l ls ih =>
    obtain ⟨body, hbody, hdec⟩ := ih (fun x hx => h x (List.mem_cons_of_mem _ hx))
    obtain ⟨bytes, hbytes, hline⟩ := pageLine_deserialize_serialize l (h l (List.mem_cons_self _ _))
    refine ⟨serialization.writePod tag ++ bytes ++ body, ?_, ?_⟩
    · simp only [Page.serializeElements, hbytes, hbody]
    · intro extra i acc tail
      have hn : (l :: ls).length + extra = (ls.length + extra) + 1 := by
        simp only [List.length_cons]; omega
      rw [hn]
      simp only [Page.deserializeElements, List.append_assoc, iStream_readPod_writePod,
        if_true, hline]
      rw [hdec extra (i + 1) (acc ++ [l]) tail]
      simp only [List.append_assoc, List.singleton_append, List.length_cons]
      rw [show i + 1 + ls.length = i + (ls.length + 1) by omega]

/-- C6: page records are self-delimited. A page whose text lines are within the codec
limits is written in full by `Page::serialize`, and `Page::deserialize`, applied to a
stream that holds these bytes followed by any other bytes, returns the original page
and leaves exactly the other bytes unread, still in a good state. -/
theorem C6_page_roundtrip_self_delimited (tag : Byte) (page : Page) (u : Page.Uninit)
    (rest : List Byte) (hcount : page.elements.length < 4294967296)
    (hlines : ∀ l ∈ page.elements, l.WithinLimits) :
    ∃ bytes, Page.serialize tag page = some bytes ∧
      Page.deserialize tag u { data := bytes ++ rest, failed := false }
        = (some page, { data := rest, failed := false }) := by
  obtain ⟨body, hbody, hdec⟩ :=
    page_deserializeElements_serializeElements tag u.element page.elements hlines
  refine ⟨_, (by unfold Page.serialize; rw [hbody]), ?_⟩
  unfold Page.deserialize
  simp only [List.append_assoc, iStream_readPod_writePod, ne_eq, not_true_eq_false, if_false]
  rw [u32_val_ofNat _ hcount]
  have h0 := hdec 0 0 [] rest
  simp only [Nat.add_zero, List.nil_append] at h0
  rw [h0]
  simp [Page.deserializeElements]

theorem C6_page_roundtrip_self_delimited_witness :
    ∃ bytes, Page.serialize 1 samplePage = some bytes ∧
      Page.deserialize 1 samplePageUninit { data := bytes ++ [3, 0, 0, 0, 0], failed := false }
        = (some samplePage, { data := [3, 0, 0, 0, 0], failed := false }) :=
  C6_page_roundtrip_self_delimited 1 samplePage samplePageUninit [3, 0, 0, 0, 0] (by decide)
    (by decide)

/-! ## Wire layout -/

theorem writePod_u16_ofNat (n : Nat) :
    serialization.writePod (U16.ofNat n) = toBytesLE 2 n := by
  show toBytesLE 2 (n % 65536) = toBytesLE 2 n
  simp only [toBytesLE, Byte.ofNat, List.cons.injEq, Fin.mk.injEq, and_true]
  omega

theorem writePod_u32_ofNat (n : Nat) :
    serialization.writePod (U32.ofNat n) = toBytesLE 4 n := by
  show toBytesLE 4 (n % 4294967296) = toBytesLE 4 n
  simp only [toBytesLE, Byte.ofNat, List.cons.injEq, Fin.mk.injEq, and_true]
  omega

theorem writePod_byte (b : Byte) : serialization.writePod b = [b] := by
  show toBytesLE 1 b.val = [b]
  simp only [toBytesLE, Byte.ofNat, List.cons.injEq, and_true]
  apply Fin.ext
  have := b.isLt
  show b.val % 256 = b.val
  omega

theorem flatten_map_writePod_byte (bs : List Byte) :
    (bs.map serialization.writePod).flatten = bs := by
  induction bs with
  | nil => rfl
  | cons b bs ih => simp only [List.map_cons, List.flatten_cons, ih, writePod_byte]; rfl

theorem flatten_map_writeString (ws : List (List Byte)) (h : ∀ w ∈ ws, w.length < 4294967296) :
    (ws.map serialization.writeString).flatten
      = (ws.map (fun w => toBytesLE 4 w.length ++ w)).flatten := by
  induction ws with
  | nil => rfl
  | cons w ws ih =>
    have hw := h w (List.mem_cons_self _ _)
    simp only [List.map_cons, List.flatten_cons, ih (fun x hx => h x (List.mem_cons_of_mem _ hx)),
      writeString_eq w hw]
    have : (Pod.toBytes (U32.ofNat w.length) : List Byte) = toBytesLE 4 w.length :=
      writePod_u32_ofNat w.length
    rw [this]

/-- The bytes of a consistent block are the layout of the specification. -/
theorem textBlock_serializeStream_layout (tb : TextBlock)
    (hx : tb.words.length = tb.wordXpos.length) (hs : tb.words.length = tb.wordStyles.length)
    (hw : ∀ w ∈ tb.words, w.length < 4294967296) :
    tb.serializeStream.2 = textBlockLayout tb := by
  rw [textBlock_serializeStream_eq, textBlock_serialize_of_consistent tb hx hs]
  unfold textBlockLayout
  simp only
  rw [writePod_u16_ofNat, flatten_map_writeString _ hw, flatten_map_writePod_byte,
    writePod_byte]
  rfl

theorem length_textBlockLayout (tb : TextBlock)
    (hx : tb.words.length = tb.wordXpos.length) (hs : tb.words.length = tb.wordStyles.length) :
    (textBlockLayout tb).length
      = 3 + 3 * tb.words.length + (tb.words.map (fun w => 4 + w.length)).sum := by
  have hwords : ∀ ws : List (List Byte),
      (ws.map (fun w => toBytesLE 4 w.length ++ w)).flatten.length
        = (ws.map (fun w => 4 + w.length)).sum := by
    intro ws
    induction ws with
    | nil => rfl
    | cons w ws ih =>
      simp only [List.map_cons, List.flatten_cons, List.length_append, List.sum_cons, ih,
        length_toBytesLE]
  have hxpos : ∀ xs : List U16,
      (xs.map (fun x => toBytesLE 2 x.val)).flatten.length = 2 * xs.length := by
    intro xs
    induction xs with
    | nil => rfl
    | cons x xs ih =>
      simp only [List.map_cons, List.flatten_cons, List.length_append, List.length_cons, ih,
        length_toBytesLE]
      omega
  unfold textBlockLayout
  simp only [List.length_append, length_toBytesLE, hwords, hxpos, List.length_singleton]
  omega

/-- C7: `Page::serialize` emits exactly the layout of the specification (version byte 3,
4-byte element count, then per element a 1-byte tag, 2-byte signed x, 2-byte signed y,
2-byte word count, each word as 4-byte length and bytes, the 2-byte offsets, the style
bytes and one alignment byte), and so for every page with consistent text lines the
encoded length is `5 + Σ (8 + 3 n + Σ (4 + length of word))`. -/
theorem C7_page_layout (tag : Byte) (page : Page)
    (hlines : ∀ l ∈ page.elements, l.Consistent) :
    Page.serialize tag page = some (pageLayout tag page) ∧
      (pageLayout tag page).length = pageEncodedLength page := by
  obtain ⟨elements⟩ := page
  simp only at hlines
  have hline : ∀ l : PageLine, l.Consistent →
      l.serialize.map (fun bytes => serialization.writePod tag ++ bytes)
          = some (pageLineLayout tag l) ∧
        (pageLineLayout tag l).length = pageLineEncodedLength l := by
    intro l hl
    obtain ⟨block, x, y⟩ := l
    cases block with
    | none => exact absurd hl (by simp [PageLine.Consistent])
    | some tb =>
      have hl' : tb.words.length = tb.wordXpos.length ∧
          tb.words.length = tb.wordStyles.length ∧ ∀ w ∈ tb.words, w.length < 4294967296 := hl
      obtain ⟨hx, hs, hw⟩ := hl'
      constructor
      · simp only [PageLine.serialize, pageLineLayout, Option.map_some',
          textBlock_serializeStream_layout tb hx hs hw, writePod_byte]
        rfl
      · simp only [pageLineLayout, pageLineEncodedLength, List.length_append,
          List.length_singleton, length_toBytesLE, length_textBlockLayout tb hx hs]
        omega
  have hbody : ∀ els : List PageLine, (∀ l ∈ els, l.Consistent) →
      Page.serializeElements tag els = some ((els.map (pageLineLayout tag)).flatten) ∧
        (els.map (pageLineLayout tag)).flatten.length = (els.map pageLineEncodedLength).sum := by
    intro els
    induction els with
    | nil => intro _; exact ⟨rfl, rfl⟩
    | cons l ls ih =>
      intro h
      obtain ⟨h1, h2⟩ := ih (fun x hx => h x (List.mem_cons_of_mem _ hx))
      obtain ⟨h3, h4⟩ := hline l (h l (List.mem_cons_self _ _))
      constructor
      · cases hser : l.serialize with
        | none => rw [hser] at h3; simp at h3
        | some bytes =>
          rw [hser] at h3
          simp only [Option.map_some', Option.some.injEq] at h3
          simp only [Page.serializeElements, hser, h1, List.map_cons, List.flatten_cons, ← h3]
      · simp only [List.map_cons, List.flatten_cons, List.length_append, List.sum_cons, h2, h4]
  obtain ⟨h1, h2⟩ := hbody elements hlines
  constructor
  · unfold Page.serialize pageLayout
    simp only [h1, writePod_u32_ofNat, List.append_assoc]
    rfl
  · unfold pageLayout pageEncodedLength
    simp only [List.length_append, List.length_singleton, length_toBytesLE, h2]

theorem C7_page_layout_witness :
    Page.serialize 1 samplePage = some (pageLayout 1 samplePage) ∧
      (pageLayout 1 samplePage).length = pageEncodedLength samplePage :=
  C7_page_layout 1 samplePage (by decide)

example : pageEncodedLength samplePage = 5 + (8 + 3 * 2 + (9 + 9)) + (8 + 3 * 1 + 4) := by decide

/-! ## Corruption guards -/

/-- The word count `TextBlock::deserialize` reads from a file with at least two bytes. -/
theorem fsFile_readPod_wordCount (old : U16) (b0 b1 : Byte) (rest : List Byte) :
    FsFile.readPod { data := b0 :: b1 :: rest } old
      = (U16.ofNat (b0.val + 256 * b1.val), { data := rest }) := by
  have hold : (Pod.toBytes old).length = 2 := LawfulPod.length_toBytes old
  unfold FsFile.readPod FsFile.read
  have h2 : Pod.size U16 = 2 := rfl
  simp only [h2, List.take_succ_cons, List.take_zero, List.drop_succ_cons, List.drop_zero]
  rw [overwrite_of_length_le _ _ (by rw [hold]; rfl)]
  rfl

/-- C8: `TextBlock::deserialize` returns no block exactly when the 2-byte word count at
the start of its input is greater than 10,000: every count from 10,001 on is rejected,
and a count of 10,000 (or less) is not. -/
theorem C8_word_count_guard (u : TextBlock.Uninit) (b0 b1 : Byte) (rest : List Byte) :
    (TextBlock.deserialize u { data := b0 :: b1 :: rest }).1 = none
      ↔ 10000 < b0.val + 256 * b1.val := by
  have hb0 := b0.isLt
  have hb1 := b1.isLt
  unfold TextBlock.deserialize
  simp only [fsFile_readPod_wordCount]
  rw [u16_val_ofNat _ (by omega)]
  by_cases h : b0.val + 256 * b1.val > 10000
  · rw [if_pos h]
    exact ⟨fun _ => h, fun _ => rfl⟩
  · rw [if_neg h]
    constructor
    · intro hnone
      exact absurd hnone (by simp)
    · intro hgt
      exact absurd hgt h

example : (TextBlock.deserialize sampleBlockUninit { data := [17, 39] }).1 = none := by decide

/-- C9 (the code at a failing input): a record of one word whose declared length is
327,680, above the ceiling of 262,144. `readString` leaves the word empty and returns
without a signal, so `TextBlock::deserialize` goes on with the offsets and styles and
returns a block instead of failing. -/
theorem C9_oversized_length_returns_block (u : TextBlock.Uninit) :
    TextBlock.deserialize u { data := [1, 0, 0, 0, 5, 0, 40, 0, 1, 2] }
      = (some { words := [[]], wordXpos := [40], wordStyles := [1], style := 2 },
          { data := [] }) := by
  unfold TextBlock.deserialize
  simp only [fsFile_readPod_wordCount]
  rfl

/-- A run of the element loop that returns elements has pushed one per iteration. -/
theorem page_length_deserializeElements (tag : Byte) (u : Nat → PageLine.Uninit)
    (n i : Nat) (acc : List PageLine) (is : IStream) (els : List PageLine)
    (h : (Page.deserializeElements tag u n i acc is).1 = some els) :
    els.length = acc.length + n := by
  induction n generalizing i acc is with
  | zero =>
    simp only [Page.deserializeElements, Option.some.injEq] at h
    rw [← h, Nat.add_zero]
  | succ k ih =>
    simp only [Page.deserializeElements] at h
    split_ifs at h with ht
    · have := ih _ _ _ h
      rw [this, List.length_append, List.length_singleton, Nat.add_assoc, Nat.add_comm 1 k]

/-- C10: `Page::deserialize` returns failure for every record whose version byte differs
from the format version 3, and for every version-3 record in which, after any number of
well-formed text lines, the next element (one of the `count` announced) has a tag byte
other than the text-line tag. No element is ever skipped: a page that is returned holds
exactly `count` line elements. -/
theorem C10_version_and_tag (tag : Byte) (u : Page.Uninit) :
    (∀ (v : Byte) (rest : List Byte), v ≠ PAGE_FILE_VERSION →
      (Page.deserialize tag u { data := v :: rest, failed := false }).1 = none) ∧
    (∀ (count : U32) (lines : List PageLine) (body : List Byte) (t : Byte) (rest : List Byte),
      (∀ l ∈ lines, l.WithinLimits) → Page.serializeElements tag lines = some body →
      lines.length < count.val → t ≠ tag →
      (Page.deserialize tag u
        { data := [PAGE_FILE_VERSION] ++ serialization.writePod count ++ body ++ [t] ++ rest,
          failed := false }).1 = none) ∧
    (∀ (count : U32) (rest : List Byte) (page : Page),
      (Page.deserialize tag u
        { data := [PAGE_FILE_VERSION] ++ serialization.writePod count ++ rest,
          failed := false }).1 = some page →
      page.elements.length = count.val) := by
  have hversion : ∀ (v : Byte) (rest : List Byte),
      IStream.readPod { data := v :: rest, failed := false } u.version
        = (v, { data := rest, failed := false }) := by
    intro v rest
    have := iStream_readPod_writePod v u.version rest
    rw [writePod_byte] at this
    exact this
  refine ⟨?_, ?_, ?_⟩
  · intro v rest hv
    unfold Page.deserialize
    simp only [hversion]
    rw [if_pos hv]
  · intro count lines body t rest hlines hbody hlt ht
    obtain ⟨body', hbody', hdec⟩ :=
      page_deserializeElements_serializeElements tag u.element lines hlines
    have hb : body' = body := by
      rw [hbody] at hbody'
      exact (Option.some.inj hbody').symm
    subst hb
    obtain ⟨extra, hextra⟩ : ∃ extra, count.val = lines.length + (extra + 1) :=
      ⟨count.val - lines.length - 1, by omega⟩
    have htag : IStream.readPod { data := t :: rest, failed := false }
        (u.element (0 + lines.length)).tag = (t, { data := rest, failed := false }) := by
      have := iStream_readPod_writePod t (u.element (0 + lines.length)).tag rest
      rw [writePod_byte] at this
      exact this
    unfold Page.deserialize
    simp only [List.singleton_append, List.append_assoc, List.cons_append, List.nil_append,
      hversion, ne_eq,
      not_true_eq_false,
      if_false, iStream_readPod_writePod]
    rw [hextra, hdec (extra + 1) 0 [] (t :: rest)]
    simp only [Page.deserializeElements, List.singleton_append, htag, if_neg ht,
      Option.map_none']
  · intro count rest page h
    unfold Page.deserialize at h
    simp only [List.singleton_append, List.append_assoc, List.cons_append, List.nil_append,
      hversion, ne_eq,
      not_true_eq_false,
      if_false, iStream_readPod_writePod] at h
    cases hr : (Page.deserializeElements tag u.element count.val 0 []
        { data := rest, failed := false }).1 with
    | none => rw [hr] at h; simp at h
    | some els =>
      rw [hr] at h
      simp only [Option.map_some', Option.some.injEq] at h
      have := page_length_deserializeElements tag u.element _ _ _ _ els hr
      rw [← h]
      simpa using this

theorem C10_version_and_tag_witness :
    (Page.deserialize 1 samplePageUninit
        { data := 2 :: [0, 0, 0, 0], failed := false }).1 = none ∧
    (Page.deserialize 1 samplePageUninit
        { data := [PAGE_FILE_VERSION] ++ serialization.writePod (2 : U32) ++ sampleLineBytes
            ++ [9] ++ [7, 7],
          failed := false }).1 = none ∧
    ({ elements := [sampleLine] } : Page).elements.length = (1 : U32).val :=
  ⟨(C10_version_and_tag 1 samplePageUninit).1 2 [0, 0, 0, 0] (by decide),
    (C10_version_and_tag 1 samplePageUninit).2.1 2 [sampleLine] sampleLineBytes 9 [7, 7]
      (by decide) (by decide) (by decide) (by decide),
    (C10_version_and_tag 1 samplePageUninit).2.2 1 sampleLineBytes { elements := [sampleLine] }
      (by decide)⟩

/-! ## Short reads -/

theorem iStream_read_of_failed (is : IStream) (n : Nat) (h : is.failed = true) :
    is.read n = ([], is) := by
  unfold IStream.read
  rw [if_pos h]

/-- Reading the next `n` expected bytes from a stream that is short of the expected bytes:
the stream stays short of what is expected afterwards, and if it has not failed the bytes
delivered are the expected ones. -/
theorem iStream_read_short (is : IStream) (bs rest : List Byte)
    (h : is.Short (bs ++ rest)) :
    (is.read bs.length).2.Short rest ∧
      ((is.read bs.length).2.failed = false → (is.read bs.length).1 = bs) := by
  obtain ⟨data, failed⟩ := is
  cases failed with
  | true =>
    rw [iStream_read_of_failed _ _ rfl]
    exact ⟨fun hf => absurd hf (by simp), fun hf => absurd hf (by simp)⟩
  | false =>
    obtain ⟨hpre, hlen⟩ := h rfl
    simp only at hpre hlen
    unfold IStream.read
    simp only [Bool.false_eq_true, if_false]
    by_cases hn : bs.length ≤ data.length
    · rw [if_pos hn]
      obtain ⟨t, ht⟩ := hpre
      have hbs : bs <+: data := by
        have h1 : bs <+: data ++ t := by rw [ht]; exact List.prefix_append _ _
        exact List.prefix_of_prefix_length_le h1 (List.prefix_append _ _) hn
      obtain ⟨d, hd⟩ := hbs
      subst hd
      simp only [List.take_left, List.drop_left]
      refine ⟨fun _ => ⟨?_, ?_⟩, fun _ => trivial⟩
      · rw [List.append_assoc] at ht
        exact ⟨t, List.append_cancel_left ht⟩
      · simp only [List.length_append] at hlen ⊢
        omega
    · rw [if_neg hn]
      exact ⟨fun hf => absurd hf (by simp), fun hf => absurd hf (by simp)⟩

theorem short_of_failed (is : IStream) (expected : List Byte) (h : is.failed = true) :
    is.Short expected := by
  intro hf
  rw [h] at hf
  exact absurd hf (by simp)

theorem failed_of_short_nil (is : IStream) (h : is.Short []) : is.failed = true := by
  cases hf : is.failed with
  | true => rfl
  | false =>
    obtain ⟨-, hlen⟩ := h hf
    simp at hlen

theorem iStream_readPod_of_failed {α : Type} [Pod α] (is : IStream) (old : α)
    (h : is.failed = true) : (is.readPod old).2 = is := by
  unfold IStream.readPod
  rw [iStream_read_of_failed _ _ h]

/-- Reading a pod from a stream that is short of the expected bytes. -/
theorem iStream_readPod_short {α : Type} [Pod α] [LawfulPod α] (is : IStream) (v old : α)
    (rest : List Byte) (h : is.Short (serialization.writePod v ++ rest)) :
    (is.readPod old).2.Short rest ∧ ((is.readPod old).2.failed = false → (is.readPod old).1 = v) := by
  have hlen : (serialization.writePod v).length = Pod.size α := LawfulPod.length_toBytes v
  have hold : (Pod.toBytes old).length = Pod.size α := LawfulPod.length_toBytes old
  have hr := iStream_read_short is (serialization.writePod v) rest h
  rw [hlen] at hr
  unfold IStream.readPod
  refine ⟨hr.1, fun hf => ?_⟩
  simp only
  rw [hr.2 hf, overwrite_of_length_le _ _ (by rw [hold, hlen])]
  exact LawfulPod.ofBytes_toBytes v

theorem iStream_readString_of_failed (is : IStream) (s : List Byte) (h : is.failed = true) :
    (is.readString s).2 = is := by
  unfold IStream.readString
  simp only [iStream_read_of_failed _ _ h, h, if_true]

/-- Reading a string from a stream that is short of the expected bytes. -/
theorem iStream_readString_short (is : IStream) (s old rest : List Byte)
    (hs : s.length ≤ MAX_SERIALIZED_STRING_LENGTH)
    (h : is.Short (serialization.writeString s ++ rest)) :
    (is.readString old).2.Short rest := by
  have hmax : MAX_SERIALIZED_STRING_LENGTH = 262144 := rfl
  have h32 : s.length < 4294967296 := by omega
  rw [writeString_eq s h32, List.append_assoc] at h
  have hlen : (Pod.toBytes (U32.ofNat s.length)).length = 4 := LawfulPod.length_toBytes _
  have hzero : (Pod.toBytes (0 : U32)).length = 4 := LawfulPod.length_toBytes _
  have hr := iStream_read_short is _ _ h
  rw [hlen] at hr
  unfold IStream.readString
  simp only
  cases hf : (is.read 4).2.failed with
  | true =>
    simp only [if_true]
    exact short_of_failed _ _ hf
  | false =>
    simp only [Bool.false_eq_true, if_false]
    rw [hr.2 hf, overwrite_of_length_le _ _ (by omega), LawfulPod.ofBytes_toBytes,
      u32_val_ofNat _ h32, if_neg (by omega)]
    by_cases hz : s.length = 0
    · rw [if_pos hz]
      have hnil : s = [] := List.eq_nil_of_length_eq_zero hz
      have h1 := hr.1
      rw [hnil, List.nil_append] at h1
      exact h1
    · rw [if_neg hz]
      have hr2 := iStream_read_short (is.read 4).2 s rest hr.1
      cases hf2 : ((is.read 4).2.read s.length).2.failed with
      | true =>
        simp only [if_true]
        exact short_of_failed _ _ hf2
      | false =>
        simp only [Bool.false_eq_true, if_false]
        exact hr2.1

/-- A loop of reads keeps a failed stream as it is when every single read does. -/
theorem forEachRef_of_failed {α : Type} (step : IStream → α → α × IStream)
    (hstep : ∀ (is : IStream) (x : α), is.failed = true → (step is x).2 = is)
    (olds : List α) (is : IStream) (h : is.failed = true) :
    (forEachRef step olds is).2 = is := by
  induction olds generalizing is with
  | nil => rfl
  | cons o os ih =>
    simp only [forEachRef]
    rw [hstep is o h, ih is h]

/-- A loop of reads over a stream that is short of the expected encodings stays short. -/
theorem forEachRef_short {α : Type} (step : IStream → α → α × IStream)
    (enc : α → List Byte) (ok : α → Prop)
    (hstep : ∀ (is : IStream) (x old : α) (rest : List Byte), ok x →
      is.Short (enc x ++ rest) → (step is old).2.Short rest)
    (xs olds : List α) (is : IStream) (rest : List Byte) (hlen : olds.length = xs.length)
    (hok : ∀ x ∈ xs, ok x) (h : is.Short ((xs.map enc).flatten ++ rest)) :
    (forEachRef step olds is).2.Short rest := by
  induction xs generalizing olds is with
  | nil =>
    have : olds = [] := List.eq_nil_of_length_eq_zero hlen
    subst this
    simpa [forEachRef] using h
  | cons x xs ih =>
    cases olds with
    | nil => simp at hlen
    | cons o os =>
      have hx : ok x := hok x (List.mem_cons_self _ _)
      have hxs : ∀ y ∈ xs, ok y := fun y hy => hok y (List.mem_cons_of_mem _ hy)
      have hl : os.length = xs.length := by simpa using hlen
      simp only [List.map_cons, List.flatten_cons, List.append_assoc] at h
      simp only [forEachRef]
      exact ih os _ hl hxs (hstep is x o _ hx h)

theorem textBlock_deserializeStream_of_failed (u : TextBlock.Uninit) (is : IStream)
    (h : is.failed = true) : (TextBlock.deserializeStream u is).2 = is := by
  unfold TextBlock.deserializeStream
  simp only [iStream_readPod_of_failed is _ h]
  split_ifs
  · rfl
  · simp only
    rw [forEachRef_of_failed IStream.readString iStream_readString_of_failed _ is h,
      forEachRef_of_failed IStream.readPod (fun s x => iStream_readPod_of_failed s x) _ is h,
      forEachRef_of_failed IStream.readPod (fun s x => iStream_readPod_of_failed s x) _ is h,
      iStream_readPod_of_failed is _ h]

/-- Decoding a block from a stream that is short of its encoding leaves the stream short
of what follows the block. -/
theorem textBlock_deserializeStream_short (tb : TextBlock) (u : TextBlock.Uninit)
    (is : IStream) (rest : List Byte) (hlim : tb.WithinLimits)
    (h : is.Short (tb.serializeStream.2 ++ rest)) :
    (TextBlock.deserializeStream u is).2.Short rest := by
  obtain ⟨hx, hs, hn, hw⟩ := hlim
  obtain ⟨words, wordXpos, wordStyles, style⟩ := tb
  simp only at hx hs hn hw
  rw [textBlock_serializeStream_eq, textBlock_serialize_of_consistent _ hx hs] at h
  simp only [List.append_assoc] at h
  have hwc := iStream_readPod_short is (U16.ofNat words.length) u.wc _ h
  cases hf : (is.readPod u.wc).2.failed with
  | true =>
    have hfin : (TextBlock.deserializeStream u is).2 = (is.readPod u.wc).2 := by
      unfold TextBlock.deserializeStream
      dsimp only
      split_ifs
      · rfl
      · simp only
        rw [forEachRef_of_failed IStream.readString iStream_readString_of_failed _ _ hf,
          forEachRef_of_failed IStream.readPod (fun s x => iStream_readPod_of_failed s x) _ _ hf,
          forEachRef_of_failed IStream.readPod (fun s x => iStream_readPod_of_failed s x) _ _ hf,
          iStream_readPod_of_failed _ _ hf]
    rw [hfin]
    exact short_of_failed _ _ hf
  | false =>
    have hval := hwc.2 hf
    unfold TextBlock.deserializeStream
    simp only [hval]
    rw [u16_val_ofNat _ (by omega), if_neg (by omega)]
    simp only
    have h1 := forEachRef_short IStream.readString serialization.writeString
      (fun w => w.length ≤ MAX_SERIALIZED_STRING_LENGTH)
      (fun s x old r hxo hsh => iStream_readString_short s x old r hxo hsh)
      words (List.replicate words.length []) _ _ (by simp) hw hwc.1
    have h2 := forEachRef_short IStream.readPod serialization.writePod (fun _ => True)
      (fun s x old r _ hsh => (iStream_readPod_short s x old r hsh).1)
      wordXpos (List.replicate words.length (0 : U16)) _ _ (by simp [hx])
      (fun _ _ => trivial) h1
    have h3 := forEachRef_short IStream.readPod serialization.writePod (fun _ => True)
      (fun s x old r _ hsh => (iStream_readPod_short s x old r hsh).1)
      wordStyles (List.replicate words.length (0 : EpdFontFamily.Style)) _ _ (by simp [hs])
      (fun _ _ => trivial) h2
    exact (iStream_readPod_short _ style u.style rest h3).1

theorem pageLine_deserialize_of_failed (u : PageLine.Uninit) (is : IStream)
    (h : is.failed = true) : (PageLine.deserialize u is).2 = is := by
  unfold PageLine.deserialize
  simp only [iStream_readPod_of_failed is _ h, textBlock_deserializeStream_of_failed _ is h]

/-- Decoding a line from a stream that is short of its encoding. -/
theorem pageLine_deserialize_short (line : PageLine) (u : PageLine.Uninit) (is : IStream)
    (bytes rest : List Byte) (hlim : line.WithinLimits) (hser : line.serialize = some bytes)
    (h : is.Short (bytes ++ rest)) : (PageLine.deserialize u is).2.Short rest := by
  obtain ⟨block, x, y⟩ := line
  cases block with
  | none => exact absurd hlim (by simp [PageLine.WithinLimits])
  | some tb =>
    have hl : tb.WithinLimits := hlim
    simp only [PageLine.serialize, Option.some.injEq] at hser
    subst hser
    simp only [List.append_assoc] at h
    have h1 := (iStream_readPod_short is x u.xPos _ h).1
    have h2 := (iStream_readPod_short _ y u.yPos _ h1).1
    exact textBlock_deserializeStream_short tb u.block _ rest hl h2

theorem page_deserializeElements_of_failed (tag : Byte) (u : Nat → PageLine.Uninit)
    (n i : Nat) (acc : List PageLine) (is : IStream) (h : is.failed = true) :
    (Page.deserializeElements tag u n i acc is).2 = is := by
  induction n generalizing i acc with
  | zero => rfl
  | succ k ih =>
    simp only [Page.deserializeElements, iStream_readPod_of_failed is _ h]
    split_ifs
    · rw [pageLine_deserialize_of_failed _ is h]
      exact ih _ _
    · rfl

/-- The element loop run on a stream that is short of the encodings of the lines still
announced ends with a stream that is short of what follows them. -/
theorem page_deserializeElements_short (tag : Byte) (u : Nat → PageLine.Uninit)
    (lines : List PageLine) (body rest : List Byte) (i : Nat) (acc : List PageLine)
    (is : IStream) (hlim : ∀ l ∈ lines, l.WithinLimits)
    (hser : Page.serializeElements tag lines = some body) (h : is.Short (body ++ rest)) :
    (Page.deserializeElements tag u lines.length i acc is).2.Short rest := by
  induction lines generalizing body i acc is with
  | nil =>
    simp only [Page.serializeElements, Option.some.injEq] at hser
    subst hser
    simpa [Page.deserializeElements] using h
  | cons l ls ih =>
    have hl := hlim l (List.mem_cons_self _ _)
    have hls : ∀ x ∈ ls, x.WithinLimits := fun x hx => hlim x (List.mem_cons_of_mem _ hx)
    cases hb : l.serialize with
    | none => simp [Page.serializeElements, hb] at hser
    | some bytes =>
      cases hm : Page.serializeElements tag ls with
      | none => simp [Page.serializeElements, hb, hm] at hser
      | some more =>
        simp only [Page.serializeElements, hb, hm, Option.some.injEq] at hser
        subst hser
        simp only [List.append_assoc] at h
        have htag := iStream_readPod_short is tag (u i).tag _ h
        simp only [List.length_cons, Page.deserializeElements]
        cases hf : (is.readPod (u i).tag).2.failed with
        | true =>
          split_ifs
          · rw [pageLine_deserialize_of_failed _ _ hf,
              page_deserializeElements_of_failed _ _ _ _ _ _ hf]
            exact short_of_failed _ _ hf
          · exact short_of_failed _ _ hf
        | false =>
          rw [if_pos (htag.2 hf)]
          exact ih more (i + 1) _ _ hls hm
            (pageLine_deserialize_short l (u i) _ bytes _ hl hb htag.1)

/-- C11 (counterexample): the record of a one-line page cut before its last byte is a
strict prefix of a valid record, and `Page::deserialize` returns a page for it, not a
failure: the alignment of the block is what the uninitialised local `style` held (205
here). -/
theorem C11_truncated_record_returns_page :
    Page.serialize 1 { elements := [sampleLine] } = some (truncatedRecord ++ [0]) ∧
      (Page.deserialize 1 samplePageUninit { data := truncatedRecord, failed := false }).1
        = some { elements := [{ sampleLine with
            block := some { helloWorld with style := 205 } }] } := by
  decide

/-- C11 (amended): a short read is visible in the stream state. For every page whose lines
are within the codec limits and every strict prefix of its record, `Page::deserialize` run
on the prefix leaves the stream failed, whatever it returns and whatever its uninitialised
locals held. -/
theorem C11_short_read_fails_stream (tag : Byte) (u : Page.Uninit) (page : Page)
    (bytes pre : List Byte) (hcount : page.elements.length < 4294967296)
    (hlines : ∀ l ∈ page.elements, l.WithinLimits)
    (hser : Page.serialize tag page = some bytes) (hpre : pre <+: bytes) (hne : pre ≠ bytes) :
    (Page.deserialize tag u { data := pre, failed := false }).2.failed = true := by
  have hlt : pre.length < bytes.length := by
    rcases Nat.lt_or_ge pre.length bytes.length with h | h
    · exact h
    · exact absurd (List.IsPrefix.eq_of_length_le hpre h) hne
  cases hb : Page.serializeElements tag page.elements with
  | none => simp [Page.serialize, hb] at hser
  | some body =>
    simp only [Page.serialize, hb, Option.some.injEq] at hser
    subst hser
    have h0 : IStream.Short { data := pre, failed := false }
        (serialization.writePod PAGE_FILE_VERSION
          ++ (serialization.writePod (U32.ofNat page.elements.length) ++ (body ++ []))) := by
      intro _
      simp only [List.append_nil]
      rw [← List.append_assoc]
      exact ⟨hpre, hlt⟩
    have hv := iStream_readPod_short _ PAGE_FILE_VERSION u.version _ h0
    apply failed_of_short_nil
    unfold Page.deserialize
    dsimp only
    cases hf : (IStream.readPod { data := pre, failed := false } u.version).2.failed with
    | true =>
      split_ifs
      · exact short_of_failed _ _ hf
      · rw [iStream_readPod_of_failed _ _ hf,
          page_deserializeElements_of_failed _ _ _ _ _ _ hf]
        exact short_of_failed _ _ hf
    | false =>
      rw [if_neg (by rw [hv.2 hf]; simp)]
      have hc := iStream_readPod_short _ (U32.ofNat page.elements.length) u.count _ hv.1
      cases hf2 : ((IStream.readPod { data := pre, failed := false } u.version).2.readPod
          u.count).2.failed with
      | true =>
        rw [page_deserializeElements_of_failed _ _ _ _ _ _ hf2]
        exact short_of_failed _ _ hf2
      | false =>
        rw [hc.2 hf2, u32_val_ofNat _ hcount]
        exact page_deserializeElements_short tag u.element page.elements body [] 0 [] _
          hlines hb hc.1

theorem C11_short_read_fails_stream_witness :
    (Page.deserialize 1 samplePageUninit { data := truncatedRecord, failed := false }).2.failed
      = true :=
  C11_short_read_fails_stream 1 samplePageUninit { elements := [sampleLine] }
    (truncatedRecord ++ [0]) truncatedRecord (by decide) (by decide) (by decide)
    (List.prefix_append _ _) (by decide)

/-- C12 (the code at a failing input): a page whose only line holds a block with one word
and no offsets. `TextBlock::serialize` refuses the block and writes nothing, but
`PageLine::serialize` drops that result and `Page::serialize` has nothing to return: the
version, the count, the tag and the position of the line are emitted all the same. -/
theorem C12_mismatched_block_still_emits_bytes :
    (mismatchedLine.block.map (fun b => b.serializeStream)) = some (false, []) ∧
      Page.serialize 1 { elements := [mismatchedLine] } = some [3, 1, 0, 0, 0, 1, 7, 0, 9, 0] := by
  decide

/-! ## LongPressHandler -/

namespace LongPressHandler

/-- The handler once a one-shot event has fired. -/
theorem run_waiting (h : LongPressHandler) (hw : h.waitForNewCycle = true)
    (hr : h.rearmAfterRender = false) (cs : List Call) (hq : ∀ c ∈ cs, c.HoldsNextOneShot) :
    ∃ k, h.run cs = (List.replicate k {}, h) := by
  induction cs with
  | nil => exact ⟨0, rfl⟩
  | cons c cs ih =>
    obtain ⟨k, hk⟩ := ih (fun x hx => hq x (List.mem_cons_of_mem _ hx))
    have hc := hq c (List.mem_cons_self _ _)
    cases c with
    | observePressRelease p r =>
      have hrel : r = false := hc
      refine ⟨k, ?_⟩
      simp only [run, observePressRelease, hw, hrel, Bool.not_true, Bool.false_eq_true, if_false]
      exact hk
    | onRenderComplete =>
      refine ⟨k, ?_⟩
      simp only [run, onRenderComplete, hr, Bool.false_eq_true, if_false]
      exact hk
    | poll p n held medium long rep =>
      refine ⟨k + 1, ?_⟩
      simp only [run, poll, hw, if_true, hk, List.replicate_succ]

/-- The handler while "next" is held in one-shot mode, from construction on: nothing has
been polled yet, or the first poll fired and the later ones returned nothing. -/
theorem run_init_hold (cs : List Call) (hq : ∀ c ∈ cs, c.HoldsNextOneShot) :
    init.run cs = ([], init) ∨
      ∃ k, init.run cs = ({ mediumNext := true } :: List.replicate k {},
        { armed := false, waitForNewCycle := true, seenPress := false,
          rearmAfterRender := false }) := by
  induction cs with
  | nil => exact Or.inl rfl
  | cons c cs ih =>
    have hcs : ∀ x ∈ cs, x.HoldsNextOneShot := fun x hx => hq x (List.mem_cons_of_mem _ hx)
    have hc := hq c (List.mem_cons_self _ _)
    cases c with
    | observePressRelease p r =>
      have h1 : init.run (Call.observePressRelease p r :: cs) = init.run cs := rfl
      rw [h1]
      exact ih hcs
    | onRenderComplete =>
      have h1 : init.run (Call.onRenderComplete :: cs) = init.run cs := rfl
      rw [h1]
      exact ih hcs
    | poll p n held medium long rep =>
      obtain ⟨hp, hn, hheld, hrep⟩ : p = false ∧ n = true ∧ medium ≤ held ∧ rep = false := hc
      subst hp hn hrep
      obtain ⟨k, hk⟩ := run_waiting
        { armed := false, waitForNewCycle := true, seenPress := false,
          rearmAfterRender := false } rfl rfl cs hcs
      refine Or.inr ⟨k, ?_⟩
      have hpoll : init.poll false true held medium long false
          = ({ mediumNext := true },
              { armed := false, waitForNewCycle := true, seenPress := false,
                rearmAfterRender := false }) := by
        simp [poll, init, disarm, hheld]
      simp only [run, hpoll, hk]

/-- Calls other than polls leave a freshly armed handler as it is. -/
theorem run_init_notPoll (cs : List Call) (hq : ∀ c ∈ cs, c.NotPoll) :
    init.run cs = ([], init) := by
  induction cs with
  | nil => rfl
  | cons c cs ih =>
    have hcs : ∀ x ∈ cs, x.NotPoll := fun x hx => hq x (List.mem_cons_of_mem _ hx)
    have hc := hq c (List.mem_cons_self _ _)
    cases c with
    | observePressRelease p r => exact ih hcs
    | onRenderComplete => exact ih hcs
    | poll p n held medium long rep => exact absurd hc (by simp [Call.NotPoll])

end LongPressHandler

/-- C13: one-shot mode. From a freshly constructed handler, while "next" alone is held past
the medium threshold with repeat disabled and no release edge is observed, the first poll
returns `mediumNext` and every later poll returns no event, also across completed renders;
`suppressRelease` is true for the release of that hold; and after a release edge is
observed the next poll with "next" held past the threshold returns `mediumNext` again. -/
theorem C13_one_shot_mode (cs : List LongPressHandler.Call)
    (hq : ∀ c ∈ cs, c.HoldsNextOneShot) :
    ((LongPressHandler.init.run cs).1 = [] ∨
      ∃ k, (LongPressHandler.init.run cs).1 = { mediumNext := true } :: List.replicate k {}) ∧
    (∀ (h : LongPressHandler) (heldMs mediumMs : Nat) (prevReleased : Bool),
      mediumMs ≤ heldMs → h.suppressRelease heldMs mediumMs prevReleased true = true) ∧
    (∀ (pressed : Bool) (mid : List LongPressHandler.Call) (heldMs mediumMs longMs : Nat)
      (repeatEnabled : Bool), (∀ c ∈ mid, c.NotPoll) → mediumMs ≤ heldMs →
      (((LongPressHandler.init.run cs).2.run
          (LongPressHandler.Call.observePressRelease pressed true :: mid)).2.poll
        false true heldMs mediumMs longMs repeatEnabled).1 = { mediumNext := true }) := by
  have hrun := LongPressHandler.run_init_hold cs hq
  refine ⟨?_, ?_, ?_⟩
  · rcases hrun with h | ⟨k, h⟩
    · exact Or.inl (by rw [h])
    · exact Or.inr ⟨k, by rw [h]⟩
  · intro h heldMs mediumMs prevReleased hheld
    simp [LongPressHandler.suppressRelease, hheld]
  · intro pressed mid heldMs mediumMs longMs repeatEnabled hmid hheld
    have hstate : (LongPressHandler.init.run cs).2.observePressRelease pressed true
        = LongPressHandler.init := by
      rcases hrun with h | ⟨k, h⟩ <;> rw [h] <;> rfl
    have hmidrun := LongPressHandler.run_init_notPoll mid hmid
    simp only [LongPressHandler.run, hstate, hmidrun]
    simp [LongPressHandler.poll, LongPressHandler.init, hheld]

theorem C13_one_shot_mode_witness :
    (LongPressHandler.init.run
        [LongPressHandler.Call.poll false true 700 500 1500 false,
          LongPressHandler.Call.onRenderComplete,
          LongPressHandler.Call.poll false true 900 500 1500 false]).1
      = [{ mediumNext := true }, {}] ∧
    LongPressHandler.init.suppressRelease 900 500 false true = true ∧
    (((LongPressHandler.init.run
        [LongPressHandler.Call.poll false true 700 500 1500 false,
          LongPressHandler.Call.onRenderComplete,
          LongPressHandler.Call.poll false true 900 500 1500 false]).2.run
          [LongPressHandler.Call.observePressRelease false true]).2.poll
        false true 600 500 1500 false).1 = { mediumNext := true } :=
  have h := C13_one_shot_mode
    [LongPressHandler.Call.poll false true 700 500 1500 false,
      LongPressHandler.Call.onRenderComplete,
      LongPressHandler.Call.poll false true 900 500 1500 false] (by decide)
  ⟨by decide, h.2.1 LongPressHandler.init 900 500 false (by decide),
    h.2.2 false [] 600 500 1500 false (by decide) (by decide)⟩

namespace LongPressHandler

/-- The handler after a poll that fired in repeat mode. -/
theorem poll_fired_repeat (h : LongPressHandler) (p n : Bool) (held medium long : Nat)
    (hf : (h.poll p n held medium long true).1.fired = true) :
    (h.poll p n held medium long true).2
      = { h with armed := false, rearmAfterRender := true } ∧ h.waitForNewCycle = false := by
  unfold poll at hf ⊢
  split_ifs at hf ⊢ <;> simp_all [PollResult.fired, disarm]

/-- A disarmed handler that is not waiting for a new cycle ignores everything but a
completed render. -/
theorem run_disarmed (h : LongPressHandler) (ha : h.armed = false)
    (hw : h.waitForNewCycle = false) (cs : List Call) (hq : ∀ c ∈ cs, c.NotRender) :
    (h.run cs).2 = h ∧ ∀ r ∈ (h.run cs).1, r = {} := by
  induction cs with
  | nil => exact ⟨rfl, fun r hr => absurd hr (by simp [run])⟩
  | cons c cs ih =>
    obtain ⟨ih1, ih2⟩ := ih (fun x hx => hq x (List.mem_cons_of_mem _ hx))
    have hc := hq c (List.mem_cons_self _ _)
    cases c with
    | observePressRelease p r =>
      have h1 : h.observePressRelease p r = h := by simp [observePressRelease, hw]
      simp only [run, h1]
      exact ⟨ih1, ih2⟩
    | onRenderComplete => exact absurd hc (by simp [Call.NotRender])
    | poll p n held medium long rep =>
      have h1 : h.poll p n held medium long rep = ({}, h) := by simp [poll, hw, ha]
      simp only [run, h1]
      refine ⟨ih1, ?_⟩
      intro r hr
      rcases List.mem_cons.mp hr with h2 | h2
      · exact h2
      · exact ih2 r h2

/-- In repeat mode the events fired never outnumber the renders completed by more than the
one event an armed handler has in hand. -/
theorem fired_le_renders (h : LongPressHandler) (hw : h.waitForNewCycle = false)
    (cs : List Call) (hq : ∀ c ∈ cs, c.RepeatMode) :
    ((h.run cs).1.countP PollResult.fired) ≤ (if h.armed then 1 else 0) + renders cs := by
  induction cs generalizing h with
  | nil => simp [run]
  | cons c cs ih =>
    have hcs : ∀ x ∈ cs, x.RepeatMode := fun x hx => hq x (List.mem_cons_of_mem _ hx)
    have hc := hq c (List.mem_cons_self _ _)
    cases c with
    | observePressRelease p r =>
      have h1 : h.observePressRelease p r = h := by simp [observePressRelease, hw]
      have h2 : renders (Call.observePressRelease p r :: cs) = renders cs := by
        simp [renders, List.countP_cons]
      simp only [run, h1, h2]
      exact ih h hw hcs
    | onRenderComplete =>
      have h2 : renders (Call.onRenderComplete :: cs) = renders cs + 1 := by
        simp [renders, List.countP_cons]
      have hw' : h.onRenderComplete.waitForNewCycle = false := by
        unfold onRenderComplete; split_ifs <;> simp [hw]
      have := ih h.onRenderComplete hw' hcs
      simp only [run, h2]
      have hle : (if h.onRenderComplete.armed then 1 else 0) ≤ 1 := by split_ifs <;> omega
      omega
    | poll p n held medium long rep =>
      have hrep : rep = true := hc
      subst hrep
      have h2 : renders (Call.poll p n held medium long true :: cs) = renders cs := by
        simp [renders, List.countP_cons]
      simp only [run, h2, List.countP_cons]
      cases hf : (h.poll p n held medium long true).1.fired with
      | true =>
        obtain ⟨hst, -⟩ := poll_fired_repeat h p n held medium long hf
        have harmed : h.armed = true := by
          unfold poll at hf
          split_ifs at hf with h1 h2 <;> simp_all [PollResult.fired]
        have := ih (h.poll p n held medium long true).2 (by rw [hst]; exact hw) hcs
        rw [hst] at this ⊢
        simp only [Bool.false_eq_true, if_false, Nat.zero_add] at this
        simp only [harmed, if_true]
        omega
      | false =>
        have hst : (h.poll p n held medium long true).2 = h := by
          unfold poll at hf ⊢
          split_ifs at hf ⊢ <;> simp_all [PollResult.fired]
        have := ih h hw hcs
        rw [hst]
        simp only [Bool.false_eq_true, if_false, Nat.add_zero]
        exact this

end LongPressHandler

/-- C14: repeat mode. After a poll fires with `repeatEnabled`, every following poll returns
no event, and the handler does not change, until `onRenderComplete` is called; release
edges do not re-arm it; the first poll after `onRenderComplete` with a direction held past
the medium threshold fires again; a second `onRenderComplete` changes nothing. Hence, from
construction on, the events fired in repeat mode never exceed one plus the number of
completed renders. -/
theorem C14_repeat_mode (h : LongPressHandler) (p n : Bool) (heldMs mediumMs longMs : Nat)
    (hf : (h.poll p n heldMs mediumMs longMs true).1.fired = true) :
    (∀ cs : List LongPressHandler.Call, (∀ c ∈ cs, c.NotRender) →
      ((h.poll p n heldMs mediumMs longMs true).2.run cs).2
          = (h.poll p n heldMs mediumMs longMs true).2 ∧
        ∀ r ∈ ((h.poll p n heldMs mediumMs longMs true).2.run cs).1, r = {}) ∧
    (∀ pressed released : Bool,
      (h.poll p n heldMs mediumMs longMs true).2.observePressRelease pressed released
        = (h.poll p n heldMs mediumMs longMs true).2) ∧
    (∀ (p' n' : Bool) (held' medium' long' : Nat) (rep' : Bool), (p' = true ∨ n' = true) →
      medium' ≤ held' →
      ((h.poll p n heldMs mediumMs longMs true).2.onRenderComplete.poll
        p' n' held' medium' long' rep').1.fired = true) ∧
    (h.poll p n heldMs mediumMs longMs true).2.onRenderComplete.onRenderComplete
      = (h.poll p n heldMs mediumMs longMs true).2.onRenderComplete ∧
    (∀ cs : List LongPressHandler.Call, (∀ c ∈ cs, c.RepeatMode) →
      (LongPressHandler.init.run cs).1.countP LongPressHandler.PollResult.fired
        ≤ 1 + LongPressHandler.renders cs) := by
  obtain ⟨hst, hw⟩ := LongPressHandler.poll_fired_repeat h p n heldMs mediumMs longMs hf
  rw [hst]
  refine ⟨?_, ?_, ?_, ?_, ?_⟩
  · intro cs hcs
    exact LongPressHandler.run_disarmed { h with armed := false, rearmAfterRender := true }
      rfl hw cs hcs
  · intro pressed released
    simp [LongPressHandler.observePressRelease, hw]
  · intro p' n' held' medium' long' rep' hdir hheld
    rcases hdir with hp | hn
    · subst hp
      simp [LongPressHandler.poll, LongPressHandler.onRenderComplete, hw, hheld,
        LongPressHandler.PollResult.fired]
    · subst hn
      cases p' <;>
        simp [LongPressHandler.poll, LongPressHandler.onRenderComplete, hw, hheld,
          LongPressHandler.PollResult.fired]
  · simp [LongPressHandler.onRenderComplete]
  · intro cs hcs
    exact LongPressHandler.fired_le_renders LongPressHandler.init rfl cs hcs

theorem C14_repeat_mode_witness :
    ((LongPressHandler.init.poll false true 700 500 1500 true).2.onRenderComplete.poll
        false true 900 500 1500 true).1.fired = true ∧
      (LongPressHandler.init.run
          [LongPressHandler.Call.poll false true 700 500 1500 true,
            LongPressHandler.Call.poll false true 800 500 1500 true,
            LongPressHandler.Call.onRenderComplete,
            LongPressHandler.Call.poll false true 900 500 1500 true]).1.countP
          LongPressHandler.PollResult.fired
        ≤ 1 + LongPressHandler.renders
          [LongPressHandler.Call.poll false true 700 500 1500 true,
            LongPressHandler.Call.poll false true 800 500 1500 true,
            LongPressHandler.Call.onRenderComplete,
            LongPressHandler.Call.poll false true 900 500 1500 true] :=
  have h := C14_repeat_mode LongPressHandler.init false true 700 500 1500 (by decide)
  ⟨h.2.2.1 false true 900 500 1500 true (Or.inr rfl) (by decide),
    h.2.2.2.2 _ (by decide)⟩

/-- C15: transition of an armed handler that is not waiting. `poll` returns `mediumPrev`
alone if "previous" is held past the medium threshold, even when "next" is held too;
otherwise `mediumNext` alone if "next" is held past it. A poll that fires leaves the
handler disarmed and a poll that fires nothing leaves it unchanged. In every state a
result has at most one of its three flags set. -/
theorem C15_armed_transition (h : LongPressHandler) (p n : Bool) (heldMs mediumMs longMs : Nat)
    (rep : Bool) (harmed : h.armed = true) (hwait : h.waitForNewCycle = false) :
    (p = true ∧ mediumMs ≤ heldMs →
      (h.poll p n heldMs mediumMs longMs rep).1 = { mediumPrev := true }) ∧
    (¬ (p = true ∧ mediumMs ≤ heldMs) → n = true ∧ mediumMs ≤ heldMs →
      (h.poll p n heldMs mediumMs longMs rep).1 = { mediumNext := true }) ∧
    ((h.poll p n heldMs mediumMs longMs rep).1.fired = true →
      (h.poll p n heldMs mediumMs longMs rep).2.armed = false) ∧
    ((h.poll p n heldMs mediumMs longMs rep).1.fired = false →
      (h.poll p n heldMs mediumMs longMs rep).2 = h) ∧
    (∀ (h' : LongPressHandler) (p' n' : Bool) (held' medium' long' : Nat) (rep' : Bool),
      ¬ ((h'.poll p' n' held' medium' long' rep').1.mediumPrev = true ∧
          (h'.poll p' n' held' medium' long' rep').1.mediumNext = true) ∧
      ¬ ((h'.poll p' n' held' medium' long' rep').1.mediumPrev = true ∧
          (h'.poll p' n' held' medium' long' rep').1.longPress = true) ∧
      ¬ ((h'.poll p' n' held' medium' long' rep').1.mediumNext = true ∧
          (h'.poll p' n' held' medium' long' rep').1.longPress = true)) := by
  refine ⟨?_, ?_, ?_, ?_, ?_⟩
  · rintro ⟨hp, hheld⟩
    simp [LongPressHandler.poll, harmed, hwait, hp, hheld]
  · intro hnp hn
    obtain ⟨hn1, hheld⟩ := hn
    have hp : p = false := by
      cases p
      · rfl
      · exact absurd ⟨rfl, hheld⟩ hnp
    simp [LongPressHandler.poll, harmed, hwait, hp, hn1, hheld]
  · intro hfired
    unfold LongPressHandler.poll at hfired ⊢
    split_ifs at hfired ⊢ <;>
      simp_all [LongPressHandler.PollResult.fired, LongPressHandler.disarm] <;>
      cases rep <;> simp
  · intro hfired
    unfold LongPressHandler.poll at hfired ⊢
    split_ifs at hfired ⊢ <;> simp_all [LongPressHandler.PollResult.fired]
  · intro h' p' n' held' medium' long' rep'
    unfold LongPressHandler.poll
    split_ifs <;> simp

theorem C15_armed_transition_witness :
    (LongPressHandler.init.poll true true 600 500 1500 false).1 = { mediumPrev := true } ∧
      (LongPressHandler.init.poll true true 600 500 1500 false).2.armed = false :=
  have h := C15_armed_transition LongPressHandler.init true true 600 500 1500 false rfl rfl
  ⟨h.1 ⟨rfl, by decide⟩, h.2.2.1 (by decide)⟩

/-- C16: the long-press event is unreachable under the normal configuration: in every
state and for all inputs with `longMs ≥ mediumMs`, `poll` returns `longPress = false`. -/
theorem C16_long_press_unreachable (h : LongPressHandler) (p n : Bool)
    (heldMs mediumMs longMs : Nat) (rep : Bool) (hcfg : mediumMs ≤ longMs) :
    (h.poll p n heldMs mediumMs longMs rep).1.longPress = false := by
  unfold LongPressHandler.poll
  split_ifs with h1 h2 h3 h4 h5 <;> try rfl
  exfalso
  simp only [Bool.and_eq_true, Bool.or_eq_true, decide_eq_true_eq, not_and] at h3 h4 h5
  obtain ⟨hdir, hlong⟩ := h5
  rcases hdir with hp | hn
  · exact absurd (le_trans hcfg hlong) (by have := h3 hp; omega)
  · exact absurd (le_trans hcfg hlong) (by have := h4 hn; omega)

theorem C16_long_press_unreachable_witness :
    (LongPressHandler.init.poll true false 5000 500 1500 true).1.longPress = false :=
  C16_long_press_unreachable LongPressHandler.init true false 5000 500 1500 true (by decide)

/-! ## EpubReaderActivity: build retries -/

namespace EpubReaderActivity

/-- An activation that finds no section, cannot load the cache and fails to build it:
below the retry bound it counts the attempt and asks for another render; at the bound it
reports the permanent failure and clears the counter. Either way it returns at once. -/
theorem renderScreen_build_failure (envs : Nat → RenderEnv) (fuel depth : Nat)
    (a : EpubReaderActivity) (epub : Epub) (hepub : a.epub = some epub)
    (hsec : a.sectionPtr = none) (h0 : 0 ≤ a.currentSpineIndex)
    (h1 : a.currentSpineIndex < epub.spineItemsCount)
    (hload : (envs depth).loadSectionFile = none)
    (hcreate : (envs depth).createSectionFile = none) :
    renderScreen envs (fuel + 1) depth a =
      if a.sectionBuildRetryCount < maxSectionBuildRetries then
        RunResult.returned ({ a with
            sectionPtr := none
            pagesUntilFullRefresh := 0
            sectionBuildRetryCount := a.sectionBuildRetryCount + 1
            updateRequired := true },
          [ReaderEvent.loadSectionFile false, ReaderEvent.display Shown.indexing,
            ReaderEvent.createSectionFile false, ReaderEvent.delay])
      else
        RunResult.returned ({ a with
            sectionPtr := none
            pagesUntilFullRefresh := 0
            sectionBuildRetryCount := 0 },
          [ReaderEvent.loadSectionFile false, ReaderEvent.display Shown.indexing,
            ReaderEvent.createSectionFile false, ReaderEvent.display Shown.failedToIndex]) := by
  obtain ⟨e, sp, csi, npn, puf, ur, rc, hp, hcnt, prs, prc⟩ := a
  simp only at hepub hsec h0 h1
  subst hepub hsec
  unfold renderScreen renderScreenBody clampSpineIndex
  simp only [if_neg (not_lt.mpr h0), if_neg (not_lt.mpr (le_of_lt h1)), if_neg (ne_of_lt h1)]
  unfold ensureSection
  simp only [hload, hcreate]
  by_cases hc : rc < maxSectionBuildRetries
  · simp only [if_pos hc]
  · simp only [if_neg hc]

end EpubReaderActivity

/-- C17: bounded build retry. Starting with retry counter 0 and no section loaded, when the
cache does not load and `createSectionFile` fails on every attempt, three successive
`renderScreen` calls (each entered with `updateRequired` cleared, as the display task does)
make one build attempt each: the first two raise the counter to 1 and 2 and request
another render, the third shows "Failed to index section", requests no render and leaves
the counter at 0. The counter never exceeds 2. -/
theorem C17_bounded_build_retry (envs1 envs2 envs3 : Nat → RenderEnv) (fuel : Nat)
    (a : EpubReaderActivity) (epub : Epub) (hepub : a.epub = some epub)
    (hsec : a.sectionPtr = none) (hretry : a.sectionBuildRetryCount = 0)
    (h0 : 0 ≤ a.currentSpineIndex) (h1 : a.currentSpineIndex < epub.spineItemsCount)
    (hfail1 : (envs1 0).loadSectionFile = none ∧ (envs1 0).createSectionFile = none)
    (hfail2 : (envs2 0).loadSectionFile = none ∧ (envs2 0).createSectionFile = none)
    (hfail3 : (envs3 0).loadSectionFile = none ∧ (envs3 0).createSectionFile = none) :
    ∃ a1 a2 a3 : EpubReaderActivity,
      EpubReaderActivity.renderScreen envs1 (fuel + 1) 0 { a with updateRequired := false }
        = RunResult.returned (a1,
            [ReaderEvent.loadSectionFile false, ReaderEvent.display Shown.indexing,
              ReaderEvent.createSectionFile false, ReaderEvent.delay]) ∧
      a1.sectionBuildRetryCount = 1 ∧ a1.updateRequired = true ∧
      EpubReaderActivity.renderScreen envs2 (fuel + 1) 0 { a1 with updateRequired := false }
        = RunResult.returned (a2,
            [ReaderEvent.loadSectionFile false, ReaderEvent.display Shown.indexing,
              ReaderEvent.createSectionFile false, ReaderEvent.delay]) ∧
      a2.sectionBuildRetryCount = 2 ∧ a2.updateRequired = true ∧
      EpubReaderActivity.renderScreen envs3 (fuel + 1) 0 { a2 with updateRequired := false }
        = RunResult.returned (a3,
            [ReaderEvent.loadSectionFile false, ReaderEvent.display Shown.indexing,
              ReaderEvent.createSectionFile false, ReaderEvent.display Shown.failedToIndex]) ∧
      a3.sectionBuildRetryCount = 0 ∧ a3.updateRequired = false := by
  obtain ⟨e, sp, csi, npn, puf, ur, rc, hp, hcnt, prs, prc⟩ := a
  simp only at hepub hsec hretry h0 h1
  subst hepub hsec hretry
  have r1 := EpubReaderActivity.renderScreen_build_failure envs1 fuel 0
    { epub := some epub, sectionPtr := none, currentSpineIndex := csi, nextPageNumber := npn,
      pagesUntilFullRefresh := puf, updateRequired := false, sectionBuildRetryCount := 0,
      hasPendingProgressRestore := hp, hasProgressRestoreSectionPageCount := hcnt,
      progressRestoreSpineIndex := prs, progressRestoreSectionPageCount := prc }
    epub rfl rfl h0 h1 hfail1.1 hfail1.2
  rw [if_pos (show (0 : Nat) < maxSectionBuildRetries by decide)] at r1
  have r2 := EpubReaderActivity.renderScreen_build_failure envs2 fuel 0
    { epub := some epub, sectionPtr := none, currentSpineIndex := csi, nextPageNumber := npn,
      pagesUntilFullRefresh := 0, updateRequired := false, sectionBuildRetryCount := 1,
      hasPendingProgressRestore := hp, hasProgressRestoreSectionPageCount := hcnt,
      progressRestoreSpineIndex := prs, progressRestoreSectionPageCount := prc }
    epub rfl rfl h0 h1 hfail2.1 hfail2.2
  rw [if_pos (show (1 : Nat) < maxSectionBuildRetries by decide)] at r2
  have r3 := EpubReaderActivity.renderScreen_build_failure envs3 fuel 0
    { epub := some epub, sectionPtr := none, currentSpineIndex := csi, nextPageNumber := npn,
      pagesUntilFullRefresh := 0, updateRequired := false, sectionBuildRetryCount := 2,
      hasPendingProgressRestore := hp, hasProgressRestoreSectionPageCount := hcnt,
      progressRestoreSpineIndex := prs, progressRestoreSectionPageCount := prc }
    epub rfl rfl h0 h1 hfail3.1 hfail3.2
  rw [if_neg (show ¬ (2 : Nat) < maxSectionBuildRetries by decide)] at r3
  exact ⟨_, _, _, r1, rfl, rfl, r2, rfl, rfl, r3, rfl, rfl⟩

theorem C17_bounded_build_retry_witness :
    ∃ a1 a2 a3 : EpubReaderActivity,
      EpubReaderActivity.renderScreen (fun _ => failingEnv) (0 + 1) 0
          { sampleActivity with updateRequired := false }
        = RunResult.returned (a1,
            [ReaderEvent.loadSectionFile false, ReaderEvent.display Shown.indexing,
              ReaderEvent.createSectionFile false, ReaderEvent.delay]) ∧
      a1.sectionBuildRetryCount = 1 ∧ a1.updateRequired = true ∧
      EpubReaderActivity.renderScreen (fun _ => failingEnv) (0 + 1) 0
          { a1 with updateRequired := false }
        = RunResult.returned (a2,
            [ReaderEvent.loadSectionFile false, ReaderEvent.display Shown.indexing,
              ReaderEvent.createSectionFile false, ReaderEvent.delay]) ∧
      a2.sectionBuildRetryCount = 2 ∧ a2.updateRequired = true ∧
      EpubReaderActivity.renderScreen (fun _ => failingEnv) (0 + 1) 0
          { a2 with updateRequired := false }
        = RunResult.returned (a3,
            [ReaderEvent.loadSectionFile false, ReaderEvent.display Shown.indexing,
              ReaderEvent.createSectionFile false, ReaderEvent.display Shown.failedToIndex]) ∧
      a3.sectionBuildRetryCount = 0 ∧ a3.updateRequired = false :=
  C17_bounded_build_retry (fun _ => failingEnv) (fun _ => failingEnv) (fun _ => failingEnv) 0
    sampleActivity { spineItemsCount := 12, spineIndexForTextReference := 2 } rfl rfl rfl
    (by decide) (by decide) ⟨rfl, rfl⟩ ⟨rfl, rfl⟩ ⟨rfl, rfl⟩

namespace EpubReaderActivity

/-- What the block `if (!section)` can have done when it is over. -/
theorem ensureSection_facts (env : RenderEnv) (a a' : EpubReaderActivity)
    (ev : List ReaderEvent) (re : Bool) (h : ensureSection env a = some (a', ev, re)) :
    a'.epub = a.epub ∧ a'.currentSpineIndex = a.currentSpineIndex ∧
    (a.sectionPtr.isSome → a' = a ∧ ev = [] ∧ re = false) ∧
    (a.sectionPtr = none → re = false →
      a'.sectionPtr.isSome ∧ a'.sectionBuildRetryCount = 0 ∧
        ev.getLast? ≠ some (ReaderEvent.display Shown.failedToIndex) ∧ ev ≠ []) ∧
    (re = true → a'.sectionPtr = none ∧ ev ≠ [] ∧
      (ev.getLast? = some (ReaderEvent.display Shown.failedToIndex) →
        a'.sectionBuildRetryCount = 0)) := by
  obtain ⟨e, sp, csi, npn, puf, ur, rc, hp, hcnt, prs, prc⟩ := a
  unfold ensureSection at h
  cases sp with
  | some sec =>
    simp only [Prod.mk.injEq, Option.some.injEq] at h
    obtain ⟨h1, h2, h3⟩ := h
    subst h1 h2 h3
    simp
  | none =>
    simp only at h
    cases hl : env.loadSectionFile with
    | some n =>
      simp only [hl, finishSection] at h
      split at h
      · exact absurd h (by simp)
      · simp only [Prod.mk.injEq, Option.some.injEq] at h
        obtain ⟨h1, h2, h3⟩ := h
        subst h1 h2 h3
        simp
    | none =>
      cases hc : env.createSectionFile with
      | some n =>
        simp only [hl, hc, finishSection] at h
        split at h
        · exact absurd h (by simp)
        · simp only [Prod.mk.injEq, Option.some.injEq] at h
          obtain ⟨h1, h2, h3⟩ := h
          subst h1 h2 h3
          simp
      | none =>
        simp only [hl, hc] at h
        split_ifs at h
        · simp only [Prod.mk.injEq, Option.some.injEq] at h
          obtain ⟨h1, h2, h3⟩ := h
          subst h1 h2 h3
          simp
        · simp only [Prod.mk.injEq, Option.some.injEq] at h
          obtain ⟨h1, h2, h3⟩ := h
          subst h1 h2 h3
          simp

end EpubReaderActivity
namespace EpubReaderActivity

theorem clampSpineIndex_facts (epub : Epub) (a : EpubReaderActivity) :
    (clampSpineIndex epub a).sectionPtr = a.sectionPtr ∧
      (clampSpineIndex epub a).sectionBuildRetryCount = a.sectionBuildRetryCount := by
  unfold clampSpineIndex
  simp only
  split_ifs <;> simp

theorem displayWithRefreshCadence_facts (env : RenderEnv) (a : EpubReaderActivity) :
    (displayWithRefreshCadence env a).sectionPtr = a.sectionPtr ∧
      (displayWithRefreshCadence env a).sectionBuildRetryCount = a.sectionBuildRetryCount ∧
      (displayWithRefreshCadence env a).currentSpineIndex = a.currentSpineIndex := by
  unfold displayWithRefreshCadence
  split_ifs <;> simp

/-- What the part of `renderScreen` after the section block does. -/
theorem renderSection_facts (env : RenderEnv) (a : EpubReaderActivity)
    (events : List ReaderEvent) (sec : Section) :
    (renderSection env a events sec).1.sectionBuildRetryCount = a.sectionBuildRetryCount ∧
    ((renderSection env a events sec).2.2 = true →
      (renderSection env a events sec).1.sectionPtr = none ∧
        (renderSection env a events sec).2.1.getLast? = some ReaderEvent.clearCache) ∧
    (renderSection env a events sec).2.1.getLast?
      ≠ some (ReaderEvent.display Shown.failedToIndex) ∧
    (∀ ok, ReaderEvent.loadSectionFile ok ∈ (renderSection env a events sec).2.1 →
      ReaderEvent.loadSectionFile ok ∈ events) := by
  have hc := displayWithRefreshCadence_facts env a
  unfold renderSection
  split_ifs <;> simp [hc.2.1]

/-- What one activation of `renderScreen` can have done when it is over. -/
theorem renderScreenBody_facts (env : RenderEnv) (a a' : EpubReaderActivity)
    (ev : List ReaderEvent) (re : Bool) (h : a.renderScreenBody env = some (a', ev, re)) :
    (re = true → a'.sectionPtr = none ∧ ev.getLast? = some ReaderEvent.clearCache) ∧
    (re = false → a.sectionPtr = none → a'.sectionPtr.isSome →
      a'.sectionBuildRetryCount = 0) ∧
    (a.sectionPtr.isSome → ∀ ok, ReaderEvent.loadSectionFile ok ∉ ev) ∧
    (re = false → ev.getLast? = some (ReaderEvent.display Shown.failedToIndex) →
      a'.sectionBuildRetryCount = 0) := by
  unfold renderScreenBody at h
  split at h
  · simp only [Prod.mk.injEq, Option.some.injEq] at h
    obtain ⟨h1, h2, h3⟩ := h
    subst h1 h2 h3
    refine ⟨by simp, ?_, by simp, by simp⟩
    intro _ h4 h5
    rw [h4] at h5
    exact absurd h5 (by simp)
  · rename_i epub hepub
    have hcl := clampSpineIndex_facts epub a
    simp only at h
    by_cases hend : (clampSpineIndex epub a).currentSpineIndex = epub.spineItemsCount
    · rw [if_pos hend] at h
      simp only [Prod.mk.injEq, Option.some.injEq] at h
      obtain ⟨h1, h2, h3⟩ := h
      subst h1 h2 h3
      refine ⟨by simp, ?_, by simp, by simp⟩
      intro _ h4 h5
      rw [hcl.1, h4] at h5
      exact absurd h5 (by simp)
    · rw [if_neg hend] at h
      split at h
      · exact absurd h (by simp)
      · rename_i a1 ev1 hens
        have hf := ensureSection_facts env _ a1 ev1 true hens
        simp only [Prod.mk.injEq, Option.some.injEq] at h
        obtain ⟨h1, h2, h3⟩ := h
        subst h1 h2 h3
        have hf5 := hf.2.2.2.2 rfl
        refine ⟨fun hre => absurd hre (by simp), ?_, ?_, ?_⟩
        · intro _ _ hsome
          rw [hf5.1] at hsome
          exact absurd hsome (by simp)
        · intro hsome
          have := (hf.2.2.1 (by rw [hcl.1]; exact hsome)).2.2
          exact absurd this (by simp)
        · intro _ hlast
          exact hf5.2.2 hlast
      · rename_i a1 ev1 hens
        have hf := ensureSection_facts env _ a1 ev1 false hens
        have hev1 : a.sectionPtr.isSome → ev1 = [] := fun hs =>
          (hf.2.2.1 (by rw [hcl.1]; exact hs)).2.1
        have hretry : a.sectionPtr = none → a1.sectionBuildRetryCount = 0 := fun hs =>
          (hf.2.2.2.1 (by rw [hcl.1]; exact hs) rfl).2.1
        split at h
        · exact absurd h (by simp)
        · rename_i sec hsec
          have hr := renderSection_facts env a1 ev1 sec
          simp only [Option.some.injEq] at h
          rw [h] at hr
          simp only at hr
          refine ⟨hr.2.1, ?_, ?_, ?_⟩
          · intro _ hs _
            rw [hr.1]
            exact hretry hs
          · intro hs ok hmem
            have := hr.2.2.2 ok hmem
            rw [hev1 hs] at this
            exact absurd this (by simp)
          · intro _ hlast
            exact absurd hlast hr.2.2.1

end EpubReaderActivity
namespace EpubReaderActivity

/-- What a whole call of `renderScreen` has done when it returns. -/
theorem renderScreen_facts (envs : Nat → RenderEnv) (fuel depth : Nat)
    (a a' : EpubReaderActivity) (log : List ReaderEvent)
    (h : renderScreen envs fuel depth a = RunResult.returned (a', log)) :
    ((a.sectionPtr = none ∨ ∃ ok, ReaderEvent.loadSectionFile ok ∈ log) →
      a'.sectionPtr.isSome → a'.sectionBuildRetryCount = 0) ∧
    (log.getLast? = some (ReaderEvent.display Shown.failedToIndex) →
      a'.sectionBuildRetryCount = 0) := by
  induction fuel generalizing depth a a' log with
  | zero => simp [renderScreen] at h
  | succ k ih =>
    unfold renderScreen at h
    split at h
    · exact absurd h (by simp)
    · rename_i a1 ev1 hbody
      have hf := renderScreenBody_facts _ _ _ _ _ hbody
      simp only [RunResult.returned.injEq, Prod.mk.injEq] at h
      obtain ⟨h1, h2⟩ := h
      subst h1 h2
      refine ⟨?_, hf.2.2.2 rfl⟩
      rintro (hnone | ⟨ok, hok⟩) hsome
      · exact hf.2.1 rfl hnone hsome
      · cases hsp : a.sectionPtr with
        | none => exact hf.2.1 rfl hsp hsome
        | some sec => exact absurd hok (hf.2.2.1 (by rw [hsp]; rfl) ok)
    · rename_i a1 ev1 hbody
      have hf := renderScreenBody_facts _ _ _ _ _ hbody
      obtain ⟨hnone1, hlast1⟩ := hf.1 rfl
      split at h
      · rename_i a2 more hrec
        have hrecf := ih _ _ _ _ hrec
        simp only [RunResult.returned.injEq, Prod.mk.injEq] at h
        obtain ⟨h1, h2⟩ := h
        subst h1 h2
        refine ⟨fun _ hsome => hrecf.1 (Or.inl hnone1) hsome, ?_⟩
        intro hlast
        cases more with
        | nil =>
          rw [List.append_nil, hlast1] at hlast
          exact absurd hlast (by simp)
        | cons m ms =>
          rw [List.getLast?_append_of_ne_nil _ (by simp)] at hlast
          exact hrecf.2 hlast
      · exact absurd h (by simp)
      · exact absurd h (by simp)

end EpubReaderActivity
theorem mapPage_isSome (p : Int) (S T : Nat) (hp1 : -2147483648 ≤ p) (hp2 : p < 2147483648)
    (hS : S ≤ 65535) (hT : T ≤ 65535) : ∃ r, mapPageBySectionPortion p S T = some r := by
  by_cases hsmall : T ≤ 1 ∨ S ≤ 1
  · have hguard : T = 0 ∨ T = 1 ∨ S ≤ 1 := by omega
    exact ⟨0, by unfold mapPageBySectionPortion; rw [if_pos hguard]⟩
  · exact ⟨_, mapPage_of_large p S T hp1 hp2 hS hT (by omega) (by omega)⟩

namespace EpubReaderActivity

theorem chooseCurrentPage_isSome (a : EpubReaderActivity) (reindexed : Bool) (pageCount : U16)
    (hp1 : -2147483648 ≤ a.nextPageNumber) (hp2 : a.nextPageNumber < 2147483648) :
    ∃ page, a.chooseCurrentPage reindexed pageCount = some page := by
  obtain ⟨r, hr⟩ := mapPage_isSome a.nextPageNumber a.progressRestoreSectionPageCount.val
    pageCount.val hp1 hp2 (by have := a.progressRestoreSectionPageCount.isLt; omega)
    (by have := pageCount.isLt; omega)
  unfold chooseCurrentPage
  by_cases h1 : a.nextPageNumber = UINT16_MAX
  · rw [if_pos h1]
    exact ⟨_, rfl⟩
  · rw [if_neg h1]
    simp only
    by_cases h2 : (reindexed && a.hasPendingProgressRestore
        && a.hasProgressRestoreSectionPageCount
        && decide (a.progressRestoreSpineIndex = a.currentSpineIndex)) = true
    · rw [if_pos h2, hr]
      exact ⟨_, rfl⟩
    · rw [if_neg h2]
      exact ⟨_, rfl⟩

/-- With a cache that loads, or a build that succeeds, the section block goes through. -/
theorem ensureSection_of_success (env : RenderEnv) (a : EpubReaderActivity)
    (hsec : a.sectionPtr = none)
    (hp1 : -2147483648 ≤ a.nextPageNumber) (hp2 : a.nextPageNumber < 2147483648)
    (hok : env.loadSectionFile.isSome ∨ env.createSectionFile.isSome) :
    ∃ a1 ev1, ensureSection env a = some (a1, ev1, false) := by
  obtain ⟨e, sp, csi, npn, puf, ur, rc, hp, hcnt, prs, prc⟩ := a
  simp only at hsec hp1 hp2
  subst hsec
  unfold ensureSection
  simp only
  cases hl : env.loadSectionFile with
  | some n =>
    obtain ⟨page, hpage⟩ := chooseCurrentPage_isSome
      { epub := e, sectionPtr := none, currentSpineIndex := csi, nextPageNumber := npn,
        pagesUntilFullRefresh := puf, updateRequired := ur, sectionBuildRetryCount := 0,
        hasPendingProgressRestore := hp, hasProgressRestoreSectionPageCount := hcnt,
        progressRestoreSpineIndex := prs, progressRestoreSectionPageCount := prc }
      false n hp1 hp2
    simp only [finishSection, hpage]
    exact ⟨_, _, rfl⟩
  | none =>
    cases hc : env.createSectionFile with
    | some n =>
      obtain ⟨page, hpage⟩ := chooseCurrentPage_isSome
        { epub := e, sectionPtr := none, currentSpineIndex := csi, nextPageNumber := npn,
          pagesUntilFullRefresh := 0, updateRequired := ur, sectionBuildRetryCount := 0,
          hasPendingProgressRestore := hp, hasProgressRestoreSectionPageCount := hcnt,
          progressRestoreSpineIndex := prs, progressRestoreSectionPageCount := prc }
        true n hp1 hp2
      simp only [finishSection, hpage]
      exact ⟨_, _, rfl⟩
    | none =>
      rw [hl, hc] at hok
      simp at hok

theorem renderSection_of_page (env : RenderEnv) (a : EpubReaderActivity)
    (events : List ReaderEvent) (sec : Section) (hpage : env.loadPageFromSectionFile = true) :
    (renderSection env a events sec).2.2 = false ∧
      (renderSection env a events sec).1.sectionPtr = a.sectionPtr := by
  have hc := displayWithRefreshCadence_facts env a
  unfold renderSection
  split_ifs <;> simp_all

/-- A call that finds no section, gets one from the cache or from a build, and can load
its page returns, with the retry counter at 0. -/
theorem renderScreen_of_success (envs : Nat → RenderEnv) (fuel depth : Nat)
    (a : EpubReaderActivity) (epub : Epub) (hepub : a.epub = some epub)
    (hsec : a.sectionPtr = none) (h0 : 0 ≤ a.currentSpineIndex)
    (h1 : a.currentSpineIndex < epub.spineItemsCount)
    (hp1 : -2147483648 ≤ a.nextPageNumber) (hp2 : a.nextPageNumber < 2147483648)
    (hok : (envs depth).loadSectionFile.isSome ∨ (envs depth).createSectionFile.isSome)
    (hpage : (envs depth).loadPageFromSectionFile = true) :
    ∃ a' log, renderScreen envs (fuel + 1) depth a = RunResult.returned (a', log) ∧
      a'.sectionPtr.isSome ∧ a'.sectionBuildRetryCount = 0 := by
  have hclamp : clampSpineIndex epub a = a := by
    unfold clampSpineIndex
    simp only [if_neg (not_lt.mpr h0), if_neg (not_lt.mpr (le_of_lt h1))]
  obtain ⟨a1, ev1, hens⟩ := ensureSection_of_success (envs depth) a hsec hp1 hp2 hok
  have hf := ensureSection_facts _ _ _ _ _ hens
  obtain ⟨hsome1, hretry1, -, -⟩ := hf.2.2.2.1 hsec rfl
  obtain ⟨sec, hsec1⟩ := Option.isSome_iff_exists.mp hsome1
  have hr := renderSection_of_page (envs depth) a1 ev1 sec hpage
  have hrf := renderSection_facts (envs depth) a1 ev1 sec
  have hbody : a.renderScreenBody (envs depth)
      = some (renderSection (envs depth) a1 ev1 sec) := by
    unfold renderScreenBody
    simp only [hepub, hclamp, if_neg (ne_of_lt h1), hens, hsec1]
  refine ⟨(renderSection (envs depth) a1 ev1 sec).1, (renderSection (envs depth) a1 ev1 sec).2.1,
    ?_, ?_, ?_⟩
  · unfold renderScreen
    rw [hbody]
    have hz := hr.1
    generalize renderSection (envs depth) a1 ev1 sec = rs at hz ⊢
    obtain ⟨x, y, z⟩ := rs
    simp only at hz
    subst hz
    rfl
  · rw [hr.2, hsec1]; rfl
  · rw [hrf.1, hretry1]

end EpubReaderActivity

/-- C18 (counterexample): a call in which the section cache is loaded successfully and
which returns with the retry counter at 1. The first activation loads the cached section
(the counter is set to 0), fails to read the page, clears the cache, drops the section and
re-enters `renderScreen`; the second activation finds no cache, the build fails, the
counter goes to 1 and the call returns asking for another render. -/
theorem C18_loaded_cache_then_failed_rebuild :
    EpubReaderActivity.renderScreen cacheThenFailureEnvs 2 0 sampleActivity
      = RunResult.returned
          ({ sampleActivity with sectionBuildRetryCount := 1, updateRequired := true },
            [ReaderEvent.loadSectionFile true, ReaderEvent.loadPage false,
              ReaderEvent.clearCache, ReaderEvent.loadSectionFile false,
              ReaderEvent.display Shown.indexing, ReaderEvent.createSectionFile false,
              ReaderEvent.delay]) ∧
      ({ sampleActivity with sectionBuildRetryCount := 1, updateRequired := true }
        : EpubReaderActivity).sectionBuildRetryCount ≠ 0 := by
  decide

/-- C18 (amended): success resets the retry counter where it happens. Whenever the block
of `renderScreen` that loads or builds the section cache succeeds, the section is in
place and the retry counter is 0 right after it, whatever it was before. Whenever a
`renderScreen` call that ran `loadSectionFile` returns with a section in place, and
whenever it returns having just shown "Failed to index section", the retry counter is 0.
Such calls exist for every earlier value of the counter: if the cache loads or the build
succeeds, and the page can be loaded, the call returns with a section and with the counter
at 0. -/
theorem C18_success_resets_retry_counter (envs : Nat → RenderEnv) (fuel depth : Nat)
    (a : EpubReaderActivity) :
    (∀ (a' : EpubReaderActivity) (log : List ReaderEvent),
      EpubReaderActivity.renderScreen envs fuel depth a = RunResult.returned (a', log) →
      ((∃ ok, ReaderEvent.loadSectionFile ok ∈ log) → a'.sectionPtr.isSome →
        a'.sectionBuildRetryCount = 0) ∧
      (log.getLast? = some (ReaderEvent.display Shown.failedToIndex) →
        a'.sectionBuildRetryCount = 0)) ∧
    (∀ epub : Epub, a.epub = some epub → a.sectionPtr = none → 0 ≤ a.currentSpineIndex →
      a.currentSpineIndex < epub.spineItemsCount → -2147483648 ≤ a.nextPageNumber →
      a.nextPageNumber < 2147483648 →
      (envs depth).loadSectionFile.isSome ∨ (envs depth).createSectionFile.isSome →
      (envs depth).loadPageFromSectionFile = true →
      ∃ a' log, EpubReaderActivity.renderScreen envs (fuel + 1) depth a
          = RunResult.returned (a', log) ∧
        a'.sectionPtr.isSome ∧ a'.sectionBuildRetryCount = 0) ∧
    (∀ (env : RenderEnv) (a1 : EpubReaderActivity) (ev : List ReaderEvent),
      a.sectionPtr = none → EpubReaderActivity.ensureSection env a = some (a1, ev, false) →
      a1.sectionPtr.isSome ∧ a1.sectionBuildRetryCount = 0) := by
  refine ⟨?_, ?_, ?_⟩
  · intro a' log h
    have hf := EpubReaderActivity.renderScreen_facts envs fuel depth a a' log h
    exact ⟨fun hload hsome => hf.1 (Or.inr hload) hsome, hf.2⟩
  · intro epub hepub hsec h0 h1 hp1 hp2 hok hpage
    exact EpubReaderActivity.renderScreen_of_success envs fuel depth a epub hepub hsec h0 h1
      hp1 hp2 hok hpage
  · intro env a1 ev hsec hens
    have hf := (EpubReaderActivity.ensureSection_facts env a a1 ev false hens).2.2.2.1 hsec rfl
    exact ⟨hf.1, hf.2.1⟩

theorem C18_success_resets_retry_counter_witness :
    ({ sampleActivity with
        sectionBuildRetryCount := 0
        sectionPtr := some { pageCount := 10, currentPage := 5 }
        pagesUntilFullRefresh := 15 } : EpubReaderActivity).sectionBuildRetryCount = 0 ∧
    (∃ a' log, EpubReaderActivity.renderScreen (fun _ => workingEnv) (0 + 1) 0
          { sampleActivity with sectionBuildRetryCount := 2 }
        = RunResult.returned (a', log) ∧
      a'.sectionPtr.isSome ∧ a'.sectionBuildRetryCount = 0) ∧
    ({ sampleActivity with
        sectionBuildRetryCount := 0
        sectionPtr := some { pageCount := 10, currentPage := 5 } }
      : EpubReaderActivity).sectionBuildRetryCount = 0 :=
  have h := C18_success_resets_retry_counter (fun _ => workingEnv) 1 0
    { sampleActivity with sectionBuildRetryCount := 2 }
  have h' := C18_success_resets_retry_counter (fun _ => workingEnv) 0 0
    { sampleActivity with sectionBuildRetryCount := 2 }
  ⟨(h.1 { sampleActivity with
          sectionBuildRetryCount := 0
          sectionPtr := some { pageCount := 10, currentPage := 5 }
          pagesUntilFullRefresh := 15 }
        [ReaderEvent.loadSectionFile true, ReaderEvent.loadPage true,
          ReaderEvent.display Shown.page, ReaderEvent.writeProgress [3, 0, 5, 0, 10, 0]]
        (by decide)).1 ⟨true, by decide⟩ (by decide),
    h'.2.1 { spineItemsCount := 12, spineIndexForTextReference := 2 } rfl rfl (by decide)
      (by decide) (by decide) (by decide) (Or.inl rfl) rfl,
    (h.2.2 workingEnv
      { sampleActivity with
        sectionBuildRetryCount := 0
        sectionPtr := some { pageCount := 10, currentPage := 5 } }
      [ReaderEvent.loadSectionFile true] rfl (by decide)).2⟩

/-! ## EpubReaderActivity: the progress file -/

namespace EpubReaderActivity

/-- The bytes computed for `progress.bin` are three little-endian 16-bit values when the
chapter and page index fit 16 bits. -/
theorem progressBytes_eq (chapter page : Int) (count : U16) (hc0 : 0 ≤ chapter)
    (hc1 : chapter ≤ 65535) (hp0 : 0 ≤ page) (hp1 : page ≤ 65535) :
    progressBytes chapter page count
      = toBytesLE 2 chapter.toNat ++ toBytesLE 2 page.toNat ++ toBytesLE 2 count.val := by
  have hn := count.isLt
  simp only [progressBytes, toBytesLE, Byte.ofInt, Byte.ofNat, List.cons_append,
    List.nil_append, List.cons.injEq, Fin.mk.injEq, and_true]
  refine ⟨?_, ?_, ?_, ?_, ?_, ?_⟩ <;> omega

/-- What `onEnter` does after the progress file: only `currentSpineIndex` (on a first
open) and `updateRequired` can still change. -/
theorem onEnter_eq (a : EpubReaderActivity) (file : Option ProgressFileRead) (epub : Epub)
    (hepub : a.epub = some epub) :
    a.onEnter file = { a.loadProgress file with
      currentSpineIndex :=
        if (a.loadProgress file).currentSpineIndex = 0 ∧ epub.spineIndexForTextReference ≠ 0
        then epub.spineIndexForTextReference else (a.loadProgress file).currentSpineIndex
      updateRequired := true } := by
  unfold onEnter
  rw [hepub]
  simp only
  by_cases h1 : (a.loadProgress file).currentSpineIndex = 0
  · by_cases h2 : epub.spineIndexForTextReference ≠ 0
    · rw [if_pos h1, if_pos h2, if_pos ⟨h1, h2⟩]
    · rw [if_pos h1, if_neg h2, if_neg (fun h => h2 h.2)]
  · rw [if_neg h1, if_neg (fun h => h1 h.1)]

/-- Reading a progress file of six bytes or more. -/
theorem loadProgress_current (a : EpubReaderActivity) (old : List Byte)
    (b0 b1 b2 b3 b4 b5 : Byte) (more : List Byte) :
    a.loadProgress (some (readProgressFile (b0 :: b1 :: b2 :: b3 :: b4 :: b5 :: more) old))
      = { a with
          currentSpineIndex := (b0.val : Int) + (b1.val : Int) * 256
          nextPageNumber := (b2.val : Int) + (b3.val : Int) * 256
          progressRestoreSpineIndex := (b0.val : Int) + (b1.val : Int) * 256
          hasPendingProgressRestore := true
          hasProgressRestoreSectionPageCount := true
          progressRestoreSectionPageCount := U16.ofNat (b4.val + b5.val * 256) } := by
  simp [loadProgress, readProgressFile, FsFile.read, overwrite, toSizeT, legacyProgressSize,
    progressSizeWithSectionPageCount]

/-- Reading a legacy progress file of four or five bytes. -/
theorem loadProgress_legacy (a : EpubReaderActivity) (old : List Byte)
    (b0 b1 b2 b3 : Byte) (more : List Byte) (hmore : more.length ≤ 1) :
    a.loadProgress (some (readProgressFile (b0 :: b1 :: b2 :: b3 :: more) old))
      = { a with
          currentSpineIndex := (b0.val : Int) + (b1.val : Int) * 256
          nextPageNumber := (b2.val : Int) + (b3.val : Int) * 256
          progressRestoreSpineIndex := (b0.val : Int) + (b1.val : Int) * 256
          hasPendingProgressRestore := true
          hasProgressRestoreSectionPageCount := false
          progressRestoreSectionPageCount := 0 } := by
  match more, hmore with
  | [], _ =>
    simp [loadProgress, readProgressFile, FsFile.read, overwrite, toSizeT, legacyProgressSize,
      progressSizeWithSectionPageCount]
  | [b4], _ =>
    simp [loadProgress, readProgressFile, FsFile.read, overwrite, toSizeT, legacyProgressSize,
      progressSizeWithSectionPageCount]
  | _ :: _ :: _, h => simp at h

/-- Reading a progress file of fewer than four bytes changes nothing. -/
theorem loadProgress_short (a : EpubReaderActivity) (old content : List Byte)
    (hlen : content.length ≤ 3) :
    a.loadProgress (some (readProgressFile content old)) = a := by
  have h6 : progressSizeWithSectionPageCount = 6 := rfl
  have hmin : (List.take 6 content).length = content.length := by
    rw [List.length_take]; omega
  have hlt : ¬ toSizeT ((List.take 6 content).length : Int) ≥ legacyProgressSize := by
    rw [hmin]
    unfold toSizeT legacyProgressSize
    omega
  unfold loadProgress readProgressFile FsFile.read
  simp only [h6]
  rw [if_neg hlt]

end EpubReaderActivity

namespace EpubReaderActivity

/-- A call with the section in place whose page loads: the page is shown and the progress
record is written. -/
theorem renderScreen_writes_progress (envs : Nat → RenderEnv) (fuel depth : Nat)
    (a : EpubReaderActivity) (epub : Epub) (sec : Section) (hepub : a.epub = some epub)
    (hsec : a.sectionPtr = some sec) (h0 : 0 ≤ a.currentSpineIndex)
    (h1 : a.currentSpineIndex < epub.spineItemsCount) (hp0 : 0 ≤ sec.currentPage)
    (hp1 : sec.currentPage < (sec.pageCount.val : Int))
    (hpage : (envs depth).loadPageFromSectionFile = true)
    (hopen : (envs depth).openFileForWrite = true) :
    renderScreen envs (fuel + 1) depth a
      = RunResult.returned (displayWithRefreshCadence (envs depth) a,
          [ReaderEvent.loadPage true, ReaderEvent.display Shown.page,
            ReaderEvent.writeProgress
              (progressBytes a.currentSpineIndex sec.currentPage sec.pageCount)]) := by
  have hc := displayWithRefreshCadence_facts (envs depth) a
  have hclamp : clampSpineIndex epub a = a := by
    unfold clampSpineIndex
    simp only [if_neg (not_lt.mpr h0), if_neg (not_lt.mpr (le_of_lt h1))]
  have hens : ensureSection (envs depth) a = some (a, [], false) := by
    unfold ensureSection
    rw [hsec]
  have hne : ¬ (sec.pageCount.val = 0) := by omega
  have hin : ¬ (sec.currentPage < 0 ∨ sec.currentPage ≥ (sec.pageCount.val : Int)) := by omega
  unfold renderScreen renderScreenBody
  simp only [hepub, hclamp, if_neg (ne_of_lt h1), hens, hsec]
  unfold renderSection
  simp only [if_neg hne, if_neg hin, hpage, hopen, Bool.not_true, Bool.false_eq_true, if_false,
    if_true, hc.2.2, List.nil_append, List.cons_append]

end EpubReaderActivity

/-- C19: progress record round trip. For a chapter index, page index and section page
count in 0..65535, the six bytes `renderScreen` computes for `progress.bin` are the three
values as little-endian 16-bit numbers in that order, and `renderScreen` writes exactly
them after showing the page. Read back in `onEnter` (lines 69-90), they restore the same
chapter index, page index and section page count, with the page count marked as present
and the restore pending. After the whole of `onEnter` the same holds, except that a
chapter index 0 is replaced by the book's text reference by the first-open rule that
follows the read. -/
theorem C19_progress_roundtrip (chapter page : Int) (count : U16) (hc0 : 0 ≤ chapter)
    (hc1 : chapter ≤ 65535) (hp0 : 0 ≤ page) (hp1 : page ≤ 65535) :
    EpubReaderActivity.progressBytes chapter page count
      = toBytesLE 2 chapter.toNat ++ toBytesLE 2 page.toNat ++ toBytesLE 2 count.val ∧
    (∀ (envs : Nat → RenderEnv) (fuel depth : Nat) (a : EpubReaderActivity) (epub : Epub),
      a.epub = some epub → a.sectionPtr = some { pageCount := count, currentPage := page } →
      a.currentSpineIndex = chapter → chapter < epub.spineItemsCount →
      page < (count.val : Int) → (envs depth).loadPageFromSectionFile = true →
      (envs depth).openFileForWrite = true →
      EpubReaderActivity.renderScreen envs (fuel + 1) depth a
        = RunResult.returned (EpubReaderActivity.displayWithRefreshCadence (envs depth) a,
            [ReaderEvent.loadPage true, ReaderEvent.display Shown.page,
              ReaderEvent.writeProgress
                (EpubReaderActivity.progressBytes chapter page count)])) ∧
    (∀ (a : EpubReaderActivity) (old : List Byte),
      a.loadProgress (some (readProgressFile
          (EpubReaderActivity.progressBytes chapter page count) old))
        = { a with
            currentSpineIndex := chapter
            nextPageNumber := page
            progressRestoreSpineIndex := chapter
            hasPendingProgressRestore := true
            hasProgressRestoreSectionPageCount := true
            progressRestoreSectionPageCount := count }) ∧
    (∀ (a : EpubReaderActivity) (old : List Byte) (epub : Epub), a.epub = some epub →
      a.onEnter (some (readProgressFile
          (EpubReaderActivity.progressBytes chapter page count) old))
        = { a with
            currentSpineIndex :=
              if chapter = 0 ∧ epub.spineIndexForTextReference ≠ 0
              then epub.spineIndexForTextReference else chapter
            nextPageNumber := page
            progressRestoreSpineIndex := chapter
            hasPendingProgressRestore := true
            hasProgressRestoreSectionPageCount := true
            progressRestoreSectionPageCount := count
            updateRequired := true }) := by
  have hn := count.isLt
  have hread : ∀ (a : EpubReaderActivity) (old : List Byte),
      a.loadProgress (some (readProgressFile
          (EpubReaderActivity.progressBytes chapter page count) old))
        = { a with
            currentSpineIndex := chapter
            nextPageNumber := page
            progressRestoreSpineIndex := chapter
            hasPendingProgressRestore := true
            hasProgressRestoreSectionPageCount := true
            progressRestoreSectionPageCount := count } := by
    intro a old
    have h := EpubReaderActivity.loadProgress_current a old
      (Byte.ofInt (chapter % 256)) (Byte.ofInt ((chapter / 256) % 256))
      (Byte.ofInt (page % 256)) (Byte.ofInt ((page / 256) % 256))
      (Byte.ofInt ((count.val : Int) % 256)) (Byte.ofInt (((count.val : Int) / 256) % 256)) []
    have e1 : (((Byte.ofInt (chapter % 256)).val : Nat) : Int)
        + (((Byte.ofInt ((chapter / 256) % 256)).val : Nat) : Int) * 256 = chapter := by
      simp only [Byte.ofInt]; omega
    have e2 : (((Byte.ofInt (page % 256)).val : Nat) : Int)
        + (((Byte.ofInt ((page / 256) % 256)).val : Nat) : Int) * 256 = page := by
      simp only [Byte.ofInt]; omega
    have e3 : U16.ofNat ((Byte.ofInt ((count.val : Int) % 256)).val
        + (Byte.ofInt (((count.val : Int) / 256) % 256)).val * 256) = count := by
      apply Fin.ext
      simp only [U16.ofNat, Byte.ofInt]
      omega
    rw [e1, e2, e3] at h
    exact h
  refine ⟨EpubReaderActivity.progressBytes_eq chapter page count hc0 hc1 hp0 hp1, ?_, hread, ?_⟩
  · intro envs fuel depth a epub hepub hsec hcsi hlt hplt hpage hopen
    have h := EpubReaderActivity.renderScreen_writes_progress envs fuel depth a epub
      { pageCount := count, currentPage := page } hepub hsec (by rw [hcsi]; exact hc0)
      (by rw [hcsi]; exact hlt) hp0 hplt hpage hopen
    rw [hcsi] at h
    exact h
  · intro a old epub hepub
    rw [EpubReaderActivity.onEnter_eq a _ epub hepub, hread a old]

theorem C19_progress_roundtrip_witness :
    EpubReaderActivity.progressBytes 3 5 10 = [3, 0, 5, 0, 10, 0] ∧
      sampleActivity.loadProgress (some (readProgressFile
          (EpubReaderActivity.progressBytes 3 5 10) [0, 0, 0, 0, 0, 0]))
        = { sampleActivity with
            currentSpineIndex := 3
            nextPageNumber := 5
            progressRestoreSpineIndex := 3
            hasPendingProgressRestore := true
            hasProgressRestoreSectionPageCount := true
            progressRestoreSectionPageCount := 10 } :=
  have h := C19_progress_roundtrip 3 5 10 (by decide) (by decide) (by decide) (by decide)
  ⟨by decide, h.2.2.1 sampleActivity [0, 0, 0, 0, 0, 0]⟩

/-- C20: progress files of either length are accepted. A legacy file of four bytes, and
likewise of five, restores the chapter and page index, marks the restore pending and the
section page count absent (recorded as 0); with the count absent `renderScreen` applies no
remapping: the page made current is the saved page, clamped into the section. A file of
zero to three bytes, like a file that cannot be opened, changes nothing: chapter index,
page number and the pending flag keep their values. -/
theorem C20_legacy_and_short_progress (a : EpubReaderActivity) (old : List Byte) :
    (∀ (b0 b1 b2 b3 : Byte) (more : List Byte), more.length ≤ 1 →
      a.loadProgress (some (readProgressFile (b0 :: b1 :: b2 :: b3 :: more) old))
        = { a with
            currentSpineIndex := (b0.val : Int) + (b1.val : Int) * 256
            nextPageNumber := (b2.val : Int) + (b3.val : Int) * 256
            progressRestoreSpineIndex := (b0.val : Int) + (b1.val : Int) * 256
            hasPendingProgressRestore := true
            hasProgressRestoreSectionPageCount := false
            progressRestoreSectionPageCount := 0 }) ∧
    (a.hasProgressRestoreSectionPageCount = false →
      ∀ (reindexed : Bool) (pageCount : U16),
        a.chooseCurrentPage reindexed pageCount
          = if a.nextPageNumber = UINT16_MAX then some ((pageCount.val : Int) - 1)
            else some (if pageCount.val = 0 then 0
              else if a.nextPageNumber < 0 then 0
              else if a.nextPageNumber ≥ (pageCount.val : Int) then (pageCount.val : Int) - 1
              else a.nextPageNumber)) ∧
    (∀ content : List Byte, content.length ≤ 3 →
      a.loadProgress (some (readProgressFile content old)) = a) ∧
    a.loadProgress none = a := by
  refine ⟨?_, ?_, ?_, rfl⟩
  · intro b0 b1 b2 b3 more hmore
    exact EpubReaderActivity.loadProgress_legacy a old b0 b1 b2 b3 more hmore
  · intro hcount reindexed pageCount
    unfold EpubReaderActivity.chooseCurrentPage
    simp only [hcount, Bool.and_false, Bool.false_and, Bool.false_eq_true, if_false,
      Option.map_some']
  · intro content hlen
    exact EpubReaderActivity.loadProgress_short a old content hlen

theorem C20_legacy_and_short_progress_witness :
    sampleActivity.loadProgress (some (readProgressFile [7, 0, 44, 1] [9, 9, 9, 9, 9, 9]))
        = { sampleActivity with
            currentSpineIndex := 7
            nextPageNumber := 300
            progressRestoreSpineIndex := 7
            hasPendingProgressRestore := true
            hasProgressRestoreSectionPageCount := false
            progressRestoreSectionPageCount := 0 } ∧
      sampleActivity.loadProgress (some (readProgressFile [7, 0, 44] [9, 9, 9, 9, 9, 9]))
        = sampleActivity :=
  have h := C20_legacy_and_short_progress sampleActivity [9, 9, 9, 9, 9, 9]
  ⟨h.1 7 0 44 1 [] (by decide), h.2.2.1 [7, 0, 44] (by decide)⟩

/-! ## Rounding of the remapping -/

/-- The quotient of the remapping is within half a unit of the exact ratio, the lower end
included: `-d ≤ 2 * (n - q * d) < d` for `q = (n + d / 2) / d`. -/
theorem rounded_quotient_bounds (n d : Int) (hd : 0 < d) :
    -d ≤ 2 * (n - (n + d / 2) / d * d) ∧ 2 * (n - (n + d / 2) / d * d) < d := by
  have h1 := Int.ediv_add_emod (n + d / 2) d
  have h2 := Int.emod_nonneg (n + d / 2) (ne_of_gt hd)
  have h3 := Int.emod_lt_of_pos (n + d / 2) hd
  rw [mul_comm] at h1
  generalize (n + d / 2) / d * d = x at h1 ⊢
  generalize (n + d / 2) % d = m at h1 h2 h3
  omega

/-- At most one integer is within half a unit of a ratio, the lower end included. -/
theorem rounded_quotient_unique (n d r r' : Int) (hd : 0 < d)
    (h1 : -d ≤ 2 * (n - r * d)) (h2 : 2 * (n - r * d) < d)
    (h3 : -d ≤ 2 * (n - r' * d)) (h4 : 2 * (n - r' * d) < d) : r' = r := by
  rcases lt_trichotomy r' r with h | h | h
  · have : (r' + 1) * d ≤ r * d := mul_le_mul_of_nonneg_right (by omega) (le_of_lt hd)
    rw [add_mul, one_mul] at this
    generalize r * d = x at *
    generalize r' * d = y at *
    omega
  · exact h
  · have : (r + 1) * d ≤ r' * d := mul_le_mul_of_nonneg_right (by omega) (le_of_lt hd)
    rw [add_mul, one_mul] at this
    generalize r * d = x at *
    generalize r' * d = y at *
    omega

/-- C25 (counterexample): with `S = 3`, `T = 2` and `p = 1` the exact ratio is `1/2`, a
tie, and the code rounds it up to 1; then `2 * (p * (T - 1) - r * (S - 1)) = -2`, which is
not greater than `-(S - 1) = -2`. -/
theorem C25_tie_violates_stated_bound :
    mapPageBySectionPortion 1 3 2 = some 1 ∧
      ¬ (-(((3 : Nat) : Int) - 1)
            < 2 * (1 * (((2 : Nat) : Int) - 1) - 1 * (((3 : Nat) : Int) - 1)) ∧
          2 * (1 * (((2 : Nat) : Int) - 1) - 1 * (((3 : Nat) : Int) - 1))
            ≤ ((3 : Nat) : Int) - 1) := by
  decide

/-- C25 (amended): round-half-up proportional scaling. For page counts `S ≥ 2` and `T ≥ 2`
(16-bit values) and `0 ≤ p ≤ S - 1`, `mapPageBySectionPortion p S T` returns the integer
`r` with `-(S-1) ≤ 2 * (p*(T-1) - r*(S-1)) < S-1`, and `r` is the only integer within
these bounds: the integer nearest to `p*(T-1)/(S-1)`, a tie going to the one above. -/
theorem C25_round_half_up (p : Int) (S T : Nat) (hS2 : 2 ≤ S) (hT2 : 2 ≤ T)
    (hS : S ≤ 65535) (hT : T ≤ 65535) (hp0 : 0 ≤ p) (hp1 : p ≤ (S : Int) - 1) :
    ∃ r : Int, mapPageBySectionPortion p S T = some r ∧
      -((S : Int) - 1) ≤ 2 * (p * ((T : Int) - 1) - r * ((S : Int) - 1)) ∧
      2 * (p * ((T : Int) - 1) - r * ((S : Int) - 1)) < (S : Int) - 1 ∧
      ∀ r' : Int, -((S : Int) - 1) ≤ 2 * (p * ((T : Int) - 1) - r' * ((S : Int) - 1)) →
        2 * (p * ((T : Int) - 1) - r' * ((S : Int) - 1)) < (S : Int) - 1 → r' = r := by
  have hd : (0 : Int) < (S : Int) - 1 := by omega
  have hclamp : clampInt p 0 ((S : Int) - 1) = p := by
    unfold clampInt
    rw [if_neg (by omega), if_neg (by omega)]
  have hval := mapPage_of_large p S T (by omega) (by omega) hS hT hS2 hT2
  rw [hclamp] at hval
  have hb := rounded_quotient_bounds (p * ((T : Int) - 1)) ((S : Int) - 1) hd
  refine ⟨_, hval, hb.1, hb.2, ?_⟩
  intro r' h3 h4
  exact rounded_quotient_unique _ _ _ _ hd hb.1 hb.2 h3 h4

theorem C25_round_half_up_witness :
    ∃ r : Int, mapPageBySectionPortion 1 3 2 = some r ∧
      -(((3 : Nat) : Int) - 1) ≤ 2 * (1 * (((2 : Nat) : Int) - 1) - r * (((3 : Nat) : Int) - 1)) ∧
      2 * (1 * (((2 : Nat) : Int) - 1) - r * (((3 : Nat) : Int) - 1)) < ((3 : Nat) : Int) - 1 ∧
      ∀ r' : Int,
        -(((3 : Nat) : Int) - 1)
            ≤ 2 * (1 * (((2 : Nat) : Int) - 1) - r' * (((3 : Nat) : Int) - 1)) →
        2 * (1 * (((2 : Nat) : Int) - 1) - r' * (((3 : Nat) : Int) - 1)) < ((3 : Nat) : Int) - 1 →
        r' = r :=
  C25_round_half_up 1 3 2 (by decide) (by decide) (by decide) (by decide) (by decide)
    (by decide)

/-! ## LongPressHandler: reachable states -/

namespace LongPressHandler

theorem settled_observePressRelease (h : LongPressHandler) (p r : Bool) (hs : h.Settled) :
    (h.observePressRelease p r).Settled := by
  obtain ⟨a, w, s, ra⟩ := h
  unfold Settled at hs ⊢
  unfold observePressRelease
  cases a <;> cases w <;> cases ra <;> cases r <;> simp_all

theorem settled_onRenderComplete (h : LongPressHandler) (hs : h.Settled) :
    h.onRenderComplete.Settled := by
  obtain ⟨a, w, s, ra⟩ := h
  unfold Settled at hs ⊢
  unfold onRenderComplete
  cases a <;> cases w <;> cases ra <;> simp_all

theorem settled_disarm (h : LongPressHandler) (rep : Bool) (ha : h.armed = true)
    (hs : h.Settled) : (h.disarm rep).Settled := by
  obtain ⟨a, w, s, ra⟩ := h
  unfold Settled at hs ⊢
  unfold disarm
  cases a <;> cases w <;> cases ra <;> cases rep <;> simp_all

theorem settled_poll (h : LongPressHandler) (p n : Bool) (held medium long : Nat) (rep : Bool)
    (hs : h.Settled) : (h.poll p n held medium long rep).2.Settled := by
  unfold poll
  by_cases hw : h.waitForNewCycle = true
  · rw [if_pos hw]; exact hs
  · rw [if_neg hw]
    by_cases ha : (!h.armed) = true
    · rw [if_pos ha]; exact hs
    · rw [if_neg ha]
      have harmed : h.armed = true := by simpa using ha
      split_ifs
      · exact settled_disarm h rep harmed hs
      · exact settled_disarm h rep harmed hs
      · exact settled_disarm h rep harmed hs
      · exact hs

theorem settled_run (cs : List Call) (h : LongPressHandler) (hs : h.Settled) :
    (h.run cs).2.Settled := by
  induction cs generalizing h with
  | nil => exact hs
  | cons c cs ih =>
    cases c with
    | observePressRelease p r =>
      simp only [run]
      exact ih _ (settled_observePressRelease h p r hs)
    | onRenderComplete =>
      simp only [run]
      exact ih _ (settled_onRenderComplete h hs)
    | poll p n held medium long rep =>
      simp only [run]
      exact ih _ (settled_poll h p n held medium long rep hs)

end LongPressHandler

/-- C28: the handler is never stuck. In the state reached from a default-constructed
handler by any sequence of `observePressRelease`, `onRenderComplete` and `poll` calls,
`waitForNewCycle` and `rearmAfterRender` are not both set, each of them implies that the
handler is disarmed, a disarmed handler has exactly one of them set, and the handler is
armed again after a release edge (when it waits for a new cycle) or after a completed
render (when it waits for the render). -/
theorem C28_handler_never_stuck (cs : List LongPressHandler.Call) :
    ¬ ((LongPressHandler.init.run cs).2.waitForNewCycle = true ∧
        (LongPressHandler.init.run cs).2.rearmAfterRender = true) ∧
    ((LongPressHandler.init.run cs).2.waitForNewCycle = true →
      (LongPressHandler.init.run cs).2.armed = false) ∧
    ((LongPressHandler.init.run cs).2.rearmAfterRender = true →
      (LongPressHandler.init.run cs).2.armed = false) ∧
    ((LongPressHandler.init.run cs).2.armed = false →
      ((LongPressHandler.init.run cs).2.waitForNewCycle
        ≠ (LongPressHandler.init.run cs).2.rearmAfterRender) ∧
      (((LongPressHandler.init.run cs).2.waitForNewCycle = true ∧
          ∀ anyWasPressed,
            ((LongPressHandler.init.run cs).2.observePressRelease anyWasPressed true).armed
              = true) ∨
        ((LongPressHandler.init.run cs).2.rearmAfterRender = true ∧
          (LongPressHandler.init.run cs).2.onRenderComplete.armed = true))) := by
  have hs := LongPressHandler.settled_run cs LongPressHandler.init (by decide)
  generalize (LongPressHandler.init.run cs).2 = h at hs ⊢
  obtain ⟨a, w, s, ra⟩ := h
  unfold LongPressHandler.Settled at hs
  unfold LongPressHandler.observePressRelease LongPressHandler.onRenderComplete
  cases a <;> cases w <;> cases ra <;> simp_all

theorem C28_handler_never_stuck_witness :
    ¬ ((LongPressHandler.init.run
          [LongPressHandler.Call.poll false true 900 700 1500 false]).2.waitForNewCycle = true ∧
        (LongPressHandler.init.run
          [LongPressHandler.Call.poll false true 900 700 1500 false]).2.rearmAfterRender
            = true) ∧
      (LongPressHandler.init.run
          [LongPressHandler.Call.poll false true 900 700 1500 false]).2.armed = false ∧
      ((LongPressHandler.init.run
          [LongPressHandler.Call.poll false true 900 700 1500 false]).2.observePressRelease
            false true).armed = true :=
  have h := C28_handler_never_stuck [LongPressHandler.Call.poll false true 900 700 1500 false]
  ⟨h.1, h.2.1 (by decide), by decide⟩

/-! ## Corrupt and unreadable pages -/

/-- A one-element page record whose text line declares more than 10,000 words decodes to a
page holding a line without a block. -/
theorem page_deserialize_oversized_count (tag : Byte) (u : Page.Uninit) (x y : I16) (wc : U16)
    (rest : List Byte) (hwc : 10000 < wc.val) :
    Page.deserialize tag u
        { data := serialization.writePod PAGE_FILE_VERSION ++ (serialization.writePod (1 : U32)
            ++ (serialization.writePod tag ++ (serialization.writePod x
            ++ (serialization.writePod y ++ (serialization.writePod wc ++ rest))))),
          failed := false }
      = (some { elements := [{ block := none, xPos := x, yPos := y }] },
          { data := rest, failed := false }) := by
  unfold Page.deserialize
  simp only [iStream_readPod_writePod]
  rw [if_neg (by simp)]
  have h1 : (1 : U32).val = 1 := rfl
  simp only [h1, Page.deserializeElements, iStream_readPod_writePod, if_true,
    PageLine.deserialize, TextBlock.deserializeStream]
  rw [if_pos hwc]
  rfl

/-- C26 (the code at a failing input): a page record whose only text line declares 10,001
words. `TextBlock::deserialize` rejects the block and returns null, but
`PageLine::deserialize` wraps the null pointer into a line and `Page::deserialize` pushes
it: the decode returns a page holding a line without a text block, whatever the
uninitialised locals held, and writing that page back dereferences the null block. -/
theorem C26_oversized_count_returns_page (u : Page.Uninit) :
    Page.deserialize 1 u { data := oversizedCountRecord, failed := false }
      = (some { elements := [{ block := none, xPos := ⟨7, by decide⟩, yPos := ⟨9, by decide⟩ }] },
          { data := [], failed := false }) ∧
    Page.serialize 1
        { elements := [{ block := none, xPos := ⟨7, by decide⟩, yPos := ⟨9, by decide⟩ }] }
      = none := by
  have hrec : oversizedCountRecord
      = serialization.writePod PAGE_FILE_VERSION ++ (serialization.writePod (1 : U32)
          ++ (serialization.writePod (1 : Byte) ++ (serialization.writePod (⟨7, by decide⟩ : I16)
          ++ (serialization.writePod (⟨9, by decide⟩ : I16)
          ++ (serialization.writePod (10001 : U16) ++ []))))) := by
    decide
  rw [hrec]
  exact ⟨page_deserialize_oversized_count 1 u _ _ 10001 [] (by decide), by decide⟩

namespace EpubReaderActivity

/-- With no progress restore pending, the page made current in a non-empty section lies
inside the section. -/
theorem chooseCurrentPage_in_section (a : EpubReaderActivity) (reindexed : Bool) (pc : U16)
    (hpc : 0 < pc.val) (hpending : a.hasPendingProgressRestore = false) :
    ∃ page, a.chooseCurrentPage reindexed pc = some page ∧ 0 ≤ page ∧
      page < (pc.val : Int) := by
  unfold chooseCurrentPage
  by_cases h1 : a.nextPageNumber = UINT16_MAX
  · rw [if_pos h1]
    exact ⟨_, rfl, by omega, by omega⟩
  · rw [if_neg h1]
    simp only [hpending, Bool.and_false, Bool.false_and, Bool.false_eq_true, if_false,
      Option.map_some']
    refine ⟨_, rfl, ?_, ?_⟩ <;> split_ifs <;> omega

/-- One activation that finds no section, gets a non-empty one from the cache or from a
build and cannot read its page: the section is dropped again and the activation ends in
the tail call, with nothing put on the display but the "Indexing..." box of a build. -/
theorem renderScreenBody_page_load_failure (env : RenderEnv) (a : EpubReaderActivity)
    (epub : Epub) (hepub : a.epub = some epub) (hsec : a.sectionPtr = none)
    (h0 : 0 ≤ a.currentSpineIndex) (h1 : a.currentSpineIndex < epub.spineItemsCount)
    (hpending : a.hasPendingProgressRestore = false)
    (hload : (∃ pc : U16, env.loadSectionFile = some pc ∧ 0 < pc.val) ∨
      (env.loadSectionFile = none ∧ ∃ pc : U16, env.createSectionFile = some pc ∧ 0 < pc.val))
    (hpage : env.loadPageFromSectionFile = false) :
    ∃ a' ev, a.renderScreenBody env = some (a', ev, true) ∧ a'.epub = some epub ∧
      a'.sectionPtr = none ∧ a'.currentSpineIndex = a.currentSpineIndex ∧
      a'.hasPendingProgressRestore = false ∧
      ∀ s, s ≠ Shown.indexing → ReaderEvent.display s ∉ ev := by
  have hclamp : clampSpineIndex epub a = a := by
    unfold clampSpineIndex
    simp only [if_neg (not_lt.mpr h0), if_neg (not_lt.mpr (le_of_lt h1))]
  obtain ⟨e, sp, csi, npn, puf, ur, rc, hp, hcnt, prs, prc⟩ := a
  simp only at hepub hsec h0 h1 hpending
  subst hepub hsec hpending
  unfold renderScreenBody
  simp only [hclamp, if_neg (ne_of_lt h1)]
  unfold ensureSection
  rcases hload with ⟨pc, hl, hpc⟩ | ⟨hl, pc, hc, hpc⟩
  · obtain ⟨page, hchoose, hp0, hp1⟩ :=
      chooseCurrentPage_in_section
        { epub := some epub, sectionPtr := none, currentSpineIndex := csi,
          nextPageNumber := npn, pagesUntilFullRefresh := puf, updateRequired := ur,
          sectionBuildRetryCount := 0, hasPendingProgressRestore := false,
          hasProgressRestoreSectionPageCount := hcnt, progressRestoreSpineIndex := prs,
          progressRestoreSectionPageCount := prc } false pc hpc rfl
    simp only [hl, finishSection, hchoose]
    unfold renderSection
    simp only
    rw [if_neg (by omega), if_neg (by omega), hpage]
    simp only [Bool.not_false, if_true]
    refine ⟨_, _, rfl, rfl, rfl, rfl, rfl, ?_⟩
    intro s _
    simp
  · obtain ⟨page, hchoose, hp0, hp1⟩ :=
      chooseCurrentPage_in_section
        { epub := some epub, sectionPtr := none, currentSpineIndex := csi,
          nextPageNumber := npn, pagesUntilFullRefresh := 0, updateRequired := ur,
          sectionBuildRetryCount := 0, hasPendingProgressRestore := false,
          hasProgressRestoreSectionPageCount := hcnt, progressRestoreSpineIndex := prs,
          progressRestoreSectionPageCount := prc } true pc hpc rfl
    simp only [hl, hc, finishSection, hchoose]
    unfold renderSection
    simp only
    rw [if_neg (by omega), if_neg (by omega), hpage]
    simp only [Bool.not_false, if_true]
    refine ⟨_, _, rfl, rfl, rfl, rfl, rfl, ?_⟩
    intro s hs
    simpa using hs

/-- While every activation gets a non-empty section and fails to read its page,
`renderScreen` has not returned after any number of activations. -/
theorem renderScreen_page_load_failure (envs : Nat → RenderEnv) (epub : Epub)
    (hload : ∀ d, (∃ pc : U16, (envs d).loadSectionFile = some pc ∧ 0 < pc.val) ∨
      ((envs d).loadSectionFile = none ∧
        ∃ pc : U16, (envs d).createSectionFile = some pc ∧ 0 < pc.val))
    (hpage : ∀ d, (envs d).loadPageFromSectionFile = false) (fuel : Nat) :
    ∀ (depth : Nat) (a : EpubReaderActivity), a.epub = some epub → a.sectionPtr = none →
      0 ≤ a.currentSpineIndex → a.currentSpineIndex < epub.spineItemsCount →
      a.hasPendingProgressRestore = false →
      renderScreen envs fuel depth a = RunResult.unfinished := by
  induction fuel with
  | zero =>
    intro depth a _ _ _ _ _
    rfl
  | succ k ih =>
    intro depth a hepub hsec h0 h1 hpending
    obtain ⟨a', ev, hbody, he', hs', hc', hp', -⟩ :=
      renderScreenBody_page_load_failure (envs depth) a epub hepub hsec h0 h1 hpending
        (hload depth) (hpage depth)
    unfold renderScreen
    rw [hbody]
    simp only
    rw [ih (depth + 1) a' he' hs' (by rw [hc']; exact h0) (by rw [hc']; exact h1) hp']

end EpubReaderActivity

/-- C27 (the code at a failing input): a book whose section of 10 pages is there (cached at
first, rebuilt after every `clearCache`) while `loadPageFromSectionFile` fails on every
call. Each activation of `renderScreen` gets the section, fails to read the page, clears
the cache, drops the section and re-enters `renderScreen`: whatever the number of
activations allowed, the call has not returned. The first two activations are spelled out;
neither shows a page or a placeholder. -/
theorem C27_page_load_failure_never_returns (fuel depth : Nat) :
    EpubReaderActivity.renderScreen pageFailingEnvs fuel depth sampleActivity
        = RunResult.unfinished ∧
      sampleActivity.renderScreenBody (pageFailingEnvs 0)
        = some ({ sampleActivity with sectionPtr := none },
            [ReaderEvent.loadSectionFile true, ReaderEvent.loadPage false,
              ReaderEvent.clearCache], true) ∧
      sampleActivity.renderScreenBody (pageFailingEnvs 1)
        = some ({ sampleActivity with sectionPtr := none },
            [ReaderEvent.loadSectionFile false, ReaderEvent.display Shown.indexing,
              ReaderEvent.createSectionFile true, ReaderEvent.loadPage false,
              ReaderEvent.clearCache], true) := by
  refine ⟨?_, by decide, by decide⟩
  apply EpubReaderActivity.renderScreen_page_load_failure pageFailingEnvs
    { spineItemsCount := 12, spineIndexForTextReference := 2 } _ (fun _ => rfl) fuel depth
    sampleActivity rfl rfl (by decide) (by decide) rfl
  intro d
  by_cases hd : d = 0
  · exact Or.inl ⟨10, by simp [pageFailingEnvs, hd], by decide⟩
  · exact Or.inr ⟨by simp [pageFailingEnvs, hd], 10, rfl, by decide⟩

/-! ## EpubReaderActivity: a failed read of the progress file -/

/-- C30 (the code at a failing input): `progress.bin` opens, but `f.read` fails and returns
-1, leaving the buffer `data` as it was (`d0` .. `d5`). In `bytesRead >= legacyProgressSize`
the `int` is converted to `size_t`, so -1 counts as 4294967295 and passes both size tests:
the chapter index, the page number and the section page count are taken from the unread
buffer and a progress restore is marked pending. -/
theorem C30_negative_read_restores_buffer (a : EpubReaderActivity) (d0 d1 d2 d3 d4 d5 : Byte) :
    toSizeT (-1) = 4294967295 ∧
      a.loadProgress (some { bytesRead := -1, data := [d0, d1, d2, d3, d4, d5] })
        = { a with
            currentSpineIndex := (d0.val : Int) + (d1.val : Int) * 256
            nextPageNumber := (d2.val : Int) + (d3.val : Int) * 256
            progressRestoreSpineIndex := (d0.val : Int) + (d1.val : Int) * 256
            hasPendingProgressRestore := true
            hasProgressRestoreSectionPageCount := true
            progressRestoreSectionPageCount := U16.ofNat (d4.val + d5.val * 256) } := by
  refine ⟨by decide, ?_⟩
  have h4 : toSizeT (-1) ≥ legacyProgressSize := by decide
  have h6 : toSizeT (-1) ≥ progressSizeWithSectionPageCount := by decide
  unfold EpubReaderActivity.loadProgress
  simp only [h4, h6, if_true, decide_True, List.getD_cons_zero, List.getD_cons_succ]

/-! ## ListNavigation -/

/-- Division and remainder of a non-negative `int` by a positive one are defined, and are
the floor quotient and its remainder. -/
theorem intDiv_intRem_of_nonneg (a b : Int) (ha0 : 0 ≤ a) (ha1 : a < 2147483648) (hb : 0 < b) :
    intDiv a b = some (a / b) ∧ intRem a b = some (a % b) := by
  have hq0 : 0 ≤ a / b := Int.ediv_nonneg ha0 (le_of_lt hb)
  have hq1 : a / b ≤ a := Int.ediv_le_self b ha0
  have h32 : int32 (a / b) = some (a / b) := by
    unfold int32 checkedSigned
    rw [if_pos (by constructor <;> norm_num <;> omega)]
  unfold intDiv intRem
  rw [if_neg (ne_of_gt hb), if_neg (ne_of_gt hb), Int.tdiv_eq_ediv ha0 (le_of_lt hb),
    Int.tmod_eq_emod ha0 (le_of_lt hb), h32]
  exact ⟨rfl, rfl⟩

/-- The function `nextPage` stays inside the list whenever `total + pageSize` fits an
`int`. -/
theorem nextPage_in_range (current pageSize total : Int) (hp : 1 ≤ pageSize) (hc0 : 0 ≤ current)
    (hc1 : current < total) (hfit : total + pageSize < 2147483648) :
    ∃ r, ListNavigation.nextPage current pageSize total = some r ∧ 0 ≤ r ∧ r < total := by
  have hq0 : 0 ≤ current / pageSize := Int.ediv_nonneg hc0 (by omega)
  have hmul : current / pageSize * pageSize ≤ current := Int.ediv_mul_le current (by omega)
  have hstart : (current / pageSize + 1) * pageSize = current / pageSize * pageSize + pageSize := by
    ring
  have hs0 : 0 ≤ (current / pageSize + 1) * pageSize :=
    mul_nonneg (by omega) (by omega)
  have hq1 : current / pageSize ≤ current := Int.ediv_le_self pageSize hc0
  have h1 : int32 (current / pageSize + 1) = some (current / pageSize + 1) := by
    unfold int32 checkedSigned
    rw [if_pos (by constructor <;> norm_num <;> omega)]
  have h2 : int32 ((current / pageSize + 1) * pageSize)
      = some ((current / pageSize + 1) * pageSize) := by
    unfold int32 checkedSigned
    rw [if_pos (by constructor <;> norm_num <;> omega)]
  unfold ListNavigation.nextPage
  rw [(intDiv_intRem_of_nonneg current pageSize hc0 (by omega) (by omega)).1]
  simp only [Option.some_bind, h1, h2]
  rw [(intDiv_intRem_of_nonneg _ total hs0 (by omega) (by omega)).2]
  exact ⟨_, rfl, Int.emod_nonneg _ (by omega), Int.emod_lt_of_pos _ (by omega)⟩

/-- The function `prevPage` stays inside the list when a page is not longer than the
list. -/
theorem prevPage_in_range (current pageSize total : Int) (hp : 1 ≤ pageSize)
    (hle : pageSize ≤ total) (hc0 : 0 ≤ current) (hc1 : current < total)
    (hfit : total + total < 2147483648) :
    ∃ r, ListNavigation.prevPage current pageSize total = some r ∧ 0 ≤ r ∧ r < total := by
  have hq0 : 0 ≤ current / pageSize := Int.ediv_nonneg hc0 (by omega)
  have hmul : current / pageSize * pageSize ≤ current := Int.ediv_mul_le current (by omega)
  have hstart : (current / pageSize - 1) * pageSize = current / pageSize * pageSize - pageSize := by
    ring
  have hm0 : 0 ≤ current / pageSize * pageSize := mul_nonneg hq0 (by omega)
  have hq1 : current / pageSize ≤ current := Int.ediv_le_self pageSize hc0
  have h1 : int32 (current / pageSize - 1) = some (current / pageSize - 1) := by
    unfold int32 checkedSigned
    rw [if_pos (by constructor <;> norm_num <;> omega)]
  have h2 : int32 ((current / pageSize - 1) * pageSize)
      = some ((current / pageSize - 1) * pageSize) := by
    unfold int32 checkedSigned
    rw [if_pos (by constructor <;> norm_num <;> omega)]
  have h3 : int32 ((current / pageSize - 1) * pageSize + total)
      = some ((current / pageSize - 1) * pageSize + total) := by
    unfold int32 checkedSigned
    rw [if_pos (by constructor <;> norm_num <;> omega)]
  unfold ListNavigation.prevPage
  rw [(intDiv_intRem_of_nonneg current pageSize hc0 (by omega) (by omega)).1]
  simp only [Option.some_bind, h1, h2, h3]
  rw [(intDiv_intRem_of_nonneg _ total (by omega) (by omega) (by omega)).2]
  exact ⟨_, rfl, Int.emod_nonneg _ (by omega), Int.emod_lt_of_pos _ (by omega)⟩

/-- C24 (the code at a failing input): a list of 3 items shown 10 to a page, the first
item selected. `prevPage` computes `((0 / 10 - 1) * 10 + 3) % 3 = (-7) % 3`, and the
truncating remainder of a negative dividend is negative: the result is -1, not an index of
the list. `nextPage` on the same list stays inside it. -/
theorem C24_prevPage_leaves_list :
    ListNavigation.prevPage 0 10 3 = some (-1) ∧ ListNavigation.nextPage 0 10 3 = some 1 := by
  decide


/-! ## MyLibraryActivity -/

/-- The release-driven navigation of `MyLibraryActivity::loop` leaves an empty list
alone: no remainder is evaluated. -/
theorem releaseNavigation_empty (a : MyLibraryActivity) (pageItems : Int) (i : LibraryInput) :
    a.releaseNavigation 0 pageItems i = some a := by
  unfold MyLibraryActivity.releaseNavigation
  simp

/-- C29 (the code at a failing input): the library shows an empty list (`itemCount = 0`)
and Down is held past the medium threshold. `poll` returns `mediumNext`, and the page skip
evaluates `((selectorIndex / pageItems + 1) * pageItems) % itemCount` with `itemCount = 0`:
a remainder by zero, undefined behaviour. With Up held the same happens in the `mediumPrev`
branch. The release-driven navigation tests `itemCount > 0` first and leaves the empty
list alone. -/
theorem C29_hold_skip_divides_by_zero :
    (LongPressHandler.init.poll false true 900 700 1500 false).1.mediumNext = true ∧
      emptyLibrary.holdSkip 0 10 holdingDown = none ∧
      emptyLibrary.holdSkip 0 10 { holdingDown with prevPressed := true, nextPressed := false }
        = none ∧
      emptyLibrary.releaseNavigation 0 10
          { holdingDown with nextPressed := false, anyWasReleased := true, downReleased := true }
        = some emptyLibrary := by
  decide

/-! ## DisplayTaskHelpers -/

/-- C21: one iteration of `displayLoop`, for each of its three overloads. If
`updateRequired` is set and the guard, when there is one, returns true, the iteration
clears the flag, takes the mutex, runs `render`, gives the mutex and runs the post-render
hook (when there is one), in this order, `render` seeing the flag cleared; `render` runs
while the mutex is held and the hook after it is given. Otherwise the iteration runs
neither, takes no mutex and leaves the world, `updateRequired` included, as it was. -/
theorem C21_display_loop_iteration {σ : Type} (render postRender : DisplayWorld σ → DisplayWorld σ)
    (canRender : DisplayWorld σ → Bool) (w : DisplayWorld σ) :
    (w.updateRequired = true →
      DisplayTaskHelpers.displayLoopBody render w
        = (render { w with updateRequired := false },
            [DisplayEvent.clearFlag, DisplayEvent.takeMutex, DisplayEvent.render,
              DisplayEvent.giveMutex, DisplayEvent.delay]) ∧
      DisplayTaskHelpers.displayLoopBodyPost render postRender w
        = (postRender (render { w with updateRequired := false }),
            [DisplayEvent.clearFlag, DisplayEvent.takeMutex, DisplayEvent.render,
              DisplayEvent.giveMutex, DisplayEvent.postRender, DisplayEvent.delay])) ∧
    (w.updateRequired = true → canRender w = true →
      DisplayTaskHelpers.displayLoopBodyGuarded render postRender canRender w
        = (postRender (render { w with updateRequired := false }),
            [DisplayEvent.clearFlag, DisplayEvent.takeMutex, DisplayEvent.render,
              DisplayEvent.giveMutex, DisplayEvent.postRender, DisplayEvent.delay])) ∧
    (w.updateRequired = false →
      DisplayTaskHelpers.displayLoopBody render w = (w, [DisplayEvent.delay]) ∧
      DisplayTaskHelpers.displayLoopBodyPost render postRender w = (w, [DisplayEvent.delay])) ∧
    (w.updateRequired = false ∨ canRender w = false →
      DisplayTaskHelpers.displayLoopBodyGuarded render postRender canRender w
        = (w, [DisplayEvent.delay])) ∧
    DisplayTaskHelpers.wellLocked false (DisplayTaskHelpers.displayLoopBody render w).2 = true ∧
    DisplayTaskHelpers.wellLocked false
      (DisplayTaskHelpers.displayLoopBodyPost render postRender w).2 = true ∧
    DisplayTaskHelpers.wellLocked false
      (DisplayTaskHelpers.displayLoopBodyGuarded render postRender canRender w).2 = true := by
  unfold DisplayTaskHelpers.displayLoopBody DisplayTaskHelpers.displayLoopBodyPost
    DisplayTaskHelpers.displayLoopBodyGuarded
  cases hu : w.updateRequired <;> cases hc : canRender w <;>
    simp [DisplayTaskHelpers.wellLocked]

theorem C21_display_loop_iteration_witness :
    DisplayTaskHelpers.displayLoopBodyGuarded countingRender countingHook
        (fun w => decide (w.state < 5)) { updateRequired := true, state := 0 }
      = (countingHook (countingRender { updateRequired := false, state := 0 }),
          [DisplayEvent.clearFlag, DisplayEvent.takeMutex, DisplayEvent.render,
            DisplayEvent.giveMutex, DisplayEvent.postRender, DisplayEvent.delay]) ∧
    DisplayTaskHelpers.displayLoopBodyGuarded countingRender countingHook
        (fun w => decide (w.state < 5)) { updateRequired := true, state := 7 }
      = ({ updateRequired := true, state := 7 }, [DisplayEvent.delay]) :=
  ⟨(C21_display_loop_iteration countingRender countingHook (fun w => decide (w.state < 5))
      { updateRequired := true, state := 0 }).2.1 rfl (by decide),
    (C21_display_loop_iteration countingRender countingHook (fun w => decide (w.state < 5))
      { updateRequired := true, state := 7 }).2.2.2.1 (Or.inr (by decide))⟩

/-! ## Processing profiles -/

theorem flatten_readChunksAux (size : Nat) (hsize : 0 < size) (fuel : Nat) (content : List Byte)
    (hfuel : content.length ≤ fuel) : (readChunksAux size fuel content).flatten = content := by
  induction fuel generalizing content with
  | zero =>
    have : content = [] := List.length_eq_zero.mp (Nat.le_zero.mp hfuel)
    subst this
    rfl
  | succ k ih =>
    unfold readChunksAux
    by_cases hc : content = []
    · rw [if_pos hc, hc]
      rfl
    · rw [if_neg hc]
      have hpos : 0 < content.length := List.length_pos.mpr hc
      have hdrop : (content.drop size).length ≤ k := by
        rw [List.length_drop]
        omega
      rw [List.flatten_cons, ih _ hdrop, List.take_append_drop]

/-- Reading through a buffer of positive size delivers the content, whatever the size. -/
theorem flatten_readChunks (size : Nat) (hsize : 0 < size) (content : List Byte) :
    (readChunks size content).flatten = content :=
  flatten_readChunksAux size hsize _ content (le_refl _)

/-- A cache whose entries are measurements answers like the metric itself. -/
theorem cachedMetric_of_sound {κ : Type} [DecidableEq κ] (measure : κ → Nat)
    (cache : List (κ × Nat)) (hcache : ∀ e ∈ cache, e.2 = measure e.1) (key : κ) :
    cachedMetric measure cache key = measure key := by
  induction cache with
  | nil => rfl
  | cons e cache ih =>
    obtain ⟨k, m⟩ := e
    have hm : m = measure k := hcache (k, m) (List.mem_cons_self _ _)
    have ih' := ih (fun x hx => hcache x (List.mem_cons_of_mem _ hx))
    unfold cachedMetric at ih' ⊢
    by_cases hk : key = k
    · subst hk
      simp only [List.lookup_cons, beq_self_eq_true]
      exact hm
    · have hb : (key == k) = false := by simpa using hk
      simp only [List.lookup_cons, hb]
      exact ih'

theorem fillMetricCache_sound {κ : Type} [DecidableEq κ] (measure : κ → Nat) (keys : List κ)
    (cache : List (κ × Nat)) (hcache : ∀ e ∈ cache, e.2 = measure e.1) :
    ∀ e ∈ fillMetricCache measure cache keys, e.2 = measure e.1 := by
  induction keys generalizing cache with
  | nil => exact hcache
  | cons key keys ih =>
    unfold fillMetricCache
    apply ih
    intro e he
    rcases List.mem_cons.mp he with h | h
    · rw [h]
      exact cachedMetric_of_sound measure cache hcache key
    · exact hcache e h

theorem sectionChunkSizeOrDefault_pos (p : EpubProcessingProfile) :
    0 < p.sectionChunkSizeOrDefault := by
  unfold EpubProcessingProfile.sectionChunkSizeOrDefault EpubProcessingProfile.DEFAULT_CHUNK_SIZE
  split_ifs <;> omega

theorem parseChunkSizeOrDefault_pos (p : EpubProcessingProfile) :
    0 < p.parseChunkSizeOrDefault := by
  unfold EpubProcessingProfile.parseChunkSizeOrDefault EpubProcessingProfile.DEFAULT_CHUNK_SIZE
  split_ifs <;> omega

/-- A build does not depend on the profile: it is the layout of the whole chapter with the
plain metric. -/
theorem createSectionFile_eq {ρ κ : Type} [DecidableEq κ]
    (layout : ρ → (κ → Nat) → List Byte → List Page) (measure : κ → Nat) (measured : List κ)
    (params : ρ) (chapter : List Byte) (profile : EpubProcessingProfile) :
    Section.createSectionFile layout measure measured params chapter profile
      = { pages := layout params measure chapter,
          pageCount := U16.ofNat (layout params measure chapter).length } := by
  have hmetric : cachedMetric measure (fillMetricCache measure [] measured) = measure := by
    funext key
    exact cachedMetric_of_sound measure _
      (fillMetricCache_sound measure measured [] (fun e he => absurd he (List.not_mem_nil e))) key
  unfold Section.createSectionFile
  simp only [flatten_readChunks _ (sectionChunkSizeOrDefault_pos profile),
    flatten_readChunks _ (parseChunkSizeOrDefault_pos profile), hmetric, ite_self]

/-- C23: processing profiles are a pure performance knob. For every chapter, every set of
layout parameters, every layout engine and line metric, and whatever was measured before,
`createSectionFile` with `EpubProcessingProfile::baseline()` and with
`EpubProcessingProfile::optimized()` leaves the same pages and the same page count. -/
theorem C23_profiles_same_pages {ρ κ : Type} [DecidableEq κ]
    (layout : ρ → (κ → Nat) → List Byte → List Page) (measure : κ → Nat) (measured : List κ)
    (params : ρ) (chapter : List Byte) :
    Section.createSectionFile layout measure measured params chapter
        EpubProcessingProfile.baseline
      = Section.createSectionFile layout measure measured params chapter
        EpubProcessingProfile.optimized := by
  rw [createSectionFile_eq, createSectionFile_eq]

/-! ## EpubReaderActivity::loop: mutations and the rendering mutex -/

namespace EpubReaderActivity

theorem turnPage_resets_locked (a a' : EpubReaderActivity) (h : LongPressHandler) (i : LoopInput)
    (pre ev : List LoopEvent) (hpre : pre = [] ∨ pre = [LoopEvent.takeMutex,
      LoopEvent.exitActivity, LoopEvent.enterNewActivity, LoopEvent.giveMutex])
    (hrun : turnPage a h i = some (a', ev)) : resetsLocked false (pre ++ ev) = true := by
  unfold turnPage at hrun
  simp only at hrun
  rcases hpre with hp | hp <;> subst hp <;> (repeat' split at hrun) <;>
    first
    | (simp only [Option.some.injEq, Prod.mk.injEq] at hrun
       rw [← hrun.2]
       rfl)
    | simp at hrun

theorem chapterSkip_resets_locked (st : ReaderLoop) (i : LoopInput) :
    (chapterSkip st i).2.1 = [] ∨
      (chapterSkip st i).2.1 = [LoopEvent.takeMutex, LoopEvent.setNextPageNumber,
        LoopEvent.setCurrentSpineIndex, LoopEvent.resetSection, LoopEvent.giveMutex] := by
  unfold chapterSkip
  simp only
  split_ifs
  · exact Or.inr rfl
  · exact Or.inr rfl
  · exact Or.inl rfl

/-- In the input handling of `loop` itself (no sub-activity), every `section.reset()` is
made while `renderingMutex` is held. -/
theorem loop_resets_locked (st st' : ReaderLoop) (i : LoopInput) (ev : List LoopEvent)
    (hsub : st.subActivity = false) (hrun : loop st i = some (st', ev)) :
    resetsLocked false ev = true := by
  unfold loop at hrun
  rw [hsub] at hrun
  simp only [Bool.false_eq_true, if_false] at hrun
  have hpre : (if i.confirmReleased = true then
        (({ st with subActivity := true } : ReaderLoop),
          [LoopEvent.takeMutex, LoopEvent.exitActivity, LoopEvent.enterNewActivity,
            LoopEvent.giveMutex])
      else (st, [])).2 = [] ∨
      (if i.confirmReleased = true then
        (({ st with subActivity := true } : ReaderLoop),
          [LoopEvent.takeMutex, LoopEvent.exitActivity, LoopEvent.enterNewActivity,
            LoopEvent.giveMutex])
      else (st, [])).2 = [LoopEvent.takeMutex, LoopEvent.exitActivity,
        LoopEvent.enterNewActivity, LoopEvent.giveMutex] := by
    split_ifs
    · exact Or.inr rfl
    · exact Or.inl rfl
  generalize (if i.confirmReleased = true then
        (({ st with subActivity := true } : ReaderLoop),
          [LoopEvent.takeMutex, LoopEvent.exitActivity, LoopEvent.enterNewActivity,
            LoopEvent.giveMutex])
      else (st, [])) = entered at hrun hpre
  obtain ⟨st1, pre⟩ := entered
  simp only at hrun hpre
  by_cases h1 : (i.backPressed && decide (i.heldTime ≥ i.longPressMs)) = true
  · rw [if_pos h1] at hrun
    simp only [Option.some.injEq, Prod.mk.injEq] at hrun
    rw [← hrun.2]
    rcases hpre with hp | hp <;> subst hp <;> rfl
  · rw [if_neg h1] at hrun
    by_cases h2 : (i.backReleased && decide (i.heldTime < i.longPressMs)) = true
    · rw [if_pos h2] at hrun
      simp only [Option.some.injEq, Prod.mk.injEq] at hrun
      rw [← hrun.2]
      rcases hpre with hp | hp <;> subst hp <;> rfl
    · rw [if_neg h2] at hrun
      have hskip : (if i.longPressChapterSkip = true then chapterSkip st1 i
          else (st1, [], false)).2.1 = [] ∨
          (if i.longPressChapterSkip = true then chapterSkip st1 i
          else (st1, [], false)).2.1 = [LoopEvent.takeMutex, LoopEvent.setNextPageNumber,
            LoopEvent.setCurrentSpineIndex, LoopEvent.resetSection, LoopEvent.giveMutex] := by
        split_ifs
        · exact chapterSkip_resets_locked st1 i
        · exact Or.inl rfl
      generalize (if i.longPressChapterSkip = true then chapterSkip st1 i
          else (st1, [], false)) = skipped at hrun hskip
      obtain ⟨st2, sk, ret⟩ := skipped
      simp only at hrun hskip
      cases ret with
      | true =>
        simp only [if_true, Option.some.injEq, Prod.mk.injEq] at hrun
        rw [← hrun.2]
        rcases hpre with hp | hp <;> rcases hskip with hs | hs <;> subst hp <;> subst hs <;> rfl
      | false =>
        simp only [Bool.false_eq_true, if_false] at hrun
        by_cases h3 : (!i.pageTurn.prevReleased && !i.pageTurn.nextReleased) = true
        · rw [if_pos h3] at hrun
          simp only [Option.some.injEq, Prod.mk.injEq] at hrun
          rw [← hrun.2]
          rcases hpre with hp | hp <;> subst hp <;> rfl
        · rw [if_neg h3] at hrun
          cases ht : turnPage st2.activity st2.longPressHandler i with
          | none =>
            rw [ht] at hrun
            exact absurd hrun (by simp)
          | some r =>
            rw [ht] at hrun
            simp only [Option.map_some', Option.some.injEq, Prod.mk.injEq] at hrun
            rw [← hrun.2]
            exact turnPage_resets_locked _ r.1 _ i pre r.2 hpre ht

end EpubReaderActivity

/-- C22 (the code at failing inputs). While the chapter-selection screen is up, its call
of `onSelectSpineIndex(7)` runs the reader's callback, which changes `currentSpineIndex`
and `nextPageNumber` and discards the section without taking `renderingMutex`; a short
press of the page-forward button inside a section changes `section->currentPage` without
the mutex; so does the step back from the end of the book with `currentSpineIndex` and
`nextPageNumber`. The page turn across the end of the section, a sibling path, does take
the mutex around the same mutations. -/
theorem C22_mutations_outside_the_lock :
    (EpubReaderActivity.loop { readingLoop with subActivity := true }
      { idleInput with subActivity := SubActivityCall.onSelectSpineIndex 7 }).map Prod.snd
      = some [LoopEvent.setCurrentSpineIndex, LoopEvent.setNextPageNumber,
          LoopEvent.resetSection, LoopEvent.exitActivity] ∧
    mutationsLocked false [LoopEvent.setCurrentSpineIndex, LoopEvent.setNextPageNumber,
      LoopEvent.resetSection, LoopEvent.exitActivity] = false ∧
    (EpubReaderActivity.loop readingLoop nextReleasedInput).map Prod.snd
      = some [LoopEvent.setCurrentPage] ∧
    mutationsLocked false [LoopEvent.setCurrentPage] = false ∧
    (EpubReaderActivity.loop
      { readingLoop with activity := { readingLoop.activity with currentSpineIndex := 12 } }
      nextReleasedInput).map Prod.snd
      = some [LoopEvent.setCurrentSpineIndex, LoopEvent.setNextPageNumber] ∧
    (EpubReaderActivity.loop
      { readingLoop with
        activity := { readingLoop.activity with
          sectionPtr := some { pageCount := 10, currentPage := 9 } } }
      nextReleasedInput).map Prod.snd
      = some [LoopEvent.takeMutex, LoopEvent.setNextPageNumber, LoopEvent.setCurrentSpineIndex,
          LoopEvent.resetSection, LoopEvent.giveMutex] ∧
    mutationsLocked false [LoopEvent.takeMutex, LoopEvent.setNextPageNumber,
      LoopEvent.setCurrentSpineIndex, LoopEvent.resetSection, LoopEvent.giveMutex] = true := by
  decide

end CrossPoint
